import Mathlib

/-!
# Display-list cache (`Source/Core/VideoCommon/Src/DLCache.cpp`)

A shallow embedding of the display-list cache: the two command walks
(`AnalyzeAndRunDisplayList`, `CompileAndRunDisplayList`), the dispatcher
`HandleDisplayList`, `ProgressiveCleanup`, `Clear`, `Init` and `Shutdown`.

Conventions of the embedding.

* Host pointers are natural numbers, `0` is the null pointer, and host memory is a
  total map from addresses to bytes (`State.mem`).  A read through the null pointer,
  which C++ leaves undefined, reads `mem` at address `0`.
* The primitive execution interface (`LoadCPReg`, `LoadXFReg`, `LoadIndexedXF`,
  `ExecuteDisplayList`, `LoadBPReg`, `RunVertices`), `VertexManager::Flush` and the
  call of a compiled routine are external: each call is appended to `State.trace`
  with its decoded arguments.  What the walk needs back from them (the bytes a vertex
  batch consumes from the stream, the vertex bytes it produces) is given by `Env` as
  a function of the calls issued so far.  The externals do not touch the cache's own
  state, so the re-entry of `ExecuteDisplayList` into the dispatcher is not followed.
* `int` is `Int`, `u32`/`u64`/pointers are `Nat`; `u8 BufferCount` wraps modulo 256
  and the `u32 → int` conversion of `size` is explicit (`toInt32`).
* The emitter is a write cursor (`State.codePtr`) and the log of the items written
  (`State.code`); the size of an emitted item is given by `Env.itemSize`.
* `new[]`/`delete[]` are an explicit heap: `State.heap` holds the live buffers,
  `State.freed` logs every `delete[]`.
-/

namespace DLCache

/-! ## Constants -/

/-- Modelled from the spec: `OpcodeDecoding.h` is not part of the sources; the opcode of the
no-op command. -/
def GX_NOP : Nat := 0x00
/-- Modelled from the spec: `OpcodeDecoding.h` is not part of the sources; the source comments
the value as `0x61`. -/
def GX_LOAD_BP_REG : Nat := 0x61
/-- Modelled from the spec: `OpcodeDecoding.h` is not part of the sources; the source comments
the value as `0x08`. -/
def GX_LOAD_CP_REG : Nat := 0x08
/-- Modelled from the spec: `OpcodeDecoding.h` is not part of the sources; register-block load. -/
def GX_LOAD_XF_REG : Nat := 0x10
/-- Modelled from the spec: `OpcodeDecoding.h` is not part of the sources; indexed load, bank A. -/
def GX_LOAD_INDX_A : Nat := 0x20
/-- Modelled from the spec: `OpcodeDecoding.h` is not part of the sources; indexed load, bank B. -/
def GX_LOAD_INDX_B : Nat := 0x28
/-- Modelled from the spec: `OpcodeDecoding.h` is not part of the sources; indexed load, bank C. -/
def GX_LOAD_INDX_C : Nat := 0x30
/-- Modelled from the spec: `OpcodeDecoding.h` is not part of the sources; indexed load, bank D. -/
def GX_LOAD_INDX_D : Nat := 0x38
/-- Modelled from the spec: `OpcodeDecoding.h` is not part of the sources; nested display list. -/
def GX_CMD_CALL_DL : Nat := 0x40
/-- Modelled from the spec: `OpcodeDecoding.h` is not part of the sources; the source logs this
opcode as `GX 0x44`. -/
def GX_CMD_UNKNOWN_METRICS : Nat := 0x44
/-- Modelled from the spec: `OpcodeDecoding.h` is not part of the sources; invalidate vertex
cache. -/
def GX_CMD_INVL_VC : Nat := 0x48
/-- Modelled from the spec: `OpcodeDecoding.h` is not part of the sources; primitive kind bits of
a draw command. -/
def GX_PRIMITIVE_MASK : Nat := 0x78
/-- Modelled from the spec: `OpcodeDecoding.h` is not part of the sources; shift of the primitive
kind. -/
def GX_PRIMITIVE_SHIFT : Nat := 3
/-- Modelled from the spec: `OpcodeDecoding.h` is not part of the sources; vertex loader index
bits ("Vertex loader index (0 - 7)" in the source). -/
def GX_VAT_MASK : Nat := 0x07

/-- `#define DL_CODE_CACHE_SIZE (1024*1024*16)`. -/
def DL_CODE_CACHE_SIZE : Nat := 1024 * 1024 * 16

/-! ## Data model -/

/-- `enum DisplayListPass`. -/
inductive DisplayListPass
  | DLPASS_ANALYZE
  | DLPASS_COMPILE
  | DLPASS_RUN
  deriving DecidableEq, Repr

/-- A call observed at the boundary of the cache: the six primitives, the vertex manager's
flush and the call of a compiled routine through its function pointer. -/
inductive Event
  | LoadCPReg (sub_cmd value : Nat)
  | LoadXFReg (transfer_size xf_address : Nat) (data : List Nat)
  | LoadIndexedXF (value refarray : Nat)
  | ExecuteDisplayList (addr count : Nat)
  | LoadBPReg (value : Nat)
  | RunVertices (loader primitive numVertices : Nat)
  | Flush
  | CallCompiled (compiled_code : Nat)
  deriving DecidableEq, Repr

/-- The functions a compiled routine calls. -/
inductive Fn
  | LoadCPReg
  | LoadXFReg
  | LoadIndexedXF
  | ExecuteDisplayList
  | LoadBPReg
  | RunCompiledVertices
  deriving DecidableEq, Repr

/-- What the emitter appends to the code arena. -/
inductive CodeItem
  | Prologue (maxCallParams : Nat)
  | Epilogue (maxCallParams : Nat)
  | CallFunctionC (fn : Fn) (p1 : Nat)
  | CallFunctionCC (fn : Fn) (p1 p2 : Nat)
  | CallFunctionCCP (fn : Fn) (p1 p2 : Nat) (p3 : Nat)
  | CallFunctionCCCP (fn : Fn) (p1 p2 p3 : Nat) (p4 : Nat)
  deriving DecidableEq, Repr

/-- The counters of `Statistics` that the cache reads or writes (`stats.x` and
`stats.thisFrame.x`). -/
structure Statistics where
  numDListsCalled : Int
  numDListsAlive : Int
  thisFrame_numPrims : Int
  thisFrame_numDLPrims : Int
  thisFrame_numXFLoads : Int
  thisFrame_numXFLoadsInDL : Int
  thisFrame_numCPLoads : Int
  thisFrame_numCPLoadsInDL : Int
  thisFrame_numBPLoads : Int
  thisFrame_numBPLoadsInDL : Int
  thisFrame_numDListsCalled : Int
  deriving DecidableEq, Repr

/-- `struct CachedDisplayList`.  `Vdata` is the `std::map<u8, DataPointer>`, kept sorted by key. -/
structure CachedDisplayList where
  uncachable : Bool
  pass : DisplayListPass
  dl_hash : Nat
  check : Int
  next_check : Int
  frame_count : Int
  BufferCount : Nat
  Vdata : List (Nat × Nat)
  num_xf_reg : Int
  num_cp_reg : Int
  num_bp_reg : Int
  num_index_xf : Int
  num_draw_call : Int
  compiled_code : Nat
  deriving DecidableEq, Repr

/-- The external collaborators.
* `Memory_GetPtr` resolves an emulated address to a host pointer, `0` on failure;
* `hash64` is `GetHash64` as a function of the bytes of the range;
* `vtxBytes` is the number of stream bytes `RunVertices` reads, `vtxData` the bytes found between
  `s_pBaseBufferPointer` and `s_pCurBufferPointer` after it, both as functions of the calls issued
  so far and of the call's arguments;
* `itemSize` is the number of bytes the emitter writes for an item;
* `uninit_dl_hash`, `uninit_check`, `uninit_compiled_code` are the indeterminate values of the
  three fields that the constructor of `CachedDisplayList` does not initialise. -/
structure Env where
  Memory_GetPtr : Nat → Nat
  hash64 : List Nat → Nat
  vtxBytes : List Event → Nat → Nat → Nat → Nat
  vtxData : List Event → Nat → Nat → Nat → List Nat
  itemSize : CodeItem → Nat
  uninit_dl_hash : Nat
  uninit_check : Int
  uninit_compiled_code : Nat

/-- The global state: configuration, `frameCount`, host memory, the reader cursor
`g_pVideoData`, the trace of external calls, `stats`, `dl_map`, the emitter
(`dlcode_cache`, cursor, written items) and the heap. -/
structure State where
  bDlistCachingEnable : Bool
  frameCount : Int
  mem : Nat → Nat
  g_pVideoData : Nat
  trace : List Event
  stats : Statistics
  dl_map : List (Nat × CachedDisplayList)
  dlcode_cache : Nat
  codePtr : Nat
  code : List (Nat × CodeItem)
  heapNext : Nat
  heap : List (Nat × List Nat)
  freed : List Nat

/-! ## Ordered maps (`std::map`) as sorted association lists -/

/-- `map::find`. -/
def mapFind {α : Type} (k : Nat) : List (Nat × α) → Option α
  | [] => none
  | (k', v) :: t => if k = k' then some v else mapFind k t

/-- `map[k] = v`: overwrite the value under `k`, or insert in key order. -/
def mapSet {α : Type} (k : Nat) (v : α) : List (Nat × α) → List (Nat × α)
  | [] => [(k, v)]
  | (k', v') :: t =>
    if k = k' then (k, v) :: t
    else if k < k' then (k, v) :: (k', v') :: t
    else (k', v') :: mapSet k v t

/-! ## Helpers: integers, statistics, data reader, heap, emitter -/

/-- Conversion of a `u32` to `int` (two's complement). -/
def toInt32 (x : Nat) : Int :=
  if x % 2 ^ 32 < 2 ^ 31 then ((x % 2 ^ 32 : Nat) : Int) else ((x % 2 ^ 32 : Nat) : Int) - 2 ^ 32

/-- `inline u64 CreateMapId(u32 address, u32 size)`. -/
def CreateMapId (address size : Nat) : Nat :=
  ((address <<< 32) % 2 ^ 64) ||| size

/-- Modelled from the spec: `Statistics.cpp` is not part of the sources; `Statistics::SwapDL`
exchanges the display-list counters with the plain ones ("temporarily swap dl and non-dl"). -/
def SwapDL (st : Statistics) : Statistics :=
  { st with
    thisFrame_numPrims := st.thisFrame_numDLPrims
    thisFrame_numDLPrims := st.thisFrame_numPrims
    thisFrame_numXFLoads := st.thisFrame_numXFLoadsInDL
    thisFrame_numXFLoadsInDL := st.thisFrame_numXFLoads
    thisFrame_numCPLoads := st.thisFrame_numCPLoadsInDL
    thisFrame_numCPLoadsInDL := st.thisFrame_numCPLoads
    thisFrame_numBPLoads := st.thisFrame_numBPLoadsInDL
    thisFrame_numBPLoadsInDL := st.thisFrame_numBPLoads }

/-- `Statistics::SwapDL()` on the global state. -/
def State.SwapDL (s : State) : State := { s with stats := DLCache.SwapDL s.stats }

/-- `INCSTAT(stats.numDListsCalled); INCSTAT(stats.thisFrame.numDListsCalled);`. -/
def State.incDListsCalled (s : State) : State :=
  { s with stats := { s.stats with
      numDListsCalled := s.stats.numDListsCalled + 1
      thisFrame_numDListsCalled := s.stats.thisFrame_numDListsCalled + 1 } }

/-- Append an external call to the trace. -/
def State.call (s : State) (e : Event) : State := { s with trace := s.trace ++ [e] }

/-- The byte of host memory at a pointer. -/
def State.byteAt (s : State) (p : Nat) : Nat := s.mem p % 256

/-- Modelled from the spec: `DataReader.h` is not part of the sources; `DataReadU8` returns the
byte under the cursor and advances the cursor by one. -/
def DataReadU8 (s : State) : Nat × State :=
  (s.byteAt s.g_pVideoData, { s with g_pVideoData := s.g_pVideoData + 1 })

/-- Modelled from the spec: `DataReader.h` is not part of the sources; `DataReadU16` assembles two
bytes, most significant first, and advances the cursor by two. -/
def DataReadU16 (s : State) : Nat × State :=
  (s.byteAt s.g_pVideoData * 256 + s.byteAt (s.g_pVideoData + 1),
   { s with g_pVideoData := s.g_pVideoData + 2 })

/-- Modelled from the spec: `DataReader.h` is not part of the sources; `DataReadU32` assembles
four bytes, most significant first, and advances the cursor by four. -/
def DataReadU32 (s : State) : Nat × State :=
  (((s.byteAt s.g_pVideoData * 256 + s.byteAt (s.g_pVideoData + 1)) * 256
      + s.byteAt (s.g_pVideoData + 2)) * 256 + s.byteAt (s.g_pVideoData + 3),
   { s with g_pVideoData := s.g_pVideoData + 4 })

/-- The loop `for (int i = 0; i < transfer_size; i++) data_buffer[i] = DataReadU32();`. -/
def readWords : Nat → State → List Nat × State
  | 0, s => ([], s)
  | n + 1, s =>
    let r := DataReadU32 s
    let rest := readWords n r.2
    (r.1 :: rest.1, rest.2)

/-- The `len` bytes of host memory from `p` on. -/
def readBytes (mem : Nat → Nat) (p : Nat) : Nat → List Nat
  | 0 => []
  | n + 1 => (mem p % 256) :: readBytes mem (p + 1) n

/-- `GetHash64(Memory_GetPtr(address), size, 0)`; the length parameter of `GetHash64` is an
`int`. -/
def GetHash64 (env : Env) (s : State) (address size : Nat) : Nat :=
  env.hash64 (readBytes s.mem (env.Memory_GetPtr address) (toInt32 size).toNat)

/-- The content of the live heap buffer at a pointer. -/
def heapLookup (p : Nat) : List (Nat × List Nat) → Option (List Nat)
  | [] => none
  | (q, d) :: t => if p = q then some d else heapLookup p t

/-- `new u8[...]` followed by the writes that fill the buffer: a fresh pointer whose buffer holds
`content`. -/
def State.new (s : State) (content : List Nat) : Nat × State :=
  (s.heapNext, { s with heapNext := s.heapNext + 1, heap := (s.heapNext, content) :: s.heap })

/-- `delete [] p`. -/
def State.delete (s : State) (p : Nat) : State :=
  { s with heap := s.heap.filter (fun b => b.1 ≠ p), freed := s.freed ++ [p] }

/-- The loop that walks `Vdata`, deletes every buffer and erases every element. -/
def deleteAll : List (Nat × Nat) → State → State
  | [], s => s
  | (_, p) :: t, s => deleteAll t (s.delete p)

/-- `emitter.AlignCode4()`. -/
def State.AlignCode4 (s : State) : State :=
  { s with codePtr := s.codePtr + (4 - s.codePtr % 4) % 4 }

/-- Write one item at the cursor and advance the cursor by the item's size. -/
def State.emit (env : Env) (s : State) (item : CodeItem) : State :=
  { s with code := s.code ++ [(s.codePtr, item)], codePtr := s.codePtr + env.itemSize item }

/-- `VertexLoaderManager::RunVertices(loader, primitive, numVertices)`: the call is recorded and
the loader reads its vertex data from the stream, advancing the cursor. -/
def RunVertices (env : Env) (loader primitive numVertices : Nat) (s : State) : State :=
  { s with
    trace := s.trace ++ [Event.RunVertices loader primitive numVertices]
    g_pVideoData := s.g_pVideoData + env.vtxBytes s.trace loader primitive numVertices }

/-! ## First pass: analyze -/

/-- The five local counters of `AnalyzeAndRunDisplayList`. -/
structure Counts where
  num_xf_reg : Int
  num_cp_reg : Int
  num_bp_reg : Int
  num_index_xf : Int
  num_draw_call : Int
  deriving DecidableEq, Repr

/-- Case `GX_LOAD_CP_REG` of the analyzer. -/
def analyze_LOAD_CP_REG (c : Counts) (s : State) : Counts × State :=
  let r1 := DataReadU8 s
  let sub_cmd := r1.1
  let r2 := DataReadU32 r1.2
  let value := r2.1
  let s := r2.2.call (Event.LoadCPReg sub_cmd value)
  let s := { s with stats := { s.stats with
              thisFrame_numCPLoads := s.stats.thisFrame_numCPLoads + 1 } }
  ({ c with num_cp_reg := c.num_cp_reg + 1 }, s)

/-- Case `GX_LOAD_XF_REG` of the analyzer; `data_buffer` is the local array of 16 words. -/
def analyze_LOAD_XF_REG (c : Counts) (s : State) : Counts × State :=
  let r1 := DataReadU32 s
  let Cmd2 := r1.1
  let transfer_size := ((Cmd2 >>> 16) &&& 15) + 1
  let xf_address := Cmd2 &&& 0xFFFF
  let r2 := readWords transfer_size r1.2
  let data_buffer := r2.1
  let s := r2.2.call (Event.LoadXFReg transfer_size xf_address data_buffer)
  let s := { s with stats := { s.stats with
              thisFrame_numXFLoads := s.stats.thisFrame_numXFLoads + 1 } }
  ({ c with num_xf_reg := c.num_xf_reg + 1 }, s)

/-- Cases `GX_LOAD_INDX_A` to `GX_LOAD_INDX_D` of the analyzer, `refarray` being `0xC` to
`0xF`. -/
def analyze_LOAD_INDX (refarray : Nat) (c : Counts) (s : State) : Counts × State :=
  let r := DataReadU32 s
  ({ c with num_index_xf := c.num_index_xf + 1 }, r.2.call (Event.LoadIndexedXF r.1 refarray))

/-- Case `GX_CMD_CALL_DL` of the analyzer. -/
def analyze_CMD_CALL_DL (c : Counts) (s : State) : Counts × State :=
  let r1 := DataReadU32 s
  let addr := r1.1
  let r2 := DataReadU32 r1.2
  let count := r2.1
  (c, r2.2.call (Event.ExecuteDisplayList addr count))

/-- Case `GX_LOAD_BP_REG` of the analyzer. -/
def analyze_LOAD_BP_REG (c : Counts) (s : State) : Counts × State :=
  let r := DataReadU32 s
  let bp_cmd := r.1
  let s := r.2.call (Event.LoadBPReg bp_cmd)
  let s := { s with stats := { s.stats with
              thisFrame_numBPLoads := s.stats.thisFrame_numBPLoads + 1 } }
  ({ c with num_bp_reg := c.num_bp_reg + 1 }, s)

/-- The draw branch of the analyzer's `default` case (`cmd_byte & 0x80`). -/
def analyze_draw (env : Env) (cmd_byte : Nat) (c : Counts) (s : State) : Counts × State :=
  let r := DataReadU16 s
  let numVertices := r.1
  let s := RunVertices env (cmd_byte &&& GX_VAT_MASK)
    ((cmd_byte &&& GX_PRIMITIVE_MASK) >>> GX_PRIMITIVE_SHIFT) numVertices r.2
  ({ c with num_draw_call := c.num_draw_call + 1 }, s)

/-- The `switch (cmd_byte)` of `AnalyzeAndRunDisplayList`, entered after the command byte has
been read.  In the last branch the source logs the illegal command and breaks out of the
switch, so the loop goes on with the next byte. -/
def analyzeCmd (env : Env) (cmd_byte : Nat) (c : Counts) (s : State) : Counts × State :=
  if cmd_byte = GX_NOP then (c, s)
  else if cmd_byte = GX_LOAD_CP_REG then analyze_LOAD_CP_REG c s
  else if cmd_byte = GX_LOAD_XF_REG then analyze_LOAD_XF_REG c s
  else if cmd_byte = GX_LOAD_INDX_A then analyze_LOAD_INDX 0xC c s
  else if cmd_byte = GX_LOAD_INDX_B then analyze_LOAD_INDX 0xD c s
  else if cmd_byte = GX_LOAD_INDX_C then analyze_LOAD_INDX 0xE c s
  else if cmd_byte = GX_LOAD_INDX_D then analyze_LOAD_INDX 0xF c s
  else if cmd_byte = GX_CMD_CALL_DL then analyze_CMD_CALL_DL c s
  else if cmd_byte = GX_CMD_UNKNOWN_METRICS then (c, s)
  else if cmd_byte = GX_CMD_INVL_VC then (c, s)
  else if cmd_byte = GX_LOAD_BP_REG then analyze_LOAD_BP_REG c s
  else if cmd_byte &&& 0x80 ≠ 0 then analyze_draw env cmd_byte c s
  else (c, s)

/-- The loop `while (g_pVideoData < end)` of `AnalyzeAndRunDisplayList`.  Every iteration reads
at least the command byte, so `fuel` iterations suffice whenever `end - g_pVideoData ≤ fuel`
(`analyzeLoop_exit`). -/
def analyzeLoop (env : Env) (endPtr : Int) : Nat → Counts → State → Counts × State
  | 0, c, s => (c, s)
  | fuel + 1, c, s =>
    if (s.g_pVideoData : Int) < endPtr then
      let r := DataReadU8 s
      let cmd_byte := r.1
      let cs := analyzeCmd env cmd_byte c r.2
      analyzeLoop env endPtr fuel cs.1 cs.2
    else (c, s)

/-- The block under `if (startAddress != 0)` of `AnalyzeAndRunDisplayList`. -/
def analyzeWalk (env : Env) (startAddress : Nat) (size : Int) (s : State) : Counts × State :=
  let s := { s with g_pVideoData := startAddress }
  let s := s.SwapDL
  let endPtr : Int := (s.g_pVideoData : Int) + size
  let cs := analyzeLoop env endPtr (endPtr - s.g_pVideoData).toNat ⟨0, 0, 0, 0, 0⟩ s
  let s := cs.2.incDListsCalled
  let s := s.SwapDL
  (cs.1, s)

/-- `bool AnalyzeAndRunDisplayList(u32 address, int size, CachedDisplayList *dl)`. -/
def AnalyzeAndRunDisplayList (env : Env) (address : Nat) (size : Int) (dl : CachedDisplayList)
    (s : State) : Bool × CachedDisplayList × State :=
  let old_pVideoData := s.g_pVideoData
  let startAddress := env.Memory_GetPtr address
  let cs : Counts × State :=
    if startAddress ≠ 0 then analyzeWalk env startAddress size s
    else (⟨0, 0, 0, 0, 0⟩, s)
  let dl := { dl with
    num_bp_reg := cs.1.num_bp_reg
    num_cp_reg := cs.1.num_cp_reg
    num_draw_call := cs.1.num_draw_call
    num_index_xf := cs.1.num_index_xf
    num_xf_reg := cs.1.num_xf_reg }
  (true, dl, { cs.2 with g_pVideoData := old_pVideoData })

/-! ## Second pass: compile -/

/-- `dl->Vdata[dl->BufferCount] = p; dl->BufferCount++;` with the `u8` counter. -/
def CachedDisplayList.addBuffer (dl : CachedDisplayList) (p : Nat) : CachedDisplayList :=
  { dl with
    Vdata := mapSet dl.BufferCount p dl.Vdata
    BufferCount := (dl.BufferCount + 1) % 256 }

/-- Case `GX_LOAD_CP_REG` of the compiler. -/
def compile_LOAD_CP_REG (env : Env) (dl : CachedDisplayList) (s : State) :
    CachedDisplayList × State :=
  let r1 := DataReadU8 s
  let sub_cmd := r1.1
  let r2 := DataReadU32 r1.2
  let value := r2.1
  let s := r2.2.call (Event.LoadCPReg sub_cmd value)
  let s := { s with stats := { s.stats with
              thisFrame_numCPLoads := s.stats.thisFrame_numCPLoads + 1 } }
  (dl, s.emit env (CodeItem.CallFunctionCC Fn.LoadCPReg sub_cmd value))

/-- Case `GX_LOAD_XF_REG` of the compiler: the words are read into a buffer of
`transfer_size * 4` bytes allocated with `new`, which the entry then owns. -/
def compile_LOAD_XF_REG (env : Env) (dl : CachedDisplayList) (s : State) :
    CachedDisplayList × State :=
  let r1 := DataReadU32 s
  let Cmd2 := r1.1
  let transfer_size := ((Cmd2 >>> 16) &&& 15) + 1
  let xf_address := Cmd2 &&& 0xFFFF
  let r2 := readWords transfer_size r1.2
  let a := r2.2.new r2.1
  let real_data_buffer := a.1
  let s := a.2.call (Event.LoadXFReg transfer_size xf_address r2.1)
  let s := { s with stats := { s.stats with
              thisFrame_numXFLoads := s.stats.thisFrame_numXFLoads + 1 } }
  let dl := dl.addBuffer real_data_buffer
  (dl, s.emit env (CodeItem.CallFunctionCCP Fn.LoadXFReg transfer_size xf_address
    real_data_buffer))

/-- Cases `GX_LOAD_INDX_A` to `GX_LOAD_INDX_D` of the compiler, `refarray` being `0xC` to
`0xF`. -/
def compile_LOAD_INDX (env : Env) (refarray : Nat) (dl : CachedDisplayList) (s : State) :
    CachedDisplayList × State :=
  let r := DataReadU32 s
  let value := r.1
  let s := r.2.call (Event.LoadIndexedXF value refarray)
  (dl, s.emit env (CodeItem.CallFunctionCC Fn.LoadIndexedXF value refarray))

/-- Case `GX_CMD_CALL_DL` of the compiler. -/
def compile_CMD_CALL_DL (env : Env) (dl : CachedDisplayList) (s : State) :
    CachedDisplayList × State :=
  let r1 := DataReadU32 s
  let addr := r1.1
  let r2 := DataReadU32 r1.2
  let count := r2.1
  let s := r2.2.call (Event.ExecuteDisplayList addr count)
  (dl, s.emit env (CodeItem.CallFunctionCC Fn.ExecuteDisplayList addr count))

/-- Case `GX_LOAD_BP_REG` of the compiler. -/
def compile_LOAD_BP_REG (env : Env) (dl : CachedDisplayList) (s : State) :
    CachedDisplayList × State :=
  let r := DataReadU32 s
  let bp_cmd := r.1
  let s := r.2.call (Event.LoadBPReg bp_cmd)
  let s := { s with stats := { s.stats with
              thisFrame_numBPLoads := s.stats.thisFrame_numBPLoads + 1 } }
  (dl, s.emit env (CodeItem.CallFunctionC Fn.LoadBPReg bp_cmd))

/-- The draw branch of the compiler's `default` case (`cmd_byte & 0x80`): flush, run the batch,
and under `if (size > 0)` copy the bytes from `StartAddress` to `EndAddress` into a new buffer
owned by the entry and emit the call of `RunCompiledVertices`. -/
def compile_draw (env : Env) (size : Int) (cmd_byte : Nat) (dl : CachedDisplayList) (s : State) :
    CachedDisplayList × State :=
  let r := DataReadU16 s
  let numVertices := r.1
  let loader := cmd_byte &&& GX_VAT_MASK
  let primitive := (cmd_byte &&& GX_PRIMITIVE_MASK) >>> GX_PRIMITIVE_SHIFT
  let s := r.2.call Event.Flush
  let produced := env.vtxData s.trace loader primitive numVertices
  let s := RunVertices env loader primitive numVertices s
  if size > 0 then
    let a := s.new produced
    let NewData := a.1
    let dl := dl.addBuffer NewData
    (dl, a.2.emit env (CodeItem.CallFunctionCCCP Fn.RunCompiledVertices loader primitive
      numVertices NewData))
  else (dl, s)

/-- The `switch (cmd_byte)` of `CompileAndRunDisplayList`, entered after the command byte has
been read.  In the last branch the source logs the illegal command and breaks out of the
switch, so the loop goes on with the next byte. -/
def compileCmd (env : Env) (size : Int) (cmd_byte : Nat) (dl : CachedDisplayList) (s : State) :
    CachedDisplayList × State :=
  if cmd_byte = GX_NOP then (dl, s)
  else if cmd_byte = GX_LOAD_CP_REG then compile_LOAD_CP_REG env dl s
  else if cmd_byte = GX_LOAD_XF_REG then compile_LOAD_XF_REG env dl s
  else if cmd_byte = GX_LOAD_INDX_A then compile_LOAD_INDX env 0xC dl s
  else if cmd_byte = GX_LOAD_INDX_B then compile_LOAD_INDX env 0xD dl s
  else if cmd_byte = GX_LOAD_INDX_C then compile_LOAD_INDX env 0xE dl s
  else if cmd_byte = GX_LOAD_INDX_D then compile_LOAD_INDX env 0xF dl s
  else if cmd_byte = GX_CMD_CALL_DL then compile_CMD_CALL_DL env dl s
  else if cmd_byte = GX_CMD_UNKNOWN_METRICS then (dl, s)
  else if cmd_byte = GX_CMD_INVL_VC then (dl, s)
  else if cmd_byte = GX_LOAD_BP_REG then compile_LOAD_BP_REG env dl s
  else if cmd_byte &&& 0x80 ≠ 0 then compile_draw env size cmd_byte dl s
  else (dl, s)

/-- The loop `while (g_pVideoData < end)` of `CompileAndRunDisplayList`; `fuel` as in
`analyzeLoop`. -/
def compileLoop (env : Env) (size : Int) (endPtr : Int) :
    Nat → CachedDisplayList → State → CachedDisplayList × State
  | 0, dl, s => (dl, s)
  | fuel + 1, dl, s =>
    if (s.g_pVideoData : Int) < endPtr then
      let r := DataReadU8 s
      let cmd_byte := r.1
      let ds := compileCmd env size cmd_byte dl r.2
      compileLoop env size endPtr fuel ds.1 ds.2
    else (dl, s)

/-- The block under `if (startAddress != 0)` of `CompileAndRunDisplayList`. -/
def compileWalk (env : Env) (startAddress : Nat) (size : Int) (dl : CachedDisplayList)
    (s : State) : CachedDisplayList × State :=
  let s := { s with g_pVideoData := startAddress }
  let s := s.SwapDL
  let endPtr : Int := (s.g_pVideoData : Int) + size
  let s := s.AlignCode4
  let dl := { dl with compiled_code := s.codePtr }
  let s := s.emit env (CodeItem.Prologue 4)
  let ds := compileLoop env size endPtr (endPtr - s.g_pVideoData).toNat dl s
  let s := ds.2.emit env (CodeItem.Epilogue 4)
  let s := s.incDListsCalled
  let s := s.SwapDL
  (ds.1, s)

/-- `bool CompileAndRunDisplayList(u32 address, int size, CachedDisplayList *dl)`. -/
def CompileAndRunDisplayList (env : Env) (address : Nat) (size : Int) (dl : CachedDisplayList)
    (s : State) : Bool × CachedDisplayList × State :=
  let old_pVideoData := s.g_pVideoData
  let startAddress := env.Memory_GetPtr address
  let ds : CachedDisplayList × State :=
    if startAddress ≠ 0 then compileWalk env startAddress size dl s
    else (dl, s)
  (true, ds.1, { ds.2 with g_pVideoData := old_pVideoData })

/-! ## Lifecycle: `Init`, `Clear`, `Shutdown`, `ProgressiveCleanup` -/

/-- `void Init()`: `mem` is the pointer returned by `AllocateExecutableMemory`. -/
def Init (mem : Nat) (s : State) : State :=
  { s with dlcode_cache := mem, codePtr := mem }

/-- The outer loop of `Clear`: every entry's buffers are deleted and its `Vdata` emptied. -/
def clearEntries : List (Nat × CachedDisplayList) → State → State
  | [], s => s
  | (_, entry) :: t, s => clearEntries t (deleteAll entry.Vdata s)

/-- `void Clear()`. -/
def Clear (s : State) : State :=
  let s := clearEntries s.dl_map s
  { s with dl_map := [], codePtr := s.dlcode_cache }

/-- `void Shutdown()`: `FreeMemoryPages` is external; the arena pointer becomes null. -/
def Shutdown (s : State) : State :=
  { Clear s with dlcode_cache := 0 }

/-- The loop of `ProgressiveCleanup` over the entries still to visit; returns the entries
kept and the state after the deletions. -/
def cleanupLoop (frameCount : Int) :
    List (Nat × CachedDisplayList) → State → List (Nat × CachedDisplayList) × State
  | [], s => ([], s)
  | (k, entry) :: t, s =>
    let limit : Int := if entry.uncachable then 1200 else 400
    if entry.frame_count < frameCount - limit then
      cleanupLoop frameCount t (deleteAll entry.Vdata s)
    else
      let r := cleanupLoop frameCount t s
      ((k, entry) :: r.1, r.2)

/-- `void ProgressiveCleanup()`. -/
def ProgressiveCleanup (s : State) : State :=
  let r := cleanupLoop s.frameCount s.dl_map s
  { r.2 with dl_map := r.1 }

/-! ## The dispatcher -/

/-- The default constructor of `CachedDisplayList`: `check`, `dl_hash` and `compiled_code` are
left uninitialised, `frame_count` is the current `frameCount`, `Vdata` is empty. -/
def CachedDisplayList.ctor (env : Env) (frameCount : Int) : CachedDisplayList :=
  { uncachable := false
    pass := DisplayListPass.DLPASS_ANALYZE
    dl_hash := env.uninit_dl_hash
    check := env.uninit_check
    next_check := 1
    frame_count := frameCount
    BufferCount := 0
    Vdata := []
    num_xf_reg := 0
    num_cp_reg := 0
    num_bp_reg := 0
    num_index_xf := 0
    num_draw_call := 0
    compiled_code := env.uninit_compiled_code }

/-- Write the entry referenced by `dl` back under its key. -/
def State.store (s : State) (dl_id : Nat) (dl : CachedDisplayList) : State :=
  { s with dl_map := mapSet dl_id dl s.dl_map }

/-- The statistics block of the `DLPASS_RUN` case, from the first `SwapDL` to the second. -/
def runStats (dl : CachedDisplayList) (s : State) : State :=
  let s := s.SwapDL
  let s := { s with stats := { s.stats with
    thisFrame_numCPLoadsInDL := s.stats.thisFrame_numCPLoadsInDL + dl.num_cp_reg
    thisFrame_numXFLoadsInDL := s.stats.thisFrame_numXFLoadsInDL + dl.num_xf_reg
    thisFrame_numBPLoadsInDL := s.stats.thisFrame_numBPLoadsInDL + dl.num_bp_reg } }
  let s := { s with stats := { s.stats with
    thisFrame_numCPLoads := s.stats.thisFrame_numCPLoads + dl.num_cp_reg
    thisFrame_numXFLoads := s.stats.thisFrame_numXFLoads + dl.num_xf_reg
    thisFrame_numBPLoads := s.stats.thisFrame_numBPLoads + dl.num_bp_reg } }
  let s := s.incDListsCalled
  s.SwapDL

/-- The rest of the `DLPASS_RUN` case once the hash check is over: the entry is stamped with the
current frame, the compiled routine is called through its pointer, the statistics are updated
and the reader cursor is restored; then `return true`. -/
def runCompiled (dl_id : Nat) (dl : CachedDisplayList) (s : State) : Bool × State :=
  let dl := { dl with frame_count := s.frameCount }
  let old_datareader := s.g_pVideoData
  let s := s.call (Event.CallCompiled dl.compiled_code)
  let s := runStats dl s
  let s := { s with g_pVideoData := old_datareader }
  (true, s.store dl_id dl)

/-- The `switch (dl.pass)` of `HandleDisplayList` on the entry `dl` found under `dl_id`,
with the `return true` that follows it. -/
def handlePass (env : Env) (address size dl_id : Nat) (dl : CachedDisplayList) (s : State) :
    Bool × State :=
  match dl.pass with
  | DisplayListPass.DLPASS_ANALYZE =>
    let r := AnalyzeAndRunDisplayList env address (toInt32 size) dl s
    if r.1 then
      let s := r.2.2
      let dl := { r.2.1 with
        dl_hash := GetHash64 env s address size
        pass := DisplayListPass.DLPASS_COMPILE
        check := 1
        next_check := 1 }
      (true, s.store dl_id dl)
    else
      (true, r.2.2.store dl_id { r.2.1 with uncachable := true })
  | DisplayListPass.DLPASS_COMPILE =>
    if dl.dl_hash ≠ GetHash64 env s address size then
      (false, s.store dl_id { dl with uncachable := true, check := 60 })
    else
      let r := CompileAndRunDisplayList env address (toInt32 size) dl s
      (true, r.2.2.store dl_id { r.2.1 with pass := DisplayListPass.DLPASS_RUN })
  | DisplayListPass.DLPASS_RUN =>
    let dl := { dl with check := dl.check - 1 }
    if dl.check ≤ (0 : Int) then
      if dl.dl_hash ≠ GetHash64 env s address size then
        let dl := { dl with uncachable := true, check := 60 }
        let s := deleteAll dl.Vdata s
        (false, s.store dl_id { dl with Vdata := [], BufferCount := 0 })
      else
        runCompiled dl_id { dl with check := dl.next_check } s
    else
      runCompiled dl_id dl s

/-- The body of `if (iter != dl_map.end())`: the entry `dl` was found under `dl_id`. -/
def handleFound (env : Env) (address size dl_id : Nat) (dl : CachedDisplayList) (s : State) :
    Bool × State :=
  if dl.uncachable then
    let dl := { dl with check := dl.check - 1 }
    if dl.check ≤ (0 : Int) then
      let dl := { dl with
        pass := DisplayListPass.DLPASS_ANALYZE
        uncachable := false
        check := dl.next_check }
      handlePass env address size dl_id dl s
    else
      (false, s.store dl_id dl)
  else
    handlePass env address size dl_id dl s

/-- The tail of `HandleDisplayList`: no entry under `dl_id`. -/
def handleNew (env : Env) (address size dl_id : Nat) (s : State) : Bool × State :=
  let dl := CachedDisplayList.ctor env s.frameCount
  let r := AnalyzeAndRunDisplayList env address (toInt32 size) dl s
  if r.1 then
    let s := r.2.2
    let dl := { r.2.1 with
      dl_hash := GetHash64 env s address size
      pass := DisplayListPass.DLPASS_COMPILE
      check := 1
      next_check := 1 }
    (true, s.store dl_id dl)
  else
    (true, r.2.2.store dl_id { r.2.1 with uncachable := true })

/-- `bool HandleDisplayList(u32 address, u32 size)`. -/
def HandleDisplayList (env : Env) (address size : Nat) (s : State) : Bool × State :=
  if !s.bDlistCachingEnable then (false, s)
  else if size = 0 then (false, s)
  else
    let dl_id := CreateMapId address size
    let iter := mapFind dl_id s.dl_map
    let s := { s with stats := { s.stats with numDListsAlive := (s.dl_map.length : Int) } }
    match iter with
    | some dl => handleFound env address size dl_id dl s
    | none => handleNew env address size dl_id s

/-! ## Observations used in the statements -/

/-- The six calls of the primitive execution interface. -/
def Event.isPrimitive : Event → Bool
  | Event.LoadCPReg _ _ => true
  | Event.LoadXFReg _ _ _ => true
  | Event.LoadIndexedXF _ _ => true
  | Event.ExecuteDisplayList _ _ => true
  | Event.LoadBPReg _ => true
  | Event.RunVertices _ _ _ => true
  | Event.Flush => false
  | Event.CallCompiled _ => false

/-- The primitive calls of a trace, in order. -/
def primCalls (tr : List Event) : List Event := tr.filter Event.isPrimitive

/-- The external calls made between a state and a later one. -/
def issued (s s' : State) : List Event := s'.trace.drop s.trace.length

/-- The items written to the arena between a state and a later one. -/
def emitted (s s' : State) : List CodeItem := (s'.code.drop s.code.length).map Prod.snd

/-- A call of a compiled routine with its arguments resolved: the pointer argument of
`LoadXFReg` and of `RunCompiledVertices` is replaced by the content of the buffer it points
to. -/
inductive Replay
  | LoadCPReg (sub_cmd value : Nat)
  | LoadXFReg (transfer_size xf_address : Nat) (data : List Nat)
  | LoadIndexedXF (value refarray : Nat)
  | ExecuteDisplayList (addr count : Nat)
  | LoadBPReg (value : Nat)
  | RunCompiledVertices (loader primitive numVertices : Nat) (data : List Nat)
  deriving DecidableEq, Repr

/-- The call that an item of the arena makes, its buffer read from the heap; `none` for the
prologue, the epilogue, a dangling buffer pointer, or a call shape the compiler never emits. -/
def decodeItem (heap : List (Nat × List Nat)) : CodeItem → Option Replay
  | CodeItem.CallFunctionCC Fn.LoadCPReg sub_cmd value => some (Replay.LoadCPReg sub_cmd value)
  | CodeItem.CallFunctionCCP Fn.LoadXFReg transfer_size xf_address p =>
    (heapLookup p heap).map (Replay.LoadXFReg transfer_size xf_address)
  | CodeItem.CallFunctionCC Fn.LoadIndexedXF value refarray =>
    some (Replay.LoadIndexedXF value refarray)
  | CodeItem.CallFunctionCC Fn.ExecuteDisplayList addr count =>
    some (Replay.ExecuteDisplayList addr count)
  | CodeItem.CallFunctionC Fn.LoadBPReg value => some (Replay.LoadBPReg value)
  | CodeItem.CallFunctionCCCP Fn.RunCompiledVertices loader primitive numVertices p =>
    (heapLookup p heap).map (Replay.RunCompiledVertices loader primitive numVertices)
  | _ => none

/-- The record that the specification asks for a call issued after the calls `hist`: register
loads, indexed loads and nested-list calls verbatim, an XF load with its data words, a draw as
`RunCompiledVertices` with the vertex bytes the batch produced; nothing for a flush. -/
def expectedRecord (env : Env) (hist : List Event) : Event → Option Replay
  | Event.LoadCPReg sub_cmd value => some (Replay.LoadCPReg sub_cmd value)
  | Event.LoadXFReg transfer_size xf_address data =>
    some (Replay.LoadXFReg transfer_size xf_address data)
  | Event.LoadIndexedXF value refarray => some (Replay.LoadIndexedXF value refarray)
  | Event.ExecuteDisplayList addr count => some (Replay.ExecuteDisplayList addr count)
  | Event.LoadBPReg value => some (Replay.LoadBPReg value)
  | Event.RunVertices loader primitive numVertices =>
    some (Replay.RunCompiledVertices loader primitive numVertices
      (env.vtxData hist loader primitive numVertices))
  | Event.Flush => none
  | Event.CallCompiled _ => none

/-- The records that the specification asks for the calls `evs` issued after `hist`: one per
primitive call, in order. -/
def expectedRecords (env : Env) : List Event → List Event → List Replay
  | _, [] => []
  | hist, e :: evs => (expectedRecord env hist e).toList ++ expectedRecords env (hist ++ [e]) evs

/-- One more than the buffer pointer an item carries, `0` for an item without one. -/
def CodeItem.ptrBound : CodeItem → Nat
  | CodeItem.CallFunctionCCP _ _ _ p => p + 1
  | CodeItem.CallFunctionCCCP _ _ _ _ p => p + 1
  | _ => 0

/-- The words that `n` successive `DataReadU32` return from the pointer `p` on. -/
def wordsAt (mem : Nat → Nat) (p : Nat) : Nat → List Nat
  | 0 => []
  | n + 1 =>
    (((mem p % 256 * 256 + mem (p + 1) % 256) * 256 + mem (p + 2) % 256) * 256
        + mem (p + 3) % 256) :: wordsAt mem (p + 4) n

/-! ## A concrete environment, stream and state -/

/-- An environment for concrete runs: address `0` does not resolve, every other address `a`
resolves to the host pointer `a + 1000`; a vertex takes two bytes of the stream. -/
def exampleEnv : Env :=
  { Memory_GetPtr := fun a => if a = 0 then 0 else a + 1000
    hash64 := fun bs => bs.foldl (fun h b => (h * 31 + b) % 2 ^ 64) 7
    vtxBytes := fun _ _ _ n => 2 * n
    vtxData := fun _ loader primitive n => [loader, primitive, n]
    itemSize := fun _ => 16
    uninit_dl_hash := 0xDEAD
    uninit_check := -7
    uninit_compiled_code := 0xBAD }

/-- A display list of 42 bytes: a CP load, an XF load of two words, a BP load, a draw of two
vertices, a no-op, an unknown opcode `0x05`, and a nested list call. -/
def exampleStream : List Nat :=
  [0x08, 0x30, 0, 0, 0, 5,
   0x10, 0, 1, 0x10, 0x20, 0, 0, 0, 1, 0, 0, 0, 2,
   0x61, 1, 2, 3, 4,
   0x90, 0, 2, 9, 9, 9, 9,
   0x00, 0x05,
   0x40, 0, 0, 1, 0, 0, 0, 0, 8]

/-- Host memory holding the bytes `bs` from the pointer `base` on, zero elsewhere. -/
def memOf (base : Nat) (bs : List Nat) : Nat → Nat :=
  fun p => if p < base then 0 else bs.getD (p - base) 0

/-- A state with an empty store and `exampleStream` at the emulated address `16`. -/
def exampleState : State :=
  { bDlistCachingEnable := true
    frameCount := 5
    mem := memOf 1016 exampleStream
    g_pVideoData := 77
    trace := []
    stats := ⟨0, 0, 0, 0, 0, 0, 0, 0, 0, 0, 0⟩
    dl_map := []
    dlcode_cache := 4096
    codePtr := 4096
    code := []
    heapNext := 1
    heap := []
    freed := [] }

/-- The example state after the first call for `(16, 42)`: the entry is in pass
`DLPASS_COMPILE`. -/
def exampleState1 : State := (HandleDisplayList exampleEnv 16 42 exampleState).2

/-- The entry of `exampleState1`. -/
def exampleEntry1 : CachedDisplayList :=
  (mapFind (CreateMapId 16 42) exampleState1.dl_map).getD (CachedDisplayList.ctor exampleEnv 0)

/-- The example state after the second call for `(16, 42)`: the entry is in pass
`DLPASS_RUN`. -/
def exampleState2 : State := (HandleDisplayList exampleEnv 16 42 exampleState1).2

/-- The entry of `exampleState2`. -/
def exampleEntry2 : CachedDisplayList :=
  (mapFind (CreateMapId 16 42) exampleState2.dl_map).getD (CachedDisplayList.ctor exampleEnv 0)

/-- Host memory in which the list at the emulated address `16` has been overwritten. -/
def mutatedMem : Nat → Nat := memOf 1016 [1, 2, 3]

/-- The state handed to the lookup's continuation: `stats.numDListsAlive` holds the size of
the store. -/
def State.withAlive (s : State) : State :=
  { s with stats := { s.stats with numDListsAlive := (s.dl_map.length : Int) } }

/-! ## Sequences of calls, eviction, and further observations -/

/-- The state after `n` consecutive calls of `HandleDisplayList` with the same arguments. -/
def handleRepeat (env : Env) (address size : Nat) : Nat → State → State
  | 0, s => s
  | n + 1, s => (HandleDisplayList env address size (handleRepeat env address size n s)).2

/-- The keys of a store are strictly increasing, as a `std::map` keeps them. -/
def KeysSorted {α : Type} (l : List (Nat × α)) : Prop := l.Pairwise (fun a b => a.1 < b.1)

/-- A command byte with the high bit clear that is none of the opcodes of the switch. -/
def unrecognized (b : Nat) : Bool :=
  decide (b &&& 0x80 = 0 ∧ b ≠ GX_NOP ∧ b ≠ GX_LOAD_CP_REG ∧ b ≠ GX_LOAD_XF_REG
    ∧ b ≠ GX_LOAD_INDX_A ∧ b ≠ GX_LOAD_INDX_B ∧ b ≠ GX_LOAD_INDX_C ∧ b ≠ GX_LOAD_INDX_D
    ∧ b ≠ GX_CMD_CALL_DL ∧ b ≠ GX_CMD_UNKNOWN_METRICS ∧ b ≠ GX_CMD_INVL_VC
    ∧ b ≠ GX_LOAD_BP_REG)

/-- In the words of the specification: the frames elapsed since the entry was last used exceed
its threshold, 400 for a normal entry and 1200 for an uncachable one. -/
def exceedsThreshold (currentFrame : Int) (e : CachedDisplayList) : Bool :=
  decide (currentFrame - e.frame_count > (if e.uncachable then 1200 else 400))

/-- The buffer pointers held by the entries of a store, entry by entry and slot by slot. -/
def allBuffers : List (Nat × CachedDisplayList) → List Nat
  | [] => []
  | (_, e) :: t => e.Vdata.map Prod.snd ++ allBuffers t

/-- What happens to the cache between two observations: a call of one of its entry points, or a
change made by the rest of the emulator (the frame counter advances, emulated memory is
written, the configuration is switched). -/
inductive Op
  | handle (address size : Nat)
  | cleanup
  | clear
  | setFrame (frameCount : Int)
  | setMem (mem : Nat → Nat)
  | setConfig (enable : Bool)

/-- The state after one operation. -/
def step (env : Env) (s : State) : Op → State
  | Op.handle address size => (HandleDisplayList env address size s).2
  | Op.cleanup => ProgressiveCleanup s
  | Op.clear => Clear s
  | Op.setFrame frameCount => { s with frameCount := frameCount }
  | Op.setMem mem => { s with mem := mem }
  | Op.setConfig enable => { s with bDlistCachingEnable := enable }

/-- The state after a sequence of operations. -/
def run (env : Env) (s : State) (ops : List Op) : State := ops.foldl (step env) s

/-- The call finds the entry `dl` fit to run: not uncachable, in pass `DLPASS_RUN`, and the hash
check is either not due or passes; these are the calls that invoke the compiled routine. -/
def runsCompiled (env : Env) (address size : Nat) (dl : CachedDisplayList) (s : State) : Prop :=
  dl.uncachable = false ∧ dl.pass = DisplayListPass.DLPASS_RUN
    ∧ ¬ (dl.check - 1 ≤ 0 ∧ dl.dl_hash ≠ GetHash64 env s address size)

/-- The call is one that runs the compiler: caching is on, the size is not zero, and the entry
under the key is not uncachable, in pass `DLPASS_COMPILE`, with a hash that matches. -/
def runsCompiler (env : Env) (address size : Nat) (s : State) : Prop :=
  s.bDlistCachingEnable = true ∧ size ≠ 0
    ∧ ∃ dl, mapFind (CreateMapId address size) s.dl_map = some dl
        ∧ dl.uncachable = false ∧ dl.pass = DisplayListPass.DLPASS_COMPILE
        ∧ dl.dl_hash = GetHash64 env s address size

/-- The example state after a third call for `(16, 42)` made once the list has been
overwritten: the hash no longer matches and the entry has just become uncachable. -/
def exampleState3 : State :=
  (HandleDisplayList exampleEnv 16 42 { exampleState2 with mem := mutatedMem }).2

/-- The entry of `exampleState3`. -/
def exampleEntry3 : CachedDisplayList :=
  (mapFind (CreateMapId 16 42) exampleState3.dl_map).getD (CachedDisplayList.ctor exampleEnv 0)

/-- The state `s` in which the counter `check` of the entry `dl` under the key of
`(address, size)` is `k`, everything else being as in `s`. -/
def withCheck (address size : Nat) (dl : CachedDisplayList) (k : Int) (s : State) : State :=
  { s with dl_map := (mapSet (CreateMapId address size) { dl with check := k } s.dl_map) }

/-- The example state with a list that starts with the unknown opcode `0x05`, followed by a BP
load. -/
def illegalFirstState : State :=
  { exampleState with mem := memOf 1016 [0x05, 0x61, 1, 2, 3, 4] }

/-! ## Keys, hash checks, iterations and buffers: further observations -/

/-- The keys of a store. -/
def keys (l : List (Nat × CachedDisplayList)) : List Nat := l.map Prod.fst

/-- The call finds the entry `dl` due for a hash check that fails: the entry is in pass
`DLPASS_COMPILE`, or in pass `DLPASS_RUN` with its counter running out, and the hash of the
current bytes differs from the stored one. -/
def hashMismatch (env : Env) (address size : Nat) (dl : CachedDisplayList) (s : State) : Prop :=
  (dl.pass = DisplayListPass.DLPASS_COMPILE
      ∨ (dl.pass = DisplayListPass.DLPASS_RUN ∧ dl.check - 1 ≤ 0))
    ∧ dl.dl_hash ≠ GetHash64 env s address size

/-- The number of iterations that the loop of `AnalyzeAndRunDisplayList` makes when allowed
`fuel` of them: one per command byte read. -/
def analyzeIterations (env : Env) (endPtr : Int) : Nat → Counts → State → Nat
  | 0, _, _ => 0
  | fuel + 1, c, s =>
    if (s.g_pVideoData : Int) < endPtr then
      let r := DataReadU8 s
      let cs := analyzeCmd env r.1 c r.2
      analyzeIterations env endPtr fuel cs.1 cs.2 + 1
    else 0

/-- The number of iterations that the loop of `CompileAndRunDisplayList` makes when allowed
`fuel` of them. -/
def compileIterations (env : Env) (size : Int) (endPtr : Int) :
    Nat → CachedDisplayList → State → Nat
  | 0, _, _ => 0
  | fuel + 1, dl, s =>
    if (s.g_pVideoData : Int) < endPtr then
      let r := DataReadU8 s
      let ds := compileCmd env size r.1 dl r.2
      compileIterations env size endPtr fuel ds.1 ds.2 + 1
    else 0

/-- The counters of the entries of a store are as the dispatcher leaves them: `next_check` is
`1`, and an entry that is not uncachable has `check = 1`. -/
def CheckedEveryCall (l : List (Nat × CachedDisplayList)) : Prop :=
  ∀ x ∈ l, x.2.next_check = 1 ∧ (x.2.uncachable = false → x.2.check = 1)

/-- Entries that are uncachable or not in pass `DLPASS_RUN` own no buffer and have
`BufferCount = 0`. -/
def IdleOwnNothing (l : List (Nat × CachedDisplayList)) : Prop :=
  ∀ x ∈ l, (x.2.uncachable = true ∨ x.2.pass ≠ DisplayListPass.DLPASS_RUN) →
    x.2.Vdata = [] ∧ x.2.BufferCount = 0

/-- The store is a well-formed map; every pointer occurs at most once among the buffer slots of
all the entries and the deletions made so far, taken together; and no pointer that `new` has
yet to return occurs there. -/
def BuffersDisjoint (s : State) : Prop :=
  KeysSorted s.dl_map
    ∧ ∀ p, (allBuffers s.dl_map).count p + s.freed.count p ≤ 1
        ∧ (s.heapNext ≤ p → (allBuffers s.dl_map).count p + s.freed.count p = 0)

/-- The pointers in the slots of an entry are distinct and were returned by `new` between the
heap positions `h0` and that of `s`. -/
def FreshBuffers (h0 : Nat) (dl : CachedDisplayList) (s : State) : Prop :=
  ∀ p, (dl.Vdata.map Prod.snd).count p ≤ 1
    ∧ ((p < h0 ∨ s.heapNext ≤ p) → (dl.Vdata.map Prod.snd).count p = 0)

/-- Two calls of `HandleDisplayList` for each of the addresses `1` to `n`, with size `1`: the
first call analyses the list, the second compiles it. -/
def fillOps : Nat → List Op
  | 0 => []
  | n + 1 => fillOps n ++ [Op.handle (n + 1) 1, Op.handle (n + 1) 1]

/-- Host memory holding, from the pointer `1016` on, XF register loads of one word each: the
opcode `GX_LOAD_XF_REG` followed by eight zero bytes, over and over. -/
def xfLoadsMem : Nat → Nat :=
  fun p => if 1016 ≤ p ∧ (p - 1016) % 9 = 0 then 0x10 else 0

/-- The example state with the memory `xfLoadsMem`. -/
def xfLoadsState : State := { exampleState with mem := xfLoadsMem }

/-- The entry and the state that the compiler leaves when run in `xfLoadsState` on the list of
`9 * 257` bytes at the address `16`, that is 257 XF register loads, with the entry that the
constructor makes. -/
def xfLoadsCompiled : CachedDisplayList × State :=
  (CompileAndRunDisplayList exampleEnv 16 (9 * 257) (CachedDisplayList.ctor exampleEnv 5)
    xfLoadsState).2

/-- The example state with a list of one byte at the emulated address `16`: the opcode
`GX_LOAD_BP_REG`; the four bytes after it lie beyond the list. -/
def shortListState : State :=
  { exampleState with mem := memOf 1016 [0x61, 1, 2, 3, 4] }

/-- Host memory that agrees with that of `shortListState` on the byte of the list and differs
on the four bytes after it. -/
def shortListMem : Nat → Nat := memOf 1016 [0x61, 9, 9, 9, 9]

/-- The state `shortListState` after two calls for `(16, 1)`: the list of one byte has been
analysed, then compiled. -/
def shortListState2 : State :=
  (HandleDisplayList exampleEnv 16 1 (HandleDisplayList exampleEnv 16 1 shortListState).2).2

/-- The operations of the example run used for the invariants: the list is analysed and
compiled, run once, overwritten, found changed, and the store is cleared. -/
def exampleOps : List Op :=
  [Op.handle 16 42, Op.handle 16 42, Op.handle 16 42, Op.setMem mutatedMem, Op.handle 16 42,
   Op.setFrame 2000, Op.cleanup, Op.clear]

end DLCache

namespace DLCache

/-! ## Lemmas on the ordered map -/

theorem mapFind_mapSet_self {α : Type} (k : Nat) (v : α) (l : List (Nat × α)) :
    mapFind k (mapSet k v l) = some v := by
  induction l with
  | nil => simp [mapSet, mapFind]
  | cons hd t ih =>
    obtain ⟨k', v'⟩ := hd
    by_cases h1 : k = k'
    · simp [mapSet, mapFind, h1]
    · by_cases h2 : k < k'
      · simp [mapSet, mapFind, h1, h2]
      · simp [mapSet, mapFind, h1, h2, ih]

theorem mapFind_mapSet_ne {α : Type} {k k' : Nat} (h : k' ≠ k) (v : α) (l : List (Nat × α)) :
    mapFind k' (mapSet k v l) = mapFind k' l := by
  induction l with
  | nil => simp [mapSet, mapFind, h]
  | cons hd t ih =>
    obtain ⟨k0, v0⟩ := hd
    by_cases h1 : k = k0
    · subst h1
      simp [mapSet, mapFind, h]
    · by_cases h2 : k < k0
      · simp [mapSet, mapFind, h1, h2, h]
      · by_cases h3 : k' = k0
        · simp [mapSet, mapFind, h1, h2, h3]
        · simp [mapSet, mapFind, h1, h2, h3, ih]

theorem length_mapSet_of_none {α : Type} {k : Nat} (v : α) {l : List (Nat × α)}
    (h : mapFind k l = none) : (mapSet k v l).length = l.length + 1 := by
  induction l with
  | nil => simp [mapSet]
  | cons hd t ih =>
    obtain ⟨k0, v0⟩ := hd
    by_cases h1 : k = k0
    · simp [mapFind, h1] at h
    · simp only [mapFind, h1, if_false] at h
      by_cases h2 : k < k0
      · simp [mapSet, h1, h2]
      · simp [mapSet, h1, h2, ih h]

/-! ## What the walks leave untouched -/

/-- The part of the state that the analyzer never writes: everything but the reader cursor,
the trace and the statistics. -/
structure AFrame (s s' : State) : Prop where
  bDlistCachingEnable : s'.bDlistCachingEnable = s.bDlistCachingEnable
  frameCount : s'.frameCount = s.frameCount
  mem : s'.mem = s.mem
  dl_map : s'.dl_map = s.dl_map
  dlcode_cache : s'.dlcode_cache = s.dlcode_cache
  codePtr : s'.codePtr = s.codePtr
  code : s'.code = s.code
  heapNext : s'.heapNext = s.heapNext
  heap : s'.heap = s.heap
  freed : s'.freed = s.freed

theorem AFrame.aRefl (s : State) : AFrame s s := by constructor <;> rfl

theorem AFrame.aTrans {s1 s2 s3 : State} (h12 : AFrame s1 s2) (h23 : AFrame s2 s3) :
    AFrame s1 s3 := by
  constructor
  · exact h23.bDlistCachingEnable.trans h12.bDlistCachingEnable
  · exact h23.frameCount.trans h12.frameCount
  · exact h23.mem.trans h12.mem
  · exact h23.dl_map.trans h12.dl_map
  · exact h23.dlcode_cache.trans h12.dlcode_cache
  · exact h23.codePtr.trans h12.codePtr
  · exact h23.code.trans h12.code
  · exact h23.heapNext.trans h12.heapNext
  · exact h23.heap.trans h12.heap
  · exact h23.freed.trans h12.freed

theorem AFrame.eq_update {s s' : State} (h : AFrame s s') :
    s' = { s with g_pVideoData := s'.g_pVideoData, trace := s'.trace, stats := s'.stats } := by
  obtain ⟨h1, h2, h3, h4, h5, h6, h7, h8, h9, h10⟩ := h
  cases s'
  cases s
  simp only at h1 h2 h3 h4 h5 h6 h7 h8 h9 h10
  subst h1 h2 h3 h4 h5 h6 h7 h8 h9 h10
  rfl

theorem readWords_eq (n : Nat) (s : State) :
    readWords n s
      = (wordsAt s.mem s.g_pVideoData n, { s with g_pVideoData := s.g_pVideoData + 4 * n }) := by
  induction n generalizing s with
  | zero => simp [readWords, wordsAt]
  | succ n ih =>
    simp only [readWords, wordsAt, DataReadU32, State.byteAt, ih, Prod.mk.injEq, true_and]
    congr 1
    omega

theorem analyze_LOAD_XF_REG_frame (c : Counts) (s : State) :
    AFrame s (analyze_LOAD_XF_REG c s).2 := by
  simp only [analyze_LOAD_XF_REG, readWords_eq]
  constructor <;> rfl

/-- Case analysis on the analyzer's switch: a property of the result holds as soon as it holds
for the result of every case. -/
theorem analyzeCmd_cases (P : Counts × State → Prop) (env : Env) (b : Nat) (c : Counts)
    (s : State) (h0 : P (c, s)) (hcp : P (analyze_LOAD_CP_REG c s))
    (hxf : P (analyze_LOAD_XF_REG c s)) (hix : ∀ r, P (analyze_LOAD_INDX r c s))
    (hdl : P (analyze_CMD_CALL_DL c s)) (hbp : P (analyze_LOAD_BP_REG c s))
    (hdr : P (analyze_draw env b c s)) : P (analyzeCmd env b c s) := by
  unfold analyzeCmd
  by_cases c1 : b = GX_NOP
  · rw [if_pos c1]; exact h0
  rw [if_neg c1]
  by_cases c2 : b = GX_LOAD_CP_REG
  · rw [if_pos c2]; exact hcp
  rw [if_neg c2]
  by_cases c3 : b = GX_LOAD_XF_REG
  · rw [if_pos c3]; exact hxf
  rw [if_neg c3]
  by_cases c4 : b = GX_LOAD_INDX_A
  · rw [if_pos c4]; exact hix _
  rw [if_neg c4]
  by_cases c5 : b = GX_LOAD_INDX_B
  · rw [if_pos c5]; exact hix _
  rw [if_neg c5]
  by_cases c6 : b = GX_LOAD_INDX_C
  · rw [if_pos c6]; exact hix _
  rw [if_neg c6]
  by_cases c7 : b = GX_LOAD_INDX_D
  · rw [if_pos c7]; exact hix _
  rw [if_neg c7]
  by_cases c8 : b = GX_CMD_CALL_DL
  · rw [if_pos c8]; exact hdl
  rw [if_neg c8]
  by_cases c9 : b = GX_CMD_UNKNOWN_METRICS
  · rw [if_pos c9]; exact h0
  rw [if_neg c9]
  by_cases c10 : b = GX_CMD_INVL_VC
  · rw [if_pos c10]; exact h0
  rw [if_neg c10]
  by_cases c11 : b = GX_LOAD_BP_REG
  · rw [if_pos c11]; exact hbp
  rw [if_neg c11]
  by_cases c12 : b &&& 0x80 ≠ 0
  · rw [if_pos c12]; exact hdr
  rw [if_neg c12]; exact h0

/-- One command of the analyzer changes the reader cursor, the trace and the statistics only. -/
theorem analyzeCmd_frame (env : Env) (b : Nat) (c : Counts) (s : State) :
    AFrame s (analyzeCmd env b c s).2 := by
  apply analyzeCmd_cases (fun r => AFrame s r.2)
  · exact AFrame.aRefl s
  · constructor <;> rfl
  · exact analyze_LOAD_XF_REG_frame c s
  · intro r; constructor <;> rfl
  · constructor <;> rfl
  · constructor <;> rfl
  · constructor <;> rfl

theorem analyzeLoop_frame (env : Env) (endPtr : Int) (fuel : Nat) :
    ∀ (c : Counts) (s : State), AFrame s (analyzeLoop env endPtr fuel c s).2 := by
  induction fuel with
  | zero => intro c s; exact AFrame.aRefl s
  | succ n ih =>
    intro c s
    simp only [analyzeLoop]
    split_ifs with h
    · refine AFrame.aTrans ?_ (ih _ _)
      refine AFrame.aTrans ?_ (analyzeCmd_frame env _ c _)
      constructor <;> rfl
    · exact AFrame.aRefl s

theorem analyzeWalk_frame (env : Env) (p : Nat) (size : Int) (s : State) :
    AFrame s (analyzeWalk env p size s).2 := by
  have hl := analyzeLoop_frame env
    (↑({ s with g_pVideoData := p } : State).SwapDL.g_pVideoData + size)
    (↑({ s with g_pVideoData := p } : State).SwapDL.g_pVideoData + size
      - ↑({ s with g_pVideoData := p } : State).SwapDL.g_pVideoData).toNat
    ⟨0, 0, 0, 0, 0⟩ ({ s with g_pVideoData := p } : State).SwapDL
  constructor
  · exact hl.bDlistCachingEnable
  · exact hl.frameCount
  · exact hl.mem
  · exact hl.dl_map
  · exact hl.dlcode_cache
  · exact hl.codePtr
  · exact hl.code
  · exact hl.heapNext
  · exact hl.heap
  · exact hl.freed

/-- The result of the analyzer, by resolution of the address. -/
theorem AnalyzeAndRunDisplayList_resolved (env : Env) (address : Nat) (size : Int)
    (dl : CachedDisplayList) (s : State) (h : env.Memory_GetPtr address ≠ 0) :
    AnalyzeAndRunDisplayList env address size dl s
      = (true,
         { dl with
            num_bp_reg := (analyzeWalk env (env.Memory_GetPtr address) size s).1.num_bp_reg
            num_cp_reg := (analyzeWalk env (env.Memory_GetPtr address) size s).1.num_cp_reg
            num_draw_call := (analyzeWalk env (env.Memory_GetPtr address) size s).1.num_draw_call
            num_index_xf := (analyzeWalk env (env.Memory_GetPtr address) size s).1.num_index_xf
            num_xf_reg := (analyzeWalk env (env.Memory_GetPtr address) size s).1.num_xf_reg },
         { (analyzeWalk env (env.Memory_GetPtr address) size s).2 with
            g_pVideoData := s.g_pVideoData }) := by
  simp only [AnalyzeAndRunDisplayList, if_pos h]

theorem AnalyzeAndRunDisplayList_unresolved (env : Env) (address : Nat) (size : Int)
    (dl : CachedDisplayList) (s : State) (h : env.Memory_GetPtr address = 0) :
    AnalyzeAndRunDisplayList env address size dl s
      = (true,
         { dl with num_bp_reg := 0, num_cp_reg := 0, num_draw_call := 0, num_index_xf := 0,
                   num_xf_reg := 0 }, s) := by
  simp only [AnalyzeAndRunDisplayList, h, ne_eq, not_true_eq_false, if_false]

/-- The analyzer changes the trace and the statistics only; the reader cursor is restored. -/
theorem AnalyzeAndRunDisplayList_frame (env : Env) (address : Nat) (size : Int)
    (dl : CachedDisplayList) (s : State) :
    AFrame s (AnalyzeAndRunDisplayList env address size dl s).2.2
      ∧ (AnalyzeAndRunDisplayList env address size dl s).2.2.g_pVideoData = s.g_pVideoData := by
  refine ⟨?_, rfl⟩
  by_cases h : env.Memory_GetPtr address = 0
  · rw [AnalyzeAndRunDisplayList_unresolved env address size dl s h]
    exact AFrame.aRefl s
  · rw [AnalyzeAndRunDisplayList_resolved env address size dl s h]
    have hl := analyzeWalk_frame env (env.Memory_GetPtr address) size s
    constructor
    · exact hl.bDlistCachingEnable
    · exact hl.frameCount
    · exact hl.mem
    · exact hl.dl_map
    · exact hl.dlcode_cache
    · exact hl.codePtr
    · exact hl.code
    · exact hl.heapNext
    · exact hl.heap
    · exact hl.freed

theorem AnalyzeAndRunDisplayList_ok (env : Env) (address : Nat) (size : Int)
    (dl : CachedDisplayList) (s : State) :
    (AnalyzeAndRunDisplayList env address size dl s).1 = true := rfl

/-- The part of the state that the compiler never writes. -/
structure CFrame (s s' : State) : Prop where
  bDlistCachingEnable : s'.bDlistCachingEnable = s.bDlistCachingEnable
  frameCount : s'.frameCount = s.frameCount
  mem : s'.mem = s.mem
  dl_map : s'.dl_map = s.dl_map
  dlcode_cache : s'.dlcode_cache = s.dlcode_cache
  freed : s'.freed = s.freed

theorem CFrame.cRefl (s : State) : CFrame s s := by constructor <;> rfl

theorem CFrame.cTrans {s1 s2 s3 : State} (h12 : CFrame s1 s2) (h23 : CFrame s2 s3) :
    CFrame s1 s3 := by
  constructor
  · exact h23.bDlistCachingEnable.trans h12.bDlistCachingEnable
  · exact h23.frameCount.trans h12.frameCount
  · exact h23.mem.trans h12.mem
  · exact h23.dl_map.trans h12.dl_map
  · exact h23.dlcode_cache.trans h12.dlcode_cache
  · exact h23.freed.trans h12.freed

/-- The part of an entry that the compiler never writes: everything but `Vdata`, `BufferCount`
and `compiled_code`. -/
structure EFrame (dl dl' : CachedDisplayList) : Prop where
  uncachable : dl'.uncachable = dl.uncachable
  pass : dl'.pass = dl.pass
  dl_hash : dl'.dl_hash = dl.dl_hash
  check : dl'.check = dl.check
  next_check : dl'.next_check = dl.next_check
  frame_count : dl'.frame_count = dl.frame_count
  num_xf_reg : dl'.num_xf_reg = dl.num_xf_reg
  num_cp_reg : dl'.num_cp_reg = dl.num_cp_reg
  num_bp_reg : dl'.num_bp_reg = dl.num_bp_reg
  num_index_xf : dl'.num_index_xf = dl.num_index_xf
  num_draw_call : dl'.num_draw_call = dl.num_draw_call

theorem EFrame.eRefl (dl : CachedDisplayList) : EFrame dl dl := by constructor <;> rfl

theorem EFrame.eTrans {d1 d2 d3 : CachedDisplayList} (h12 : EFrame d1 d2) (h23 : EFrame d2 d3) :
    EFrame d1 d3 := by
  constructor
  · exact h23.uncachable.trans h12.uncachable
  · exact h23.pass.trans h12.pass
  · exact h23.dl_hash.trans h12.dl_hash
  · exact h23.check.trans h12.check
  · exact h23.next_check.trans h12.next_check
  · exact h23.frame_count.trans h12.frame_count
  · exact h23.num_xf_reg.trans h12.num_xf_reg
  · exact h23.num_cp_reg.trans h12.num_cp_reg
  · exact h23.num_bp_reg.trans h12.num_bp_reg
  · exact h23.num_index_xf.trans h12.num_index_xf
  · exact h23.num_draw_call.trans h12.num_draw_call

/-- Case analysis on the compiler's switch: a property of the result holds as soon as it holds
for the result of every case. -/
theorem compileCmd_cases (P : CachedDisplayList × State → Prop) (env : Env) (size : Int)
    (b : Nat) (dl : CachedDisplayList) (s : State) (h0 : P (dl, s))
    (hcp : P (compile_LOAD_CP_REG env dl s)) (hxf : P (compile_LOAD_XF_REG env dl s))
    (hix : ∀ r, P (compile_LOAD_INDX env r dl s)) (hdl : P (compile_CMD_CALL_DL env dl s))
    (hbp : P (compile_LOAD_BP_REG env dl s)) (hdr : P (compile_draw env size b dl s)) :
    P (compileCmd env size b dl s) := by
  unfold compileCmd
  by_cases c1 : b = GX_NOP
  · rw [if_pos c1]; exact h0
  rw [if_neg c1]
  by_cases c2 : b = GX_LOAD_CP_REG
  · rw [if_pos c2]; exact hcp
  rw [if_neg c2]
  by_cases c3 : b = GX_LOAD_XF_REG
  · rw [if_pos c3]; exact hxf
  rw [if_neg c3]
  by_cases c4 : b = GX_LOAD_INDX_A
  · rw [if_pos c4]; exact hix _
  rw [if_neg c4]
  by_cases c5 : b = GX_LOAD_INDX_B
  · rw [if_pos c5]; exact hix _
  rw [if_neg c5]
  by_cases c6 : b = GX_LOAD_INDX_C
  · rw [if_pos c6]; exact hix _
  rw [if_neg c6]
  by_cases c7 : b = GX_LOAD_INDX_D
  · rw [if_pos c7]; exact hix _
  rw [if_neg c7]
  by_cases c8 : b = GX_CMD_CALL_DL
  · rw [if_pos c8]; exact hdl
  rw [if_neg c8]
  by_cases c9 : b = GX_CMD_UNKNOWN_METRICS
  · rw [if_pos c9]; exact h0
  rw [if_neg c9]
  by_cases c10 : b = GX_CMD_INVL_VC
  · rw [if_pos c10]; exact h0
  rw [if_neg c10]
  by_cases c11 : b = GX_LOAD_BP_REG
  · rw [if_pos c11]; exact hbp
  rw [if_neg c11]
  by_cases c12 : b &&& 0x80 ≠ 0
  · rw [if_pos c12]; exact hdr
  rw [if_neg c12]; exact h0

theorem compile_LOAD_XF_REG_frame (env : Env) (dl : CachedDisplayList) (s : State) :
    CFrame s (compile_LOAD_XF_REG env dl s).2 ∧ EFrame dl (compile_LOAD_XF_REG env dl s).1 := by
  simp only [compile_LOAD_XF_REG, readWords_eq]
  exact ⟨by constructor <;> rfl, by constructor <;> rfl⟩

theorem compile_draw_frame (env : Env) (size : Int) (b : Nat) (dl : CachedDisplayList)
    (s : State) :
    CFrame s (compile_draw env size b dl s).2 ∧ EFrame dl (compile_draw env size b dl s).1 := by
  unfold compile_draw
  by_cases h : size > 0
  · simp only [if_pos h]
    exact ⟨by constructor <;> rfl, by constructor <;> rfl⟩
  · simp only [if_neg h]
    exact ⟨by constructor <;> rfl, by constructor <;> rfl⟩

/-- One command of the compiler leaves the configuration, the frame counter, the memory, the
store and the log of deletions as they are, and writes only `Vdata`, `BufferCount` in the
entry. -/
theorem compileCmd_frame (env : Env) (size : Int) (b : Nat) (dl : CachedDisplayList)
    (s : State) :
    CFrame s (compileCmd env size b dl s).2 ∧ EFrame dl (compileCmd env size b dl s).1 := by
  apply compileCmd_cases (fun r => CFrame s r.2 ∧ EFrame dl r.1)
  · exact ⟨CFrame.cRefl s, EFrame.eRefl dl⟩
  · exact ⟨by constructor <;> rfl, by constructor <;> rfl⟩
  · exact compile_LOAD_XF_REG_frame env dl s
  · intro r; exact ⟨by constructor <;> rfl, by constructor <;> rfl⟩
  · exact ⟨by constructor <;> rfl, by constructor <;> rfl⟩
  · exact ⟨by constructor <;> rfl, by constructor <;> rfl⟩
  · exact compile_draw_frame env size b dl s

theorem compileLoop_frame (env : Env) (size : Int) (endPtr : Int) (fuel : Nat) :
    ∀ (dl : CachedDisplayList) (s : State),
      CFrame s (compileLoop env size endPtr fuel dl s).2
        ∧ EFrame dl (compileLoop env size endPtr fuel dl s).1 := by
  induction fuel with
  | zero => intro dl s; exact ⟨CFrame.cRefl s, EFrame.eRefl dl⟩
  | succ n ih =>
    intro dl s
    simp only [compileLoop]
    split_ifs with h
    · have h1 := compileCmd_frame env size (DataReadU8 s).1 dl (DataReadU8 s).2
      have h2 := ih (compileCmd env size (DataReadU8 s).1 dl (DataReadU8 s).2).1
        (compileCmd env size (DataReadU8 s).1 dl (DataReadU8 s).2).2
      refine ⟨CFrame.cTrans (CFrame.cTrans ?_ h1.1) h2.1, EFrame.eTrans h1.2 h2.2⟩
      constructor <;> rfl
    · exact ⟨CFrame.cRefl s, EFrame.eRefl dl⟩

theorem compileWalk_frame (env : Env) (p : Nat) (size : Int) (dl : CachedDisplayList)
    (s : State) :
    CFrame s (compileWalk env p size dl s).2 ∧ EFrame dl (compileWalk env p size dl s).1 := by
  have hl := compileLoop_frame env size
    (↑({ s with g_pVideoData := p } : State).SwapDL.g_pVideoData + size)
    (↑({ s with g_pVideoData := p } : State).SwapDL.g_pVideoData + size
      - ↑((({ s with g_pVideoData := p } : State).SwapDL.AlignCode4).emit env
          (CodeItem.Prologue 4)).g_pVideoData).toNat
    { dl with compiled_code := ({ s with g_pVideoData := p } : State).SwapDL.AlignCode4.codePtr }
    ((({ s with g_pVideoData := p } : State).SwapDL.AlignCode4).emit env (CodeItem.Prologue 4))
  constructor
  · constructor
    · exact hl.1.bDlistCachingEnable
    · exact hl.1.frameCount
    · exact hl.1.mem
    · exact hl.1.dl_map
    · exact hl.1.dlcode_cache
    · exact hl.1.freed
  · constructor
    · exact hl.2.uncachable
    · exact hl.2.pass
    · exact hl.2.dl_hash
    · exact hl.2.check
    · exact hl.2.next_check
    · exact hl.2.frame_count
    · exact hl.2.num_xf_reg
    · exact hl.2.num_cp_reg
    · exact hl.2.num_bp_reg
    · exact hl.2.num_index_xf
    · exact hl.2.num_draw_call

theorem CompileAndRunDisplayList_resolved (env : Env) (address : Nat) (size : Int)
    (dl : CachedDisplayList) (s : State) (h : env.Memory_GetPtr address ≠ 0) :
    CompileAndRunDisplayList env address size dl s
      = (true, (compileWalk env (env.Memory_GetPtr address) size dl s).1,
         { (compileWalk env (env.Memory_GetPtr address) size dl s).2 with
            g_pVideoData := s.g_pVideoData }) := by
  simp only [CompileAndRunDisplayList, if_pos h]

theorem CompileAndRunDisplayList_unresolved (env : Env) (address : Nat) (size : Int)
    (dl : CachedDisplayList) (s : State) (h : env.Memory_GetPtr address = 0) :
    CompileAndRunDisplayList env address size dl s = (true, dl, s) := by
  simp only [CompileAndRunDisplayList, h, ne_eq, not_true_eq_false, if_false]

/-- The compiler leaves the configuration, the frame counter, the memory, the store and the log
of deletions as they are, restores the reader cursor, and writes only `Vdata`, `BufferCount`
and `compiled_code` in the entry. -/
theorem CompileAndRunDisplayList_frame (env : Env) (address : Nat) (size : Int)
    (dl : CachedDisplayList) (s : State) :
    CFrame s (CompileAndRunDisplayList env address size dl s).2.2
      ∧ EFrame dl (CompileAndRunDisplayList env address size dl s).2.1
      ∧ (CompileAndRunDisplayList env address size dl s).2.2.g_pVideoData = s.g_pVideoData := by
  by_cases h : env.Memory_GetPtr address = 0
  · rw [CompileAndRunDisplayList_unresolved env address size dl s h]
    exact ⟨CFrame.cRefl s, EFrame.eRefl dl, rfl⟩
  · rw [CompileAndRunDisplayList_resolved env address size dl s h]
    have hl := compileWalk_frame env (env.Memory_GetPtr address) size dl s
    refine ⟨?_, hl.2, rfl⟩
    constructor
    · exact hl.1.bDlistCachingEnable
    · exact hl.1.frameCount
    · exact hl.1.mem
    · exact hl.1.dl_map
    · exact hl.1.dlcode_cache
    · exact hl.1.freed

/-! ## Releasing the buffers of an entry -/

/-- Deleting buffers changes the heap and the log of deletions only. -/
structure DFrame (s s' : State) : Prop where
  bDlistCachingEnable : s'.bDlistCachingEnable = s.bDlistCachingEnable
  frameCount : s'.frameCount = s.frameCount
  mem : s'.mem = s.mem
  g_pVideoData : s'.g_pVideoData = s.g_pVideoData
  trace : s'.trace = s.trace
  stats : s'.stats = s.stats
  dl_map : s'.dl_map = s.dl_map
  dlcode_cache : s'.dlcode_cache = s.dlcode_cache
  codePtr : s'.codePtr = s.codePtr
  code : s'.code = s.code
  heapNext : s'.heapNext = s.heapNext

theorem deleteAll_frame (l : List (Nat × Nat)) :
    ∀ s : State, DFrame s (deleteAll l s) := by
  induction l with
  | nil => intro s; constructor <;> rfl
  | cons hd t ih =>
    intro s
    obtain ⟨k, p⟩ := hd
    have h := ih (s.delete p)
    constructor
    · exact h.bDlistCachingEnable
    · exact h.frameCount
    · exact h.mem
    · exact h.g_pVideoData
    · exact h.trace
    · exact h.stats
    · exact h.dl_map
    · exact h.dlcode_cache
    · exact h.codePtr
    · exact h.code
    · exact h.heapNext

/-- Every pointer of the map is deleted once, in key order. -/
theorem deleteAll_freed (l : List (Nat × Nat)) :
    ∀ s : State, (deleteAll l s).freed = s.freed ++ l.map Prod.snd := by
  induction l with
  | nil => intro s; simp [deleteAll]
  | cons hd t ih =>
    intro s
    obtain ⟨k, p⟩ := hd
    simp [deleteAll, ih, State.delete]

theorem primCalls_append (a b : List Event) : primCalls (a ++ b) = primCalls a ++ primCalls b := by
  simp [primCalls]

theorem primCalls_idem (a : List Event) : primCalls (primCalls a) = primCalls a := by
  simp [primCalls]

/-- Two states in which the reader sees the same stream at the same place, after the same
primitive calls. -/
structure SameStream (sa sc : State) : Prop where
  g_pVideoData : sa.g_pVideoData = sc.g_pVideoData
  mem : sa.mem = sc.mem
  calls : primCalls sa.trace = primCalls sc.trace

/-- Joint case analysis on the two switches for one command byte. -/
theorem walk_cases (P : Counts × State → CachedDisplayList × State → Prop) (env : Env)
    (size : Int) (b : Nat) (c : Counts) (sa : State) (dl : CachedDisplayList) (sc : State)
    (h0 : P (c, sa) (dl, sc))
    (hcp : P (analyze_LOAD_CP_REG c sa) (compile_LOAD_CP_REG env dl sc))
    (hxf : P (analyze_LOAD_XF_REG c sa) (compile_LOAD_XF_REG env dl sc))
    (hix : ∀ r, P (analyze_LOAD_INDX r c sa) (compile_LOAD_INDX env r dl sc))
    (hdl : P (analyze_CMD_CALL_DL c sa) (compile_CMD_CALL_DL env dl sc))
    (hbp : P (analyze_LOAD_BP_REG c sa) (compile_LOAD_BP_REG env dl sc))
    (hdr : P (analyze_draw env b c sa) (compile_draw env size b dl sc)) :
    P (analyzeCmd env b c sa) (compileCmd env size b dl sc) := by
  unfold analyzeCmd compileCmd
  by_cases c1 : b = GX_NOP
  · rw [if_pos c1, if_pos c1]; exact h0
  rw [if_neg c1, if_neg c1]
  by_cases c2 : b = GX_LOAD_CP_REG
  · rw [if_pos c2, if_pos c2]; exact hcp
  rw [if_neg c2, if_neg c2]
  by_cases c3 : b = GX_LOAD_XF_REG
  · rw [if_pos c3, if_pos c3]; exact hxf
  rw [if_neg c3, if_neg c3]
  by_cases c4 : b = GX_LOAD_INDX_A
  · rw [if_pos c4, if_pos c4]; exact hix _
  rw [if_neg c4, if_neg c4]
  by_cases c5 : b = GX_LOAD_INDX_B
  · rw [if_pos c5, if_pos c5]; exact hix _
  rw [if_neg c5, if_neg c5]
  by_cases c6 : b = GX_LOAD_INDX_C
  · rw [if_pos c6, if_pos c6]; exact hix _
  rw [if_neg c6, if_neg c6]
  by_cases c7 : b = GX_LOAD_INDX_D
  · rw [if_pos c7, if_pos c7]; exact hix _
  rw [if_neg c7, if_neg c7]
  by_cases c8 : b = GX_CMD_CALL_DL
  · rw [if_pos c8, if_pos c8]; exact hdl
  rw [if_neg c8, if_neg c8]
  by_cases c9 : b = GX_CMD_UNKNOWN_METRICS
  · rw [if_pos c9, if_pos c9]; exact h0
  rw [if_neg c9, if_neg c9]
  by_cases c10 : b = GX_CMD_INVL_VC
  · rw [if_pos c10, if_pos c10]; exact h0
  rw [if_neg c10, if_neg c10]
  by_cases c11 : b = GX_LOAD_BP_REG
  · rw [if_pos c11, if_pos c11]; exact hbp
  rw [if_neg c11, if_neg c11]
  by_cases c12 : b &&& 0x80 ≠ 0
  · rw [if_pos c12, if_pos c12]; exact hdr
  rw [if_neg c12, if_neg c12]; exact h0

theorem SameStream.byteAt {sa sc : State} (h : SameStream sa sc) (p : Nat) :
    sa.byteAt p = sc.byteAt p := by
  simp only [State.byteAt, h.mem]

theorem SameStream.readU8 {sa sc : State} (h : SameStream sa sc) :
    (DataReadU8 sa).1 = (DataReadU8 sc).1 ∧ SameStream (DataReadU8 sa).2 (DataReadU8 sc).2 := by
  refine ⟨?_, ?_, h.mem, h.calls⟩
  · simp only [DataReadU8, h.byteAt, h.g_pVideoData]
  · simp only [DataReadU8, h.g_pVideoData]

theorem SameStream.readU16 {sa sc : State} (h : SameStream sa sc) :
    (DataReadU16 sa).1 = (DataReadU16 sc).1
      ∧ SameStream (DataReadU16 sa).2 (DataReadU16 sc).2 := by
  refine ⟨?_, ?_, h.mem, h.calls⟩
  · simp only [DataReadU16, h.byteAt, h.g_pVideoData]
  · simp only [DataReadU16, h.g_pVideoData]

theorem SameStream.readU32 {sa sc : State} (h : SameStream sa sc) :
    (DataReadU32 sa).1 = (DataReadU32 sc).1
      ∧ SameStream (DataReadU32 sa).2 (DataReadU32 sc).2 := by
  refine ⟨?_, ?_, h.mem, h.calls⟩
  · simp only [DataReadU32, h.byteAt, h.g_pVideoData]
  · simp only [DataReadU32, h.g_pVideoData]

theorem SameStream.readWords {sa sc : State} (h : SameStream sa sc) (n : Nat) :
    (readWords n sa).1 = (readWords n sc).1
      ∧ SameStream (readWords n sa).2 (readWords n sc).2 := by
  rw [readWords_eq, readWords_eq]
  refine ⟨?_, ?_, h.mem, h.calls⟩
  · simp only [h.mem, h.g_pVideoData]
  · simp only [h.g_pVideoData]

/-- Both sides issue the same primitive call. -/
theorem SameStream.call {sa sc : State} (h : SameStream sa sc) (e : Event) :
    SameStream (sa.call e) (sc.call e) := by
  refine ⟨h.g_pVideoData, h.mem, ?_⟩
  simp only [State.call, primCalls_append, h.calls]

/-- Changes to the statistics, the emitter and the heap do not matter. -/
theorem SameStream.of_eq {sa sc sa' sc' : State} (h : SameStream sa sc)
    (ha : sa'.g_pVideoData = sa.g_pVideoData ∧ sa'.mem = sa.mem ∧ sa'.trace = sa.trace)
    (hc : sc'.g_pVideoData = sc.g_pVideoData ∧ sc'.mem = sc.mem ∧ sc'.trace = sc.trace) :
    SameStream sa' sc' := by
  refine ⟨?_, ?_, ?_⟩
  · rw [ha.1, hc.1]; exact h.g_pVideoData
  · rw [ha.2.1, hc.2.1]; exact h.mem
  · rw [ha.2.2, hc.2.2]; exact h.calls

end DLCache

namespace DLCache

theorem lockstep_LOAD_CP_REG (env : Env) (c : Counts) (dl : CachedDisplayList) {sa sc : State}
    (h : SameStream sa sc) :
    SameStream (analyze_LOAD_CP_REG c sa).2 (compile_LOAD_CP_REG env dl sc).2 := by
  have h1 := h.readU8
  have h2 := h1.2.readU32
  have h3 := h2.2.call (Event.LoadCPReg (DataReadU8 sa).1 (DataReadU32 (DataReadU8 sa).2).1)
  refine h3.of_eq ⟨rfl, rfl, rfl⟩ ⟨rfl, rfl, ?_⟩
  simp only [compile_LOAD_CP_REG, State.emit, State.call, h1.1, h2.1]

theorem lockstep_LOAD_XF_REG (env : Env) (c : Counts) (dl : CachedDisplayList) {sa sc : State}
    (h : SameStream sa sc) :
    SameStream (analyze_LOAD_XF_REG c sa).2 (compile_LOAD_XF_REG env dl sc).2 := by
  have h1 := h.readU32
  have h2 := h1.2.readWords ((((DataReadU32 sa).1 >>> 16) &&& 15) + 1)
  have h3 := h2.2.call (Event.LoadXFReg ((((DataReadU32 sa).1 >>> 16) &&& 15) + 1)
    ((DataReadU32 sa).1 &&& 0xFFFF)
    (readWords ((((DataReadU32 sa).1 >>> 16) &&& 15) + 1) (DataReadU32 sa).2).1)
  refine h3.of_eq ⟨rfl, rfl, rfl⟩ ⟨?_, ?_, ?_⟩
  · simp only [compile_LOAD_XF_REG, State.emit, State.call, State.new, h1.1]
  · simp only [compile_LOAD_XF_REG, State.emit, State.call, State.new, h1.1]
  · have h2' := h2.1
    rw [h1.1] at h2'
    simp only [compile_LOAD_XF_REG, State.emit, State.call, State.new, h1.1, h2']

theorem lockstep_LOAD_INDX (env : Env) (r : Nat) (c : Counts) (dl : CachedDisplayList)
    {sa sc : State} (h : SameStream sa sc) :
    SameStream (analyze_LOAD_INDX r c sa).2 (compile_LOAD_INDX env r dl sc).2 := by
  have h1 := h.readU32
  have h3 := h1.2.call (Event.LoadIndexedXF (DataReadU32 sa).1 r)
  refine h3.of_eq ⟨rfl, rfl, rfl⟩ ⟨rfl, rfl, ?_⟩
  simp only [compile_LOAD_INDX, State.emit, State.call, h1.1]

theorem lockstep_CMD_CALL_DL (env : Env) (c : Counts) (dl : CachedDisplayList) {sa sc : State}
    (h : SameStream sa sc) :
    SameStream (analyze_CMD_CALL_DL c sa).2 (compile_CMD_CALL_DL env dl sc).2 := by
  have h1 := h.readU32
  have h2 := h1.2.readU32
  have h3 := h2.2.call
    (Event.ExecuteDisplayList (DataReadU32 sa).1 (DataReadU32 (DataReadU32 sa).2).1)
  refine h3.of_eq ⟨rfl, rfl, rfl⟩ ⟨rfl, rfl, ?_⟩
  simp only [compile_CMD_CALL_DL, State.emit, State.call, h1.1, h2.1]

theorem lockstep_LOAD_BP_REG (env : Env) (c : Counts) (dl : CachedDisplayList) {sa sc : State}
    (h : SameStream sa sc) :
    SameStream (analyze_LOAD_BP_REG c sa).2 (compile_LOAD_BP_REG env dl sc).2 := by
  have h1 := h.readU32
  have h3 := h1.2.call (Event.LoadBPReg (DataReadU32 sa).1)
  refine h3.of_eq ⟨rfl, rfl, rfl⟩ ⟨rfl, rfl, ?_⟩
  simp only [compile_LOAD_BP_REG, State.emit, State.call, h1.1]

/-- A vertex batch run after a flush reads as many bytes as one run without it, when the bytes
a batch reads depend on the primitive calls made before it only. -/
theorem SameStream.runVertices (env : Env)
    (hflush : ∀ tr l p n, env.vtxBytes tr l p n = env.vtxBytes (primCalls tr) l p n)
    {sa sc : State} (h : SameStream sa sc) (l p n : Nat) :
    SameStream (RunVertices env l p n sa) (RunVertices env l p n (sc.call Event.Flush)) := by
  have hc : primCalls (sc.trace ++ [Event.Flush]) = primCalls sc.trace := by
    rw [primCalls_append]
    simp [primCalls, Event.isPrimitive]
  refine ⟨?_, h.mem, ?_⟩
  · simp only [RunVertices, State.call]
    rw [hflush sa.trace, hflush (sc.trace ++ [Event.Flush]), hc, h.calls, h.g_pVideoData]
  · simp only [RunVertices, State.call]
    rw [primCalls_append, primCalls_append, hc, h.calls]

theorem lockstep_draw (env : Env)
    (hflush : ∀ tr l p n, env.vtxBytes tr l p n = env.vtxBytes (primCalls tr) l p n)
    (size : Int) (b : Nat) (c : Counts) (dl : CachedDisplayList) {sa sc : State}
    (h : SameStream sa sc) :
    SameStream (analyze_draw env b c sa).2 (compile_draw env size b dl sc).2 := by
  have h1 := h.readU16
  have h3 := h1.2.runVertices env hflush (b &&& GX_VAT_MASK)
    ((b &&& GX_PRIMITIVE_MASK) >>> GX_PRIMITIVE_SHIFT) (DataReadU16 sa).1
  unfold compile_draw
  by_cases hs : size > 0
  · simp only [if_pos hs]
    refine h3.of_eq ⟨rfl, rfl, rfl⟩ ⟨?_, ?_, ?_⟩ <;>
      simp only [State.emit, State.call, State.new, RunVertices, h1.1]
  · simp only [if_neg hs]
    refine h3.of_eq ⟨rfl, rfl, rfl⟩ ⟨?_, ?_, ?_⟩ <;>
      simp only [State.emit, State.call, State.new, RunVertices, h1.1]

/-- One command keeps the two walks in step. -/
theorem lockstep_cmd (env : Env)
    (hflush : ∀ tr l p n, env.vtxBytes tr l p n = env.vtxBytes (primCalls tr) l p n)
    (size : Int) (b : Nat) (c : Counts) (dl : CachedDisplayList) {sa sc : State}
    (h : SameStream sa sc) :
    SameStream (analyzeCmd env b c sa).2 (compileCmd env size b dl sc).2 := by
  apply walk_cases (fun ra rc => SameStream ra.2 rc.2)
  · exact h
  · exact lockstep_LOAD_CP_REG env c dl h
  · exact lockstep_LOAD_XF_REG env c dl h
  · intro r; exact lockstep_LOAD_INDX env r c dl h
  · exact lockstep_CMD_CALL_DL env c dl h
  · exact lockstep_LOAD_BP_REG env c dl h
  · exact lockstep_draw env hflush size b c dl h

theorem lockstep_loop (env : Env)
    (hflush : ∀ tr l p n, env.vtxBytes tr l p n = env.vtxBytes (primCalls tr) l p n)
    (size : Int) (endPtr : Int) (fuel : Nat) :
    ∀ (c : Counts) (dl : CachedDisplayList) (sa sc : State), SameStream sa sc →
      SameStream (analyzeLoop env endPtr fuel c sa).2
        (compileLoop env size endPtr fuel dl sc).2 := by
  induction fuel with
  | zero => intro c dl sa sc h; exact h
  | succ n ih =>
    intro c dl sa sc h
    simp only [analyzeLoop, compileLoop]
    rw [h.g_pVideoData]
    by_cases hlt : (sc.g_pVideoData : Int) < endPtr
    · rw [if_pos hlt, if_pos hlt]
      have h1 := h.readU8
      rw [h1.1]
      exact ih _ _ _ _ (lockstep_cmd env hflush size (DataReadU8 sc).1 c dl h1.2)
    · rw [if_neg hlt, if_neg hlt]
      exact h

theorem lockstep_walk (env : Env)
    (hflush : ∀ tr l p n, env.vtxBytes tr l p n = env.vtxBytes (primCalls tr) l p n)
    (p : Nat) (size : Int) (dl : CachedDisplayList) (s : State) :
    primCalls (analyzeWalk env p size s).2.trace
      = primCalls (compileWalk env p size dl s).2.trace := by
  have h0 : SameStream ({ s with g_pVideoData := p } : State).SwapDL
      ((({ s with g_pVideoData := p } : State).SwapDL.AlignCode4).emit env
        (CodeItem.Prologue 4)) := ⟨rfl, rfl, rfl⟩
  exact (lockstep_loop env hflush size
    (↑({ s with g_pVideoData := p } : State).SwapDL.g_pVideoData + size)
    (↑({ s with g_pVideoData := p } : State).SwapDL.g_pVideoData + size
      - ↑({ s with g_pVideoData := p } : State).SwapDL.g_pVideoData).toNat
    ⟨0, 0, 0, 0, 0⟩
    { dl with compiled_code := ({ s with g_pVideoData := p } : State).SwapDL.AlignCode4.codePtr }
    _ _ h0).calls

/-- The primitive calls of the two passes agree, whatever the entries they work on. -/
theorem lockstep_passes (env : Env)
    (hflush : ∀ tr l p n, env.vtxBytes tr l p n = env.vtxBytes (primCalls tr) l p n)
    (address : Nat) (size : Int) (dla dlc : CachedDisplayList) (s : State) :
    primCalls (AnalyzeAndRunDisplayList env address size dla s).2.2.trace
      = primCalls (CompileAndRunDisplayList env address size dlc s).2.2.trace := by
  by_cases h : env.Memory_GetPtr address = 0
  · rw [AnalyzeAndRunDisplayList_unresolved env address size dla s h,
      CompileAndRunDisplayList_unresolved env address size dlc s h]
  · rw [AnalyzeAndRunDisplayList_resolved env address size dla s h,
      CompileAndRunDisplayList_resolved env address size dlc s h]
    exact lockstep_walk env hflush (env.Memory_GetPtr address) size dlc s

/-! ## What the compiler records -/

theorem expectedRecords_append (env : Env) (e1 e2 : List Event) :
    ∀ hist, expectedRecords env hist (e1 ++ e2)
      = expectedRecords env hist e1 ++ expectedRecords env (hist ++ e1) e2 := by
  induction e1 with
  | nil => intro hist; simp [expectedRecords]
  | cons e t ih =>
    intro hist
    show (expectedRecord env hist e).toList ++ expectedRecords env (hist ++ [e]) (t ++ e2)
      = ((expectedRecord env hist e).toList ++ expectedRecords env (hist ++ [e]) t)
          ++ expectedRecords env (hist ++ e :: t) e2
    rw [ih, List.append_assoc, List.append_assoc, List.singleton_append]

theorem decodeItem_congr {h h' : List (Nat × List Nat)} {n : Nat}
    (hh : ∀ p, p < n → heapLookup p h' = heapLookup p h) (it : CodeItem)
    (hb : it.ptrBound ≤ n) : decodeItem h' it = decodeItem h it := by
  cases it with
  | Prologue _ => rfl
  | Epilogue _ => rfl
  | CallFunctionC fn _ => cases fn <;> rfl
  | CallFunctionCC fn _ _ => cases fn <;> rfl
  | CallFunctionCCP fn a b p =>
    have hp : p < n := by simp only [CodeItem.ptrBound] at hb; omega
    cases fn <;> simp only [decodeItem, hh p hp]
  | CallFunctionCCCP fn a b c p =>
    have hp : p < n := by simp only [CodeItem.ptrBound] at hb; omega
    cases fn <;> simp only [decodeItem, hh p hp]

/-- Between `s` and `s'` the calls issued and the items written match: every item decodes, with
the heap of `s'`, to the record expected for the corresponding primitive call.  The reader
cursor and the heap only grow, and the buffers allocated before `s` are untouched. -/
structure Recorded (env : Env) (s s' : State) : Prop where
  ext : ∃ (evs : List Event) (items : List (Nat × CodeItem)),
    s'.trace = s.trace ++ evs ∧ s'.code = s.code ++ items
      ∧ items.map (fun x => decodeItem s'.heap x.2) = (expectedRecords env s.trace evs).map some
      ∧ ∀ x ∈ items, x.2.ptrBound ≤ s'.heapNext
  cursor : s.g_pVideoData ≤ s'.g_pVideoData
  heapNext : s.heapNext ≤ s'.heapNext
  heap : ∀ p, p < s.heapNext → heapLookup p s'.heap = heapLookup p s.heap

theorem Recorded.rRefl (env : Env) (s : State) : Recorded env s s :=
  ⟨⟨[], [], by simp, by simp, rfl, by simp⟩, le_refl _, le_refl _, fun _ _ => rfl⟩

theorem Recorded.rTrans {env : Env} {s1 s2 s3 : State} (h12 : Recorded env s1 s2)
    (h23 : Recorded env s2 s3) : Recorded env s1 s3 := by
  obtain ⟨e1, i1, ht1, hc1, hd1, hb1⟩ := h12.ext
  obtain ⟨e2, i2, ht2, hc2, hd2, hb2⟩ := h23.ext
  refine ⟨⟨e1 ++ e2, i1 ++ i2, ?_, ?_, ?_, ?_⟩, le_trans h12.cursor h23.cursor,
    le_trans h12.heapNext h23.heapNext, ?_⟩
  · rw [ht2, ht1, List.append_assoc]
  · rw [hc2, hc1, List.append_assoc]
  · rw [List.map_append, expectedRecords_append, List.map_append, ← hd1, ← ht1, ← hd2]
    congr 1
    apply List.map_congr_left
    intro x hx
    exact decodeItem_congr h23.heap x.2 (hb1 x hx)
  · intro x hx
    rcases List.mem_append.mp hx with h | h
    · exact le_trans (hb1 x h) h23.heapNext
    · exact hb2 x h
  · intro p hp
    rw [h23.heap p (lt_of_lt_of_le hp h12.heapNext), h12.heap p hp]

theorem Recorded.rReadU8 (env : Env) (s : State) : Recorded env s (DataReadU8 s).2 :=
  ⟨⟨[], [], by simp [DataReadU8], by simp [DataReadU8], rfl, by simp⟩,
    by simp [DataReadU8], le_refl _, fun _ _ => rfl⟩

theorem recorded_LOAD_CP_REG (env : Env) (dl : CachedDisplayList) (s : State) :
    Recorded env s (compile_LOAD_CP_REG env dl s).2 := by
  refine ⟨⟨[Event.LoadCPReg (DataReadU8 s).1 (DataReadU32 (DataReadU8 s).2).1],
    [(s.codePtr, CodeItem.CallFunctionCC Fn.LoadCPReg (DataReadU8 s).1
      (DataReadU32 (DataReadU8 s).2).1)], rfl, rfl, rfl, ?_⟩, ?_, le_refl _, fun _ _ => rfl⟩
  · intro x hx
    rw [List.mem_singleton.mp hx]
    exact Nat.zero_le _
  · show s.g_pVideoData ≤ s.g_pVideoData + 1 + 4
    omega

theorem recorded_LOAD_INDX (env : Env) (r : Nat) (dl : CachedDisplayList) (s : State) :
    Recorded env s (compile_LOAD_INDX env r dl s).2 := by
  refine ⟨⟨[Event.LoadIndexedXF (DataReadU32 s).1 r],
    [(s.codePtr, CodeItem.CallFunctionCC Fn.LoadIndexedXF (DataReadU32 s).1 r)],
    rfl, rfl, rfl, ?_⟩, ?_, le_refl _, fun _ _ => rfl⟩
  · intro x hx
    rw [List.mem_singleton.mp hx]
    exact Nat.zero_le _
  · show s.g_pVideoData ≤ s.g_pVideoData + 4
    omega

theorem recorded_CMD_CALL_DL (env : Env) (dl : CachedDisplayList) (s : State) :
    Recorded env s (compile_CMD_CALL_DL env dl s).2 := by
  refine ⟨⟨[Event.ExecuteDisplayList (DataReadU32 s).1 (DataReadU32 (DataReadU32 s).2).1],
    [(s.codePtr, CodeItem.CallFunctionCC Fn.ExecuteDisplayList (DataReadU32 s).1
      (DataReadU32 (DataReadU32 s).2).1)], rfl, rfl, rfl, ?_⟩, ?_, le_refl _, fun _ _ => rfl⟩
  · intro x hx
    rw [List.mem_singleton.mp hx]
    exact Nat.zero_le _
  · show s.g_pVideoData ≤ s.g_pVideoData + 4 + 4
    omega

theorem recorded_LOAD_BP_REG (env : Env) (dl : CachedDisplayList) (s : State) :
    Recorded env s (compile_LOAD_BP_REG env dl s).2 := by
  refine ⟨⟨[Event.LoadBPReg (DataReadU32 s).1],
    [(s.codePtr, CodeItem.CallFunctionC Fn.LoadBPReg (DataReadU32 s).1)],
    rfl, rfl, rfl, ?_⟩, ?_, le_refl _, fun _ _ => rfl⟩
  · intro x hx
    rw [List.mem_singleton.mp hx]
    exact Nat.zero_le _
  · show s.g_pVideoData ≤ s.g_pVideoData + 4
    omega

theorem heapLookup_cons_self (p : Nat) (d : List Nat) (h : List (Nat × List Nat)) :
    heapLookup p ((p, d) :: h) = some d := by
  simp [heapLookup]

theorem heapLookup_cons_of_lt {p q : Nat} (hpq : p < q) (d : List Nat)
    (h : List (Nat × List Nat)) : heapLookup p ((q, d) :: h) = heapLookup p h := by
  have : p ≠ q := by omega
  simp [heapLookup, this]

theorem recorded_LOAD_XF_REG (env : Env) (dl : CachedDisplayList) (s : State) :
    Recorded env s (compile_LOAD_XF_REG env dl s).2 := by
  simp only [compile_LOAD_XF_REG, readWords_eq]
  refine ⟨⟨[Event.LoadXFReg ((((DataReadU32 s).1 >>> 16) &&& 15) + 1)
      ((DataReadU32 s).1 &&& 0xFFFF)
      (wordsAt s.mem (s.g_pVideoData + 4) ((((DataReadU32 s).1 >>> 16) &&& 15) + 1))],
    [(s.codePtr, CodeItem.CallFunctionCCP Fn.LoadXFReg ((((DataReadU32 s).1 >>> 16) &&& 15) + 1)
      ((DataReadU32 s).1 &&& 0xFFFF) s.heapNext)], rfl, rfl, ?_, ?_⟩, ?_, ?_, ?_⟩
  · show [decodeItem ((s.heapNext, _) :: s.heap) _] = _
    simp only [decodeItem, heapLookup_cons_self]
    rfl
  · intro x hx
    rw [List.mem_singleton.mp hx]
    exact le_refl _
  · show s.g_pVideoData ≤ s.g_pVideoData + 4 + 4 * _
    omega
  · exact Nat.le_succ _
  · intro p hp
    exact heapLookup_cons_of_lt hp _ _

theorem recorded_draw (env : Env) (size : Int) (hs : size > 0) (b : Nat)
    (dl : CachedDisplayList) (s : State) :
    Recorded env s (compile_draw env size b dl s).2 := by
  simp only [compile_draw, if_pos hs]
  refine ⟨⟨[Event.Flush, Event.RunVertices (b &&& GX_VAT_MASK)
      ((b &&& GX_PRIMITIVE_MASK) >>> GX_PRIMITIVE_SHIFT) (DataReadU16 s).1],
    [(s.codePtr, CodeItem.CallFunctionCCCP Fn.RunCompiledVertices (b &&& GX_VAT_MASK)
      ((b &&& GX_PRIMITIVE_MASK) >>> GX_PRIMITIVE_SHIFT) (DataReadU16 s).1 s.heapNext)],
    ?_, rfl, ?_, ?_⟩, ?_, ?_, ?_⟩
  · show (s.trace ++ [Event.Flush]) ++ [_] = _
    simp
  · show [decodeItem ((s.heapNext, _) :: s.heap) _] = _
    simp only [decodeItem, heapLookup_cons_self]
    rfl
  · intro x hx
    rw [List.mem_singleton.mp hx]
    exact le_refl _
  · show s.g_pVideoData ≤ s.g_pVideoData + 2 + _
    omega
  · exact Nat.le_succ _
  · intro p hp
    exact heapLookup_cons_of_lt hp _ _

/-- One command of the compiler, inside a walk of positive size, records what it executes. -/
theorem recorded_cmd (env : Env) (size : Int) (hs : size > 0) (b : Nat)
    (dl : CachedDisplayList) (s : State) :
    Recorded env s (compileCmd env size b dl s).2 := by
  apply compileCmd_cases (fun r => Recorded env s r.2)
  · exact Recorded.rRefl env s
  · exact recorded_LOAD_CP_REG env dl s
  · exact recorded_LOAD_XF_REG env dl s
  · intro r; exact recorded_LOAD_INDX env r dl s
  · exact recorded_CMD_CALL_DL env dl s
  · exact recorded_LOAD_BP_REG env dl s
  · exact recorded_draw env size hs b dl s

/-- The loop of the compiler records what it executes; the loop body is entered only when the
size of the list is positive, because the cursor never falls below the start of the list. -/
theorem recorded_loop (env : Env) (size : Int) (endPtr : Int) (fuel : Nat) :
    ∀ (dl : CachedDisplayList) (s : State), endPtr ≤ (s.g_pVideoData : Int) + size →
      Recorded env s (compileLoop env size endPtr fuel dl s).2 := by
  induction fuel with
  | zero => intro dl s _; exact Recorded.rRefl env s
  | succ n ih =>
    intro dl s hle
    simp only [compileLoop]
    by_cases hlt : (s.g_pVideoData : Int) < endPtr
    · rw [if_pos hlt]
      have hs : size > 0 := by omega
      have h1 := Recorded.rReadU8 env s
      have h2 := recorded_cmd env size hs (DataReadU8 s).1 dl (DataReadU8 s).2
      have h12 := Recorded.rTrans h1 h2
      refine Recorded.rTrans h12 (ih _ _ ?_)
      have := h12.cursor
      omega
    · rw [if_neg hlt]
      exact Recorded.rRefl env s

theorem compileWalk_recorded (env : Env) (p : Nat) (size : Int) (dl : CachedDisplayList)
    (s : State) :
    ∃ (evs : List Event) (items : List (Nat × CodeItem)) (pe : Nat),
      (compileWalk env p size dl s).2.trace = s.trace ++ evs
      ∧ (compileWalk env p size dl s).2.code
          = s.code ++ (s.codePtr + (4 - s.codePtr % 4) % 4, CodeItem.Prologue 4)
              :: (items ++ [(pe, CodeItem.Epilogue 4)])
      ∧ items.map (fun x => decodeItem (compileWalk env p size dl s).2.heap x.2)
          = (expectedRecords env s.trace evs).map some := by
  have hl := recorded_loop env size
    (↑({ s with g_pVideoData := p } : State).SwapDL.g_pVideoData + size)
    (↑({ s with g_pVideoData := p } : State).SwapDL.g_pVideoData + size
      - ↑((({ s with g_pVideoData := p } : State).SwapDL.AlignCode4).emit env
          (CodeItem.Prologue 4)).g_pVideoData).toNat
    { dl with compiled_code := ({ s with g_pVideoData := p } : State).SwapDL.AlignCode4.codePtr }
    ((({ s with g_pVideoData := p } : State).SwapDL.AlignCode4).emit env (CodeItem.Prologue 4))
    (le_refl _)
  obtain ⟨evs, items, ht, hc, hd, _⟩ := hl.ext
  refine ⟨evs, items, ?pe, ht, ?_, hd⟩
  case pe =>
    exact (compileLoop env size
      (↑({ s with g_pVideoData := p } : State).SwapDL.g_pVideoData + size)
      (↑({ s with g_pVideoData := p } : State).SwapDL.g_pVideoData + size
        - ↑((({ s with g_pVideoData := p } : State).SwapDL.AlignCode4).emit env
            (CodeItem.Prologue 4)).g_pVideoData).toNat
      { dl with
        compiled_code := ({ s with g_pVideoData := p } : State).SwapDL.AlignCode4.codePtr }
      ((({ s with g_pVideoData := p } : State).SwapDL.AlignCode4).emit env
        (CodeItem.Prologue 4))).2.codePtr
  show (compileLoop env size _ _ _ _).2.code ++ [_] = _
  rw [hc]
  simp [State.emit, State.AlignCode4, State.SwapDL]

/-- What a run of the compiler issues and emits: nothing when the address does not resolve;
otherwise a prologue, one item per primitive call, each decoding to the record expected for
that call, and an epilogue. -/
theorem CompileAndRunDisplayList_recorded (env : Env) (address : Nat) (size : Int)
    (dl : CachedDisplayList) (s : State) :
    ∃ (evs : List Event) (calls : List CodeItem),
      (CompileAndRunDisplayList env address size dl s).2.2.trace = s.trace ++ evs
      ∧ issued s (CompileAndRunDisplayList env address size dl s).2.2 = evs
      ∧ emitted s (CompileAndRunDisplayList env address size dl s).2.2
          = (if env.Memory_GetPtr address ≠ 0
              then CodeItem.Prologue 4 :: (calls ++ [CodeItem.Epilogue 4]) else [])
      ∧ calls.map (decodeItem (CompileAndRunDisplayList env address size dl s).2.2.heap)
          = (expectedRecords env s.trace evs).map some := by
  by_cases h : env.Memory_GetPtr address = 0
  · rw [CompileAndRunDisplayList_unresolved env address size dl s h]
    refine ⟨[], [], by simp, by simp [issued], ?_, rfl⟩
    simp [emitted, h]
  · rw [CompileAndRunDisplayList_resolved env address size dl s h]
    obtain ⟨evs, items, pe, ht, hc, hd⟩ :=
      compileWalk_recorded env (env.Memory_GetPtr address) size dl s
    refine ⟨evs, items.map Prod.snd, ht, ?_, ?_, ?_⟩
    · simp only [issued]
      rw [ht, List.drop_left]
    · simp only [emitted]
      rw [hc, List.drop_left, if_pos h]
      simp
    · rw [List.map_map]
      exact hd

/-- The analyzer appends primitive calls only. -/
structure Appends (s s' : State) : Prop where
  ext : ∃ evs : List Event, s'.trace = s.trace ++ evs ∧ primCalls evs = evs

theorem Appends.pRefl (s : State) : Appends s s := ⟨⟨[], by simp, rfl⟩⟩

theorem Appends.pTrans {s1 s2 s3 : State} (h12 : Appends s1 s2) (h23 : Appends s2 s3) :
    Appends s1 s3 := by
  obtain ⟨e1, ht1, hp1⟩ := h12.ext
  obtain ⟨e2, ht2, hp2⟩ := h23.ext
  refine ⟨⟨e1 ++ e2, ?_, ?_⟩⟩
  · rw [ht2, ht1, List.append_assoc]
  · rw [primCalls_append, hp1, hp2]

theorem analyzeCmd_appends (env : Env) (b : Nat) (c : Counts) (s : State) :
    Appends s (analyzeCmd env b c s).2 := by
  apply analyzeCmd_cases (fun r => Appends s r.2)
  · exact Appends.pRefl s
  · exact ⟨⟨[_], rfl, rfl⟩⟩
  · simp only [analyze_LOAD_XF_REG, readWords_eq]
    exact ⟨⟨[_], rfl, rfl⟩⟩
  · intro r; exact ⟨⟨[_], rfl, rfl⟩⟩
  · exact ⟨⟨[_], rfl, rfl⟩⟩
  · exact ⟨⟨[_], rfl, rfl⟩⟩
  · exact ⟨⟨[_], rfl, rfl⟩⟩

theorem analyzeLoop_appends (env : Env) (endPtr : Int) (fuel : Nat) :
    ∀ (c : Counts) (s : State), Appends s (analyzeLoop env endPtr fuel c s).2 := by
  induction fuel with
  | zero => intro c s; exact Appends.pRefl s
  | succ n ih =>
    intro c s
    simp only [analyzeLoop]
    by_cases hlt : (s.g_pVideoData : Int) < endPtr
    · rw [if_pos hlt]
      have h1 : Appends s (DataReadU8 s).2 := ⟨⟨[], by simp [DataReadU8], rfl⟩⟩
      exact (h1.pTrans (analyzeCmd_appends env _ c _)).pTrans (ih _ _)
    · rw [if_neg hlt]
      exact Appends.pRefl s

theorem AnalyzeAndRunDisplayList_appends (env : Env) (address : Nat) (size : Int)
    (dl : CachedDisplayList) (s : State) :
    ∃ evs : List Event,
      (AnalyzeAndRunDisplayList env address size dl s).2.2.trace = s.trace ++ evs
      ∧ issued s (AnalyzeAndRunDisplayList env address size dl s).2.2 = evs
      ∧ primCalls evs = evs := by
  by_cases h : env.Memory_GetPtr address = 0
  · rw [AnalyzeAndRunDisplayList_unresolved env address size dl s h]
    exact ⟨[], by simp, by simp [issued], rfl⟩
  · rw [AnalyzeAndRunDisplayList_resolved env address size dl s h]
    obtain ⟨evs, ht, hp⟩ := (analyzeLoop_appends env
      (↑({ s with g_pVideoData := env.Memory_GetPtr address } : State).SwapDL.g_pVideoData
        + size)
      (↑({ s with g_pVideoData := env.Memory_GetPtr address } : State).SwapDL.g_pVideoData
        + size
        - ↑({ s with g_pVideoData := env.Memory_GetPtr address } : State).SwapDL.g_pVideoData
        ).toNat
      ⟨0, 0, 0, 0, 0⟩
      ({ s with g_pVideoData := env.Memory_GetPtr address } : State).SwapDL).ext
    have ht' : (analyzeWalk env (env.Memory_GetPtr address) size s).2.trace = s.trace ++ evs :=
      ht
    refine ⟨evs, ht', ?_, hp⟩
    simp only [issued]
    rw [ht', List.drop_left]

/-! ## The loops reach their exit condition -/

/-- A command of the analyzer never moves the reader cursor backwards. -/
theorem analyzeCmd_cursor (env : Env) (b : Nat) (c : Counts) (s : State) :
    s.g_pVideoData ≤ (analyzeCmd env b c s).2.g_pVideoData := by
  apply analyzeCmd_cases (fun r => s.g_pVideoData ≤ r.2.g_pVideoData)
  · exact le_refl _
  · show s.g_pVideoData ≤ s.g_pVideoData + 1 + 4
    omega
  · simp only [analyze_LOAD_XF_REG, readWords_eq]
    show s.g_pVideoData ≤ s.g_pVideoData + 4 + 4 * _
    omega
  · intro r
    show s.g_pVideoData ≤ s.g_pVideoData + 4
    omega
  · show s.g_pVideoData ≤ s.g_pVideoData + 4 + 4
    omega
  · show s.g_pVideoData ≤ s.g_pVideoData + 4
    omega
  · show s.g_pVideoData ≤ s.g_pVideoData + 2 + _
    omega

/-- With `end - g_pVideoData` iterations allowed, the analyzer's loop stops because its
condition `g_pVideoData < end` is false, not for want of fuel. -/
theorem analyzeLoop_exit (env : Env) (endPtr : Int) (fuel : Nat) :
    ∀ (c : Counts) (s : State), (endPtr - s.g_pVideoData).toNat ≤ fuel →
      endPtr ≤ ((analyzeLoop env endPtr fuel c s).2.g_pVideoData : Int) := by
  induction fuel with
  | zero =>
    intro c s h
    simp only [analyzeLoop]
    omega
  | succ n ih =>
    intro c s h
    simp only [analyzeLoop]
    by_cases hlt : (s.g_pVideoData : Int) < endPtr
    · rw [if_pos hlt]
      apply ih
      have h1 := analyzeCmd_cursor env (DataReadU8 s).1 c (DataReadU8 s).2
      have h2 : (DataReadU8 s).2.g_pVideoData = s.g_pVideoData + 1 := rfl
      omega
    · rw [if_neg hlt]
      show endPtr ≤ (s.g_pVideoData : Int)
      omega

/-- The same for the compiler's loop, started inside a list of `size` bytes. -/
theorem compileLoop_exit (env : Env) (size : Int) (endPtr : Int) (fuel : Nat) :
    ∀ (dl : CachedDisplayList) (s : State), endPtr ≤ (s.g_pVideoData : Int) + size →
      (endPtr - s.g_pVideoData).toNat ≤ fuel →
      endPtr ≤ ((compileLoop env size endPtr fuel dl s).2.g_pVideoData : Int) := by
  induction fuel with
  | zero =>
    intro dl s _ h
    simp only [compileLoop]
    omega
  | succ n ih =>
    intro dl s hle h
    simp only [compileLoop]
    by_cases hlt : (s.g_pVideoData : Int) < endPtr
    · rw [if_pos hlt]
      have hs : size > 0 := by omega
      have h1 := (recorded_cmd env size hs (DataReadU8 s).1 dl (DataReadU8 s).2).cursor
      have h2 : (DataReadU8 s).2.g_pVideoData = s.g_pVideoData + 1 := rfl
      apply ih
      · omega
      · omega
    · rw [if_neg hlt]
      show endPtr ≤ (s.g_pVideoData : Int)
      omega

theorem CreateMapId_eq {a sz : Nat} (ha : a < 2 ^ 32) (hs : sz < 2 ^ 32) :
    CreateMapId a sz = 2 ^ 32 * a + sz := by
  unfold CreateMapId
  rw [Nat.shiftLeft_eq, Nat.mod_eq_of_lt (by omega), Nat.mul_comm a (2 ^ 32)]
  exact (Nat.mul_add_lt_is_or hs a).symm

theorem CreateMapId_injective {a1 s1 a2 s2 : Nat} (ha1 : a1 < 2 ^ 32) (hs1 : s1 < 2 ^ 32)
    (ha2 : a2 < 2 ^ 32) (hs2 : s2 < 2 ^ 32) (h : CreateMapId a1 s1 = CreateMapId a2 s2) :
    a1 = a2 ∧ s1 = s2 := by
  rw [CreateMapId_eq ha1 hs1, CreateMapId_eq ha2 hs2] at h
  omega

theorem HandleDisplayList_off (env : Env) (address size : Nat) (s : State)
    (h : s.bDlistCachingEnable = false ∨ size = 0) :
    HandleDisplayList env address size s = (false, s) := by
  unfold HandleDisplayList
  rcases h with h | h
  · simp [h]
  · simp [h]

theorem HandleDisplayList_new (env : Env) (address size : Nat) (s : State)
    (hen : s.bDlistCachingEnable = true) (hsz : size ≠ 0)
    (habs : mapFind (CreateMapId address size) s.dl_map = none) :
    HandleDisplayList env address size s
      = handleNew env address size (CreateMapId address size) s.withAlive := by
  unfold HandleDisplayList
  rw [if_neg (by simp [hen]), if_neg hsz]
  simp only [habs]
  rfl

theorem HandleDisplayList_found (env : Env) (address size : Nat) (s : State)
    (dl : CachedDisplayList) (hen : s.bDlistCachingEnable = true) (hsz : size ≠ 0)
    (hfound : mapFind (CreateMapId address size) s.dl_map = some dl) :
    HandleDisplayList env address size s
      = handleFound env address size (CreateMapId address size) dl s.withAlive := by
  unfold HandleDisplayList
  rw [if_neg (by simp [hen]), if_neg hsz]
  simp only [hfound]
  rfl

/-- The entry that the first analysis of a list leaves: the analyzer's counters and the hash of
the bytes, in pass `DLPASS_COMPILE`. -/
theorem handleNew_eq (env : Env) (address size dl_id : Nat) (s : State) :
    handleNew env address size dl_id s
      = (true,
         (AnalyzeAndRunDisplayList env address (toInt32 size)
            (CachedDisplayList.ctor env s.frameCount) s).2.2.store dl_id
           { (AnalyzeAndRunDisplayList env address (toInt32 size)
                (CachedDisplayList.ctor env s.frameCount) s).2.1 with
              dl_hash := GetHash64 env s address size
              pass := DisplayListPass.DLPASS_COMPILE
              check := 1
              next_check := 1 }) := by
  have hm := (AnalyzeAndRunDisplayList_frame env address (toInt32 size)
    (CachedDisplayList.ctor env s.frameCount) s).1.mem
  simp only [handleNew, AnalyzeAndRunDisplayList_ok, if_true, GetHash64, hm]

theorem handleFound_compile_match (env : Env) (address size dl_id : Nat)
    (dl : CachedDisplayList) (s : State) (hunc : dl.uncachable = false)
    (hpass : dl.pass = DisplayListPass.DLPASS_COMPILE)
    (hh : dl.dl_hash = GetHash64 env s address size) :
    handleFound env address size dl_id dl s
      = (true, (CompileAndRunDisplayList env address (toInt32 size) dl s).2.2.store dl_id
          { (CompileAndRunDisplayList env address (toInt32 size) dl s).2.1 with
            pass := DisplayListPass.DLPASS_RUN }) := by
  unfold handleFound
  rw [if_neg (by simp [hunc])]
  unfold handlePass
  simp only [hpass]
  rw [if_neg (by simp [hh])]

theorem handleFound_compile_mismatch (env : Env) (address size dl_id : Nat)
    (dl : CachedDisplayList) (s : State) (hunc : dl.uncachable = false)
    (hpass : dl.pass = DisplayListPass.DLPASS_COMPILE)
    (hh : dl.dl_hash ≠ GetHash64 env s address size) :
    handleFound env address size dl_id dl s
      = (false, s.store dl_id { dl with uncachable := true, check := 60 }) := by
  unfold handleFound
  rw [if_neg (by simp [hunc])]
  unfold handlePass
  simp only [hpass]
  rw [if_pos hh]

theorem handleFound_run_mismatch (env : Env) (address size dl_id : Nat)
    (dl : CachedDisplayList) (s : State) (hunc : dl.uncachable = false)
    (hpass : dl.pass = DisplayListPass.DLPASS_RUN) (hzero : dl.check - 1 ≤ 0)
    (hh : dl.dl_hash ≠ GetHash64 env s address size) :
    handleFound env address size dl_id dl s
      = (false, (deleteAll dl.Vdata s).store dl_id
          { dl with uncachable := true, check := 60, Vdata := [], BufferCount := 0 }) := by
  unfold handleFound
  rw [if_neg (by simp [hunc])]
  unfold handlePass
  simp only [hpass]
  rw [if_pos hzero, if_pos hh]

/-- `GetHash64` reads the memory only. -/
theorem GetHash64_congr (env : Env) (s s' : State) (address size : Nat) (h : s'.mem = s.mem) :
    GetHash64 env s' address size = GetHash64 env s address size := by
  simp only [GetHash64, h]

/-- The first occurrence of a key, as an equation. -/
theorem HandleDisplayList_first (env : Env) (address size : Nat) (s : State)
    (hen : s.bDlistCachingEnable = true) (hsz : size ≠ 0)
    (habs : mapFind (CreateMapId address size) s.dl_map = none) :
    HandleDisplayList env address size s
      = (true,
         (AnalyzeAndRunDisplayList env address (toInt32 size)
            (CachedDisplayList.ctor env s.frameCount) s.withAlive).2.2.store
           (CreateMapId address size)
           { (AnalyzeAndRunDisplayList env address (toInt32 size)
                (CachedDisplayList.ctor env s.frameCount) s.withAlive).2.1 with
              dl_hash := GetHash64 env s address size
              pass := DisplayListPass.DLPASS_COMPILE
              check := 1
              next_check := 1 }) := by
  rw [HandleDisplayList_new env address size s hen hsz habs, handleNew_eq]
  rfl

/-! ## Equivalence of the passes and the recorded routine -/

/-- C1: when the bytes a vertex batch reads depend on the primitive calls made before it only
(not on the flushes of the vertex manager), the analyzer and the compiler, started in the same
state on the same address and size, issue the same primitive calls with the same arguments in
the same order: the calls issued by the analyzer are exactly the calls of the six primitives
issued by the compiler. -/
theorem C1_same_primitive_calls (env : Env) (address : Nat) (size : Int)
    (dla dlc : CachedDisplayList) (s : State)
    (hflush : ∀ tr l p n, env.vtxBytes tr l p n = env.vtxBytes (primCalls tr) l p n) :
    issued s (AnalyzeAndRunDisplayList env address size dla s).2.2
      = primCalls (issued s (CompileAndRunDisplayList env address size dlc s).2.2) := by
  obtain ⟨ea, hta, hia, hpa⟩ := AnalyzeAndRunDisplayList_appends env address size dla s
  obtain ⟨ec, _, htc, hic, _, _⟩ := CompileAndRunDisplayList_recorded env address size dlc s
  have h := lockstep_passes env hflush address size dla dlc s
  rw [hta, htc, primCalls_append, primCalls_append] at h
  rw [hia, hic, ← hpa]
  exact List.append_cancel_left h

set_option maxRecDepth 100000 in
/-- C1 on the example stream: the five primitive calls of the list, from both passes. -/
theorem C1_same_primitive_calls_witness :
    issued exampleState
        (AnalyzeAndRunDisplayList exampleEnv 16 42 exampleEntry1 exampleState).2.2
      = primCalls (issued exampleState
          (CompileAndRunDisplayList exampleEnv 16 42 exampleEntry1 exampleState).2.2) :=
  C1_same_primitive_calls exampleEnv 16 42 exampleEntry1 exampleEntry1 exampleState
    (fun _ _ _ _ => rfl)

/-- C3: `CreateMapId` is injective on pairs of 32-bit values; and on an empty store, one call
for `(A, 32)` followed by one call for `(A, 64)` leaves two entries, one under each of the two
distinct keys. -/
theorem C3_key_uniqueness :
    (∀ a1 s1 a2 s2 : Nat, a1 < 2 ^ 32 → s1 < 2 ^ 32 → a2 < 2 ^ 32 → s2 < 2 ^ 32 →
        CreateMapId a1 s1 = CreateMapId a2 s2 → a1 = a2 ∧ s1 = s2)
    ∧ (∀ (env : Env) (s : State) (A : Nat), A < 2 ^ 32 → s.bDlistCachingEnable = true →
        s.dl_map = [] →
        CreateMapId A 32 ≠ CreateMapId A 64
        ∧ (mapFind (CreateMapId A 32)
            (HandleDisplayList env A 64 (HandleDisplayList env A 32 s).2).2.dl_map).isSome
        ∧ (mapFind (CreateMapId A 64)
            (HandleDisplayList env A 64 (HandleDisplayList env A 32 s).2).2.dl_map).isSome
        ∧ (HandleDisplayList env A 64 (HandleDisplayList env A 32 s).2).2.dl_map.length = 2) := by
  refine ⟨fun a1 s1 a2 s2 h1 h2 h3 h4 h => CreateMapId_injective h1 h2 h3 h4 h, ?_⟩
  intro env s A hA hen hemp
  have hne : CreateMapId A 64 ≠ CreateMapId A 32 := by
    intro h
    have := (CreateMapId_injective hA (by norm_num) hA (by norm_num) h).2
    omega
  -- first call
  have h1 : HandleDisplayList env A 32 s
      = handleNew env A 32 (CreateMapId A 32) s.withAlive :=
    HandleDisplayList_new env A 32 s hen (by norm_num) (by rw [hemp]; rfl)
  have hf1 := (AnalyzeAndRunDisplayList_frame env A (toInt32 32)
    (CachedDisplayList.ctor env s.withAlive.frameCount) s.withAlive).1
  have hmap1 : ∃ e1, (HandleDisplayList env A 32 s).2.dl_map = [(CreateMapId A 32, e1)] := by
    rw [h1, handleNew_eq]
    refine ⟨{ (AnalyzeAndRunDisplayList env A (toInt32 32)
      (CachedDisplayList.ctor env s.withAlive.frameCount) s.withAlive).2.1 with
        dl_hash := GetHash64 env s.withAlive A 32
        pass := DisplayListPass.DLPASS_COMPILE
        check := 1
        next_check := 1 }, ?_⟩
    simp only [State.store, hf1.dl_map]
    show mapSet _ _ s.dl_map = _
    rw [hemp]
    rfl
  obtain ⟨e1, hmap1⟩ := hmap1
  have hen1 : (HandleDisplayList env A 32 s).2.bDlistCachingEnable = true := by
    rw [h1, handleNew_eq]
    simp only [State.store, hf1.bDlistCachingEnable]
    exact hen
  -- second call
  have habs2 : mapFind (CreateMapId A 64) (HandleDisplayList env A 32 s).2.dl_map = none := by
    rw [hmap1]
    simp [mapFind, hne]
  have h2 := HandleDisplayList_new env A 64 (HandleDisplayList env A 32 s).2 hen1 (by norm_num)
    habs2
  have hf2 := (AnalyzeAndRunDisplayList_frame env A (toInt32 64)
    (CachedDisplayList.ctor env (HandleDisplayList env A 32 s).2.withAlive.frameCount)
    (HandleDisplayList env A 32 s).2.withAlive).1
  have hmap2 : ∃ e2, (HandleDisplayList env A 64 (HandleDisplayList env A 32 s).2).2.dl_map
      = mapSet (CreateMapId A 64) e2 [(CreateMapId A 32, e1)] := by
    rw [h2, handleNew_eq]
    refine ⟨{ (AnalyzeAndRunDisplayList env A (toInt32 64)
      (CachedDisplayList.ctor env (HandleDisplayList env A 32 s).2.withAlive.frameCount)
      (HandleDisplayList env A 32 s).2.withAlive).2.1 with
        dl_hash := GetHash64 env (HandleDisplayList env A 32 s).2.withAlive A 64
        pass := DisplayListPass.DLPASS_COMPILE
        check := 1
        next_check := 1 }, ?_⟩
    simp only [State.store, hf2.dl_map]
    show mapSet _ _ (HandleDisplayList env A 32 s).2.dl_map = _
    rw [hmap1]
  obtain ⟨e2, hmap2⟩ := hmap2
  refine ⟨fun h => hne h.symm, ?_, ?_, ?_⟩
  · rw [hmap2, mapFind_mapSet_ne (fun h => hne h.symm)]
    simp [mapFind]
  · rw [hmap2, mapFind_mapSet_self]
    rfl
  · rw [hmap2, length_mapSet_of_none]
    · rfl
    · simp [mapFind, hne]

/-- C3 at the address `16` of the example state. -/
theorem C3_key_uniqueness_witness :
    (CreateMapId 1 2 = CreateMapId 1 2 → (1 : Nat) = 1 ∧ (2 : Nat) = 2)
    ∧ (HandleDisplayList exampleEnv 16 64
        (HandleDisplayList exampleEnv 16 32 exampleState).2).2.dl_map.length = 2 :=
  ⟨C3_key_uniqueness.1 1 2 1 2 (by decide) (by decide) (by decide) (by decide),
   (C3_key_uniqueness.2 exampleEnv exampleState 16 (by decide) rfl rfl).2.2.2⟩

/-- C4: when caching is disabled or `size = 0`, `HandleDisplayList` returns not-handled and the
whole state (store, entries, arena cursor, statistics, trace of calls) is left as it was. -/
theorem C4_disabled_or_empty (env : Env) (address size : Nat) (s : State)
    (h : s.bDlistCachingEnable = false ∨ size = 0) :
    HandleDisplayList env address size s = (false, s) :=
  HandleDisplayList_off env address size s h

/-- C4 on the example state with `size = 0`. -/
theorem C4_disabled_or_empty_witness :
    HandleDisplayList exampleEnv 16 0 exampleState = (false, exampleState) :=
  C4_disabled_or_empty exampleEnv 16 0 exampleState (Or.inr rfl)

/-- C7: for an entry that is not uncachable and in pass `DLPASS_COMPILE`, when the hash of the
current bytes differs from the stored `dl_hash`, `HandleDisplayList` returns not-handled; the
entry becomes uncachable with `check = 60` and is otherwise as before (its buffers included);
no call is issued, nothing is emitted, the arena cursor and the heap are unchanged. -/
theorem C7_compile_on_mismatch (env : Env) (address size : Nat) (s : State)
    (dl : CachedDisplayList) (hen : s.bDlistCachingEnable = true) (hsz : 0 < size)
    (hfound : mapFind (CreateMapId address size) s.dl_map = some dl)
    (hunc : dl.uncachable = false) (hpass : dl.pass = DisplayListPass.DLPASS_COMPILE)
    (hhash : GetHash64 env s address size ≠ dl.dl_hash) :
    HandleDisplayList env address size s
        = (false, s.withAlive.store (CreateMapId address size)
            { dl with uncachable := true, check := 60 })
    ∧ mapFind (CreateMapId address size) (HandleDisplayList env address size s).2.dl_map
        = some { dl with uncachable := true, check := 60 }
    ∧ (HandleDisplayList env address size s).2.trace = s.trace
    ∧ (HandleDisplayList env address size s).2.code = s.code
    ∧ (HandleDisplayList env address size s).2.codePtr = s.codePtr
    ∧ (HandleDisplayList env address size s).2.heap = s.heap
    ∧ (HandleDisplayList env address size s).2.freed = s.freed := by
  rw [HandleDisplayList_found env address size s dl hen (by omega) hfound,
    handleFound_compile_mismatch env address size _ dl s.withAlive hunc hpass
      (fun h => hhash h.symm)]
  refine ⟨rfl, ?_, rfl, rfl, rfl, rfl, rfl⟩
  simp only [State.store, mapFind_mapSet_self]

set_option maxRecDepth 100000 in
/-- C7 on the example state after its first call, the list having been overwritten. -/
theorem C7_compile_on_mismatch_witness :
    (HandleDisplayList exampleEnv 16 42 { exampleState1 with mem := mutatedMem }).2.trace
      = exampleState1.trace :=
  (C7_compile_on_mismatch exampleEnv 16 42 { exampleState1 with mem := mutatedMem }
    exampleEntry1 (by rfl) (by decide) (by rfl) (by rfl) (by rfl) (by decide)).2.2.1

/-- C10: from a store without the key, three calls on the same `(address, size)`, the memory
being the same for the first two and changed before the third so that the hash of the list
differs: the first returns handled and leaves the entry in pass `DLPASS_COMPILE`, the second
returns handled and leaves it in pass `DLPASS_RUN`, the third returns not-handled and leaves it
uncachable with an empty `Vdata` and `BufferCount = 0`. -/
theorem C10_self_modification (env : Env) (address size : Nat) (s : State) (m3 : Nat → Nat)
    (hen : s.bDlistCachingEnable = true) (hsz : 0 < size)
    (habs : mapFind (CreateMapId address size) s.dl_map = none)
    (hdiff : env.hash64 (readBytes m3 (env.Memory_GetPtr address) (toInt32 size).toNat)
      ≠ env.hash64 (readBytes s.mem (env.Memory_GetPtr address) (toInt32 size).toNat)) :
    (HandleDisplayList env address size s).1 = true
    ∧ (∃ e1, mapFind (CreateMapId address size) (HandleDisplayList env address size s).2.dl_map
          = some e1 ∧ e1.pass = DisplayListPass.DLPASS_COMPILE)
    ∧ (HandleDisplayList env address size (HandleDisplayList env address size s).2).1 = true
    ∧ (∃ e2, mapFind (CreateMapId address size)
          (HandleDisplayList env address size (HandleDisplayList env address size s).2).2.dl_map
          = some e2 ∧ e2.pass = DisplayListPass.DLPASS_RUN)
    ∧ (HandleDisplayList env address size
        { (HandleDisplayList env address size (HandleDisplayList env address size s).2).2 with
          mem := m3 }).1 = false
    ∧ (∃ e3, mapFind (CreateMapId address size)
          (HandleDisplayList env address size
            { (HandleDisplayList env address size (HandleDisplayList env address size s).2).2 with
              mem := m3 }).2.dl_map = some e3
        ∧ e3.uncachable = true ∧ e3.Vdata = [] ∧ e3.BufferCount = 0) := by
  have hsz' : size ≠ 0 := by omega
  -- first call
  have hfA := (AnalyzeAndRunDisplayList_frame env address (toInt32 size)
    (CachedDisplayList.ctor env s.frameCount) s.withAlive).1
  have h1 := HandleDisplayList_first env address size s hen hsz' habs
  generalize hr1 : HandleDisplayList env address size s = r1 at h1 ⊢
  generalize he1 : ({ (AnalyzeAndRunDisplayList env address (toInt32 size)
                (CachedDisplayList.ctor env s.frameCount) s.withAlive).2.1 with
              dl_hash := GetHash64 env s address size
              pass := DisplayListPass.DLPASS_COMPILE
              check := 1
              next_check := 1 } : CachedDisplayList) = e1 at h1
  have e1_unc : e1.uncachable = false := by rw [← he1]; rfl
  have e1_pass : e1.pass = DisplayListPass.DLPASS_COMPILE := by rw [← he1]
  have e1_check : e1.check = 1 := by rw [← he1]
  have e1_hash : e1.dl_hash = GetHash64 env s address size := by rw [← he1]
  have r1_fst : r1.1 = true := by rw [h1]
  have r1_map : mapFind (CreateMapId address size) r1.2.dl_map = some e1 := by
    rw [h1]; simp only [State.store, mapFind_mapSet_self]
  have r1_mem : r1.2.mem = s.mem := by
    rw [h1]; exact hfA.mem
  have r1_en : r1.2.bDlistCachingEnable = true := by
    rw [h1]; exact hfA.bDlistCachingEnable.trans hen
  -- second call
  have hfC := CompileAndRunDisplayList_frame env address (toInt32 size) e1 r1.2.withAlive
  have h2 : HandleDisplayList env address size r1.2
      = (true, (CompileAndRunDisplayList env address (toInt32 size) e1 r1.2.withAlive).2.2.store
          (CreateMapId address size)
          { (CompileAndRunDisplayList env address (toInt32 size) e1 r1.2.withAlive).2.1 with
            pass := DisplayListPass.DLPASS_RUN }) := by
    rw [HandleDisplayList_found env address size r1.2 e1 r1_en hsz' r1_map,
      handleFound_compile_match env address size _ e1 r1.2.withAlive e1_unc e1_pass]
    rw [e1_hash]
    exact (GetHash64_congr env s r1.2.withAlive address size r1_mem).symm
  generalize hr2 : HandleDisplayList env address size r1.2 = r2 at h2 ⊢
  generalize he2 : ({ (CompileAndRunDisplayList env address (toInt32 size) e1
      r1.2.withAlive).2.1 with pass := DisplayListPass.DLPASS_RUN } : CachedDisplayList) = e2
    at h2
  have e2_unc : e2.uncachable = false := by
    rw [← he2]; exact hfC.2.1.uncachable.trans e1_unc
  have e2_pass : e2.pass = DisplayListPass.DLPASS_RUN := by rw [← he2]
  have e2_check : e2.check = 1 := by
    rw [← he2]; exact hfC.2.1.check.trans e1_check
  have e2_hash : e2.dl_hash = GetHash64 env s address size := by
    rw [← he2]; exact hfC.2.1.dl_hash.trans e1_hash
  have r2_fst : r2.1 = true := by rw [h2]
  have r2_map : mapFind (CreateMapId address size) r2.2.dl_map = some e2 := by
    rw [h2]; simp only [State.store, mapFind_mapSet_self]
  have r2_en : r2.2.bDlistCachingEnable = true := by
    rw [h2]; exact hfC.1.bDlistCachingEnable.trans r1_en
  -- third call
  have h3 : HandleDisplayList env address size { r2.2 with mem := m3 }
      = (false, (deleteAll e2.Vdata ({ r2.2 with mem := m3 } : State).withAlive).store
          (CreateMapId address size)
          { e2 with uncachable := true, check := 60, Vdata := [], BufferCount := 0 }) := by
    rw [HandleDisplayList_found env address size { r2.2 with mem := m3 } e2 r2_en hsz' r2_map,
      handleFound_run_mismatch env address size _ e2 _ e2_unc e2_pass (by rw [e2_check]; decide)]
    rw [e2_hash]
    exact fun h => hdiff h.symm
  refine ⟨r1_fst, ⟨e1, r1_map, e1_pass⟩, r2_fst, ⟨e2, r2_map, e2_pass⟩, ?_, ?_⟩
  · rw [h3]
  · refine ⟨{ e2 with uncachable := true, check := 60, Vdata := [], BufferCount := 0 },
      ?_, rfl, rfl, rfl⟩
    rw [h3]
    simp only [State.store, mapFind_mapSet_self]

set_option maxRecDepth 100000 in
/-- C10 on the example state, the list being overwritten before the third call. -/
theorem C10_self_modification_witness :
    (HandleDisplayList exampleEnv 16 42 exampleState).1 = true
    ∧ (HandleDisplayList exampleEnv 16 42
        (HandleDisplayList exampleEnv 16 42 exampleState).2).1 = true
    ∧ (HandleDisplayList exampleEnv 16 42
        { (HandleDisplayList exampleEnv 16 42
            (HandleDisplayList exampleEnv 16 42 exampleState).2).2 with
          mem := mutatedMem }).1 = false :=
  have h := C10_self_modification exampleEnv 16 42 exampleState mutatedMem (by rfl) (by decide)
    (by rfl) (by decide)
  ⟨h.1, h.2.2.1, h.2.2.2.2.1⟩

/-! ## Unrecognised opcodes and unresolved addresses in the analyzer -/

theorem analyzeCmd_unrecognized (env : Env) (b : Nat) (c : Counts) (s : State)
    (h : unrecognized b = true) : analyzeCmd env b c s = (c, s) := by
  simp only [unrecognized, decide_eq_true_eq] at h
  obtain ⟨h0, h1, h2, h3, h4, h5, h6, h7, h8, h9, h10, h11⟩ := h
  unfold analyzeCmd
  rw [if_neg h1, if_neg h2, if_neg h3, if_neg h4, if_neg h5, if_neg h6, if_neg h7, if_neg h8,
    if_neg h9, if_neg h10, if_neg h11, if_neg (by simp [h0])]

/-- C12, as the code has it: when the analyzer reads an unrecognized command byte inside the
list, nothing but the reader cursor changes for that byte (no call is issued, the counters and
the calls made so far stand), and the analysis does not stop: the walk goes on with the byte
that follows. -/
theorem C12_unrecognized_opcode_skipped (env : Env) (endPtr : Int) (fuel : Nat) (c : Counts)
    (s : State) (hlt : (s.g_pVideoData : Int) < endPtr)
    (hun : unrecognized (s.byteAt s.g_pVideoData) = true) :
    analyzeLoop env endPtr (fuel + 1) c s
      = analyzeLoop env endPtr fuel c { s with g_pVideoData := s.g_pVideoData + 1 } := by
  simp only [analyzeLoop]
  rw [if_pos hlt]
  have h : (DataReadU8 s).1 = s.byteAt s.g_pVideoData := rfl
  rw [h, analyzeCmd_unrecognized env _ c _ hun]
  rfl

set_option maxRecDepth 100000 in
/-- C12 at the start of the list of `illegalFirstState`. -/
theorem C12_unrecognized_opcode_skipped_witness :
    analyzeLoop exampleEnv 1022 6 ⟨0, 0, 0, 0, 0⟩ { illegalFirstState with g_pVideoData := 1016 }
      = analyzeLoop exampleEnv 1022 5 ⟨0, 0, 0, 0, 0⟩
          { illegalFirstState with g_pVideoData := 1017 } :=
  C12_unrecognized_opcode_skipped exampleEnv 1022 5 ⟨0, 0, 0, 0, 0⟩
    { illegalFirstState with g_pVideoData := 1016 } (by decide) (by decide)

set_option maxRecDepth 100000 in
/-- C12 fails as stated: the list of `illegalFirstState` starts with the unrecognized byte
`0x05`, and the analyzer still decodes the BP load located after it and issues its call. -/
theorem C12_analysis_goes_on :
    unrecognized (illegalFirstState.byteAt (exampleEnv.Memory_GetPtr 16)) = true
    ∧ issued illegalFirstState
        (AnalyzeAndRunDisplayList exampleEnv 16 6 exampleEntry1 illegalFirstState).2.2
      = [Event.LoadBPReg 0x01020304] := by
  decide

set_option maxRecDepth 100000 in
/-- C13 fails as stated: `exampleStream` holds the unrecognized byte `0x05` at offset 32, at a
command boundary (the nested list call decoded after it is issued); the analyzer reports
success, and the first call for the unseen key inserts an entry that is not uncachable. -/
theorem C13_analyzer_never_fails :
    unrecognized (exampleStream.getD 32 0) = true
    ∧ issued exampleState (HandleDisplayList exampleEnv 16 42 exampleState).2
      = [Event.LoadCPReg 0x30 5, Event.LoadXFReg 2 0x1020 [1, 2], Event.LoadBPReg 0x01020304,
         Event.RunVertices 0 2 2, Event.ExecuteDisplayList 256 8]
    ∧ (AnalyzeAndRunDisplayList exampleEnv 16 (toInt32 42)
        (CachedDisplayList.ctor exampleEnv exampleState.frameCount) exampleState.withAlive).1
      = true
    ∧ (HandleDisplayList exampleEnv 16 42 exampleState).1 = true
    ∧ (mapFind (CreateMapId 16 42)
        (HandleDisplayList exampleEnv 16 42 exampleState).2.dl_map).map
          (fun e => (e.uncachable, e.pass))
      = some (false, DisplayListPass.DLPASS_COMPILE) := by
  decide

/-- C13, as the code has it: for an unseen key, whatever the command stream holds (an
unrecognized opcode included), the analyzer reports success, and `HandleDisplayList` returns
handled and inserts the entry with `uncachable = false`, in pass `DLPASS_COMPILE`. -/
theorem C13_unseen_key_never_uncachable (env : Env) (address size : Nat) (s : State)
    (hen : s.bDlistCachingEnable = true) (hsz : 0 < size)
    (habs : mapFind (CreateMapId address size) s.dl_map = none) :
    (AnalyzeAndRunDisplayList env address (toInt32 size)
        (CachedDisplayList.ctor env s.frameCount) s.withAlive).1 = true
    ∧ (HandleDisplayList env address size s).1 = true
    ∧ ∃ e, mapFind (CreateMapId address size) (HandleDisplayList env address size s).2.dl_map
          = some e
        ∧ e.uncachable = false ∧ e.pass = DisplayListPass.DLPASS_COMPILE := by
  rw [HandleDisplayList_first env address size s hen (by omega) habs]
  refine ⟨rfl, rfl, { (AnalyzeAndRunDisplayList env address (toInt32 size)
      (CachedDisplayList.ctor env s.frameCount) s.withAlive).2.1 with
        dl_hash := GetHash64 env s address size
        pass := DisplayListPass.DLPASS_COMPILE
        check := 1
        next_check := 1 }, ?_, rfl, rfl⟩
  simp only [State.store, mapFind_mapSet_self]

/-- C13 on the example state, whose stream holds the unrecognized byte `0x05`. -/
theorem C13_unseen_key_never_uncachable_witness :
    (HandleDisplayList exampleEnv 16 42 exampleState).1 = true :=
  (C13_unseen_key_never_uncachable exampleEnv 16 42 exampleState rfl (by decide) rfl).2.1

/-- C14: when the address does not resolve, `AnalyzeAndRunDisplayList` reports success, writes
`0` to the five counters of the entry and leaves the whole state as it was (no call is issued,
the reader cursor is unchanged), for every size. -/
theorem C14_unresolved_address (env : Env) (address : Nat) (size : Int)
    (dl : CachedDisplayList) (s : State) (h : env.Memory_GetPtr address = 0) :
    AnalyzeAndRunDisplayList env address size dl s
        = (true,
           { dl with num_bp_reg := 0, num_cp_reg := 0, num_draw_call := 0, num_index_xf := 0,
                     num_xf_reg := 0 }, s)
    ∧ issued s (AnalyzeAndRunDisplayList env address size dl s).2.2 = []
    ∧ (AnalyzeAndRunDisplayList env address size dl s).2.2.g_pVideoData = s.g_pVideoData := by
  rw [AnalyzeAndRunDisplayList_unresolved env address size dl s h]
  refine ⟨rfl, ?_, rfl⟩
  simp [issued]

/-- C14 at the address `0` of the example environment, which does not resolve. -/
theorem C14_unresolved_address_witness :
    (AnalyzeAndRunDisplayList exampleEnv 0 42 exampleEntry1 exampleState).2.2.g_pVideoData
      = exampleState.g_pVideoData :=
  (C14_unresolved_address exampleEnv 0 42 exampleEntry1 exampleState rfl).2.2

/-! ## Eviction and global clear -/

theorem DFrame.dRefl (s : State) : DFrame s s := by constructor <;> rfl

theorem DFrame.dTrans {s1 s2 s3 : State} (h12 : DFrame s1 s2) (h23 : DFrame s2 s3) :
    DFrame s1 s3 := by
  constructor
  · exact h23.bDlistCachingEnable.trans h12.bDlistCachingEnable
  · exact h23.frameCount.trans h12.frameCount
  · exact h23.mem.trans h12.mem
  · exact h23.g_pVideoData.trans h12.g_pVideoData
  · exact h23.trace.trans h12.trace
  · exact h23.stats.trans h12.stats
  · exact h23.dl_map.trans h12.dl_map
  · exact h23.dlcode_cache.trans h12.dlcode_cache
  · exact h23.codePtr.trans h12.codePtr
  · exact h23.code.trans h12.code
  · exact h23.heapNext.trans h12.heapNext

/-- Releasing the buffers of a list of entries changes the heap and the log of deletions
only. -/
theorem clearEntries_frame (l : List (Nat × CachedDisplayList)) :
    ∀ s : State, DFrame s (clearEntries l s) := by
  induction l with
  | nil => intro s; exact DFrame.dRefl s
  | cons hd t ih =>
    intro s
    obtain ⟨k, e⟩ := hd
    exact DFrame.dTrans (deleteAll_frame e.Vdata s) (ih _)

/-- Every slot of every entry is deleted once, entry by entry. -/
theorem clearEntries_freed (l : List (Nat × CachedDisplayList)) :
    ∀ s : State, (clearEntries l s).freed = s.freed ++ allBuffers l := by
  induction l with
  | nil => intro s; simp [clearEntries, allBuffers]
  | cons hd t ih =>
    intro s
    obtain ⟨k, e⟩ := hd
    simp only [clearEntries, allBuffers, ih, deleteAll_freed, List.append_assoc]

/-- The test of the source, `entry.frame_count < frameCount - limit`, is the test of the
specification. -/
theorem exceedsThreshold_iff (fc : Int) (e : CachedDisplayList) :
    exceedsThreshold fc e = true
      ↔ e.frame_count < fc - (if e.uncachable then (1200 : Int) else 400) := by
  simp only [exceedsThreshold, decide_eq_true_eq]
  constructor <;> intro h <;> omega

/-- The entries that the loop of `ProgressiveCleanup` keeps are those that do not exceed their
threshold. -/
theorem cleanupLoop_kept (fc : Int) (l : List (Nat × CachedDisplayList)) :
    ∀ s : State, (cleanupLoop fc l s).1 = l.filter (fun x => !exceedsThreshold fc x.2) := by
  induction l with
  | nil => intro s; rfl
  | cons hd t ih =>
    intro s
    obtain ⟨k, e⟩ := hd
    simp only [cleanupLoop]
    by_cases h : e.frame_count < fc - (if e.uncachable then (1200 : Int) else 400)
    · rw [if_pos h, ih]
      have := (exceedsThreshold_iff fc e).mpr h
      simp [List.filter, this]
    · rw [if_neg h]
      have : exceedsThreshold fc e = false := by
        rw [← Bool.not_eq_true]
        exact fun hh => h ((exceedsThreshold_iff fc e).mp hh)
      simp [List.filter, this, ih]

/-- The deletions that the loop of `ProgressiveCleanup` makes are those of the entries that
exceed their threshold. -/
theorem cleanupLoop_state (fc : Int) (l : List (Nat × CachedDisplayList)) :
    ∀ s : State, (cleanupLoop fc l s).2
      = clearEntries (l.filter (fun x => exceedsThreshold fc x.2)) s := by
  induction l with
  | nil => intro s; rfl
  | cons hd t ih =>
    intro s
    obtain ⟨k, e⟩ := hd
    simp only [cleanupLoop]
    by_cases h : e.frame_count < fc - (if e.uncachable then (1200 : Int) else 400)
    · rw [if_pos h, ih]
      have := (exceedsThreshold_iff fc e).mpr h
      simp [List.filter, this, clearEntries]
    · rw [if_neg h]
      have : exceedsThreshold fc e = false := by
        rw [← Bool.not_eq_true]
        exact fun hh => h ((exceedsThreshold_iff fc e).mp hh)
      simp [List.filter, this, ih]

set_option maxRecDepth 100000 in
/-- C16 fails as stated: the entry of `exampleState1` was last used in frame 5 and is not
uncachable; in frame 405, that is 400 frames later, `ProgressiveCleanup` keeps it. -/
theorem C16_kept_at_400 :
    ({ exampleState1 with frameCount := 405 } : State).frameCount - exampleEntry1.frame_count
      = 400
    ∧ exampleEntry1.uncachable = false
    ∧ (ProgressiveCleanup { exampleState1 with frameCount := 405 }).dl_map
      = [(CreateMapId 16 42, exampleEntry1)] := by
  decide

/-- C16, as the code has it: an entry of the store is removed by `ProgressiveCleanup` when
`frameCount - frame_count` is more than 400 for a normal entry (401 is removed), more than 1200
for an uncachable one (1201 is removed), and is kept when the difference is at most 400,
respectively 1200 (so 400 and 399, 1200 and 1199 are kept). -/
theorem C16_eviction_boundary (s : State) (k : Nat) (e : CachedDisplayList)
    (hmem : (k, e) ∈ s.dl_map) :
    (e.uncachable = false → s.frameCount - e.frame_count > 400 →
        (k, e) ∉ (ProgressiveCleanup s).dl_map)
    ∧ (e.uncachable = false → s.frameCount - e.frame_count ≤ 400 →
        (k, e) ∈ (ProgressiveCleanup s).dl_map)
    ∧ (e.uncachable = true → s.frameCount - e.frame_count > 1200 →
        (k, e) ∉ (ProgressiveCleanup s).dl_map)
    ∧ (e.uncachable = true → s.frameCount - e.frame_count ≤ 1200 →
        (k, e) ∈ (ProgressiveCleanup s).dl_map) := by
  have hk : (ProgressiveCleanup s).dl_map
      = s.dl_map.filter (fun x => !exceedsThreshold s.frameCount x.2) :=
    cleanupLoop_kept s.frameCount s.dl_map s
  rw [hk]
  simp only [List.mem_filter, exceedsThreshold, hmem, true_and, Bool.not_eq_true',
    decide_eq_false_iff_not, not_lt, not_and, not_le]
  refine ⟨?_, ?_, ?_, ?_⟩
  · intro hu hd; simp only [hu, Bool.false_eq_true, if_false]; omega
  · intro hu hd; simp only [hu, Bool.false_eq_true, if_false]; omega
  · intro hu hd; simp only [hu, if_true]; omega
  · intro hu hd; simp only [hu, if_true]; omega

set_option maxRecDepth 100000 in
/-- C16 on the entry of `exampleState1`, 401 frames after its last use. -/
theorem C16_eviction_boundary_witness :
    (CreateMapId 16 42, exampleEntry1)
      ∉ (ProgressiveCleanup { exampleState1 with frameCount := 406 }).dl_map :=
  (C16_eviction_boundary { exampleState1 with frameCount := 406 } (CreateMapId 16 42)
    exampleEntry1 (by decide)).1 (by decide) (by decide)

/-- Case analysis on the `switch (dl.pass)`: a property of the result holds as soon as it holds
for the result of each of the six ways through the switch. -/
theorem handlePass_cases (P : Bool × State → Prop) (env : Env) (address size dl_id : Nat)
    (dl : CachedDisplayList) (s : State)
    (hA : dl.pass = DisplayListPass.DLPASS_ANALYZE →
      P (true, (AnalyzeAndRunDisplayList env address (toInt32 size) dl s).2.2.store dl_id
        { (AnalyzeAndRunDisplayList env address (toInt32 size) dl s).2.1 with
          dl_hash := GetHash64 env s address size
          pass := DisplayListPass.DLPASS_COMPILE
          check := 1
          next_check := 1 }))
    (hCm : dl.pass = DisplayListPass.DLPASS_COMPILE → dl.dl_hash ≠ GetHash64 env s address size →
      P (false, s.store dl_id { dl with uncachable := true, check := 60 }))
    (hCc : dl.pass = DisplayListPass.DLPASS_COMPILE → dl.dl_hash = GetHash64 env s address size →
      P (true, (CompileAndRunDisplayList env address (toInt32 size) dl s).2.2.store dl_id
        { (CompileAndRunDisplayList env address (toInt32 size) dl s).2.1 with
          pass := DisplayListPass.DLPASS_RUN }))
    (hRm : dl.pass = DisplayListPass.DLPASS_RUN → dl.check - 1 ≤ 0 →
      dl.dl_hash ≠ GetHash64 env s address size →
      P (false, (deleteAll dl.Vdata s).store dl_id
        { dl with uncachable := true, check := 60, Vdata := [], BufferCount := 0 }))
    (hRr : dl.pass = DisplayListPass.DLPASS_RUN → dl.check - 1 ≤ 0 →
      dl.dl_hash = GetHash64 env s address size →
      P (runCompiled dl_id { dl with check := dl.next_check } s))
    (hRn : dl.pass = DisplayListPass.DLPASS_RUN → ¬ dl.check - 1 ≤ 0 →
      P (runCompiled dl_id { dl with check := dl.check - 1 } s)) :
    P (handlePass env address size dl_id dl s) := by
  unfold handlePass
  split
  · rename_i hp
    have hm := (AnalyzeAndRunDisplayList_frame env address (toInt32 size) dl s).1.mem
    simp only
    rw [AnalyzeAndRunDisplayList_ok, if_pos rfl,
      GetHash64_congr env s _ address size hm]
    exact hA hp
  · rename_i hp
    by_cases hh : dl.dl_hash = GetHash64 env s address size
    · rw [if_neg (by simp [hh])]
      exact hCc hp hh
    · rw [if_pos hh]
      exact hCm hp hh
  · rename_i hp
    simp only
    by_cases hz : dl.check - 1 ≤ 0
    · rw [if_pos hz]
      by_cases hh : dl.dl_hash = GetHash64 env s address size
      · rw [if_neg (by simp [hh])]
        exact hRr hp hz hh
      · rw [if_pos hh]
        exact hRm hp hz hh
    · rw [if_neg hz]
      exact hRn hp hz

/-- Case analysis on the body of `if (iter != dl_map.end())`: an uncachable entry still in its
cooldown, an uncachable entry whose cooldown is over (it is analysed again), or an entry that
is not uncachable. -/
theorem handleFound_cases (P : Bool × State → Prop) (env : Env) (address size dl_id : Nat)
    (dl : CachedDisplayList) (s : State)
    (hcool : dl.uncachable = true → ¬ dl.check - 1 ≤ 0 →
      P (false, s.store dl_id { dl with check := dl.check - 1 }))
    (hagain : dl.uncachable = true → dl.check - 1 ≤ 0 →
      P (handlePass env address size dl_id
        { dl with pass := DisplayListPass.DLPASS_ANALYZE, uncachable := false,
                  check := dl.next_check } s))
    (hpass : dl.uncachable = false → P (handlePass env address size dl_id dl s)) :
    P (handleFound env address size dl_id dl s) := by
  unfold handleFound
  by_cases hu : dl.uncachable = true
  · rw [if_pos hu]
    by_cases hz : dl.check - 1 ≤ 0
    · simp only
      rw [if_pos hz]
      exact hagain hu hz
    · simp only
      rw [if_neg hz]
      exact hcool hu hz
  · rw [if_neg hu]
    exact hpass (by simpa using hu)

/-- Whatever the path, the call writes the store under the key of the entry only; the entry it
leaves carries the current frame counter when the compiled routine was invoked, and its old
`frame_count` otherwise. -/
theorem handleFound_frame_count (env : Env) (address size dl_id : Nat)
    (dl : CachedDisplayList) (s : State) :
    ∃ e', (handleFound env address size dl_id dl s).2.dl_map = mapSet dl_id e' s.dl_map
      ∧ (runsCompiled env address size dl s → e'.frame_count = s.frameCount)
      ∧ (¬ runsCompiled env address size dl s → e'.frame_count = dl.frame_count) := by
  apply handleFound_cases (fun r => ∃ e', r.2.dl_map = mapSet dl_id e' s.dl_map
      ∧ (runsCompiled env address size dl s → e'.frame_count = s.frameCount)
      ∧ (¬ runsCompiled env address size dl s → e'.frame_count = dl.frame_count))
  · intro hu _
    refine ⟨{ dl with check := dl.check - 1 }, rfl, ?_, fun _ => rfl⟩
    intro hr
    rw [hr.1] at hu
    exact absurd hu (by decide)
  · intro hu _
    have hnr : ¬ runsCompiled env address size dl s := by
      intro hr
      rw [hr.1] at hu
      exact absurd hu (by decide)
    apply handlePass_cases (fun r => ∃ e', r.2.dl_map = mapSet dl_id e' s.dl_map
      ∧ (runsCompiled env address size dl s → e'.frame_count = s.frameCount)
      ∧ (¬ runsCompiled env address size dl s → e'.frame_count = dl.frame_count))
    · intro _
      exact ⟨_, congrArg (mapSet dl_id _)
        (AnalyzeAndRunDisplayList_frame env address (toInt32 size) _ s).1.dl_map,
        fun hr => absurd hr hnr, fun _ => rfl⟩
    · intro hp; exact absurd hp (by simp)
    · intro hp; exact absurd hp (by simp)
    · intro hp; exact absurd hp (by simp)
    · intro hp; exact absurd hp (by simp)
    · intro hp; exact absurd hp (by simp)
  · intro hu
    apply handlePass_cases (fun r => ∃ e', r.2.dl_map = mapSet dl_id e' s.dl_map
      ∧ (runsCompiled env address size dl s → e'.frame_count = s.frameCount)
      ∧ (¬ runsCompiled env address size dl s → e'.frame_count = dl.frame_count))
    · intro hp
      refine ⟨_, congrArg (mapSet dl_id _)
        (AnalyzeAndRunDisplayList_frame env address (toInt32 size) _ s).1.dl_map,
        ?_, fun _ => rfl⟩
      intro hr
      rw [hr.2.1] at hp
      exact absurd hp (by decide)
    · intro hp _
      refine ⟨_, rfl, ?_, fun _ => rfl⟩
      intro hr
      rw [hr.2.1] at hp
      exact absurd hp (by decide)
    · intro hp _
      have hf := CompileAndRunDisplayList_frame env address (toInt32 size) dl s
      refine ⟨_, congrArg (mapSet dl_id _) hf.1.dl_map, ?_, fun _ => hf.2.1.frame_count⟩
      intro hr
      rw [hr.2.1] at hp
      exact absurd hp (by decide)
    · intro _ hz hh
      refine ⟨_, congrArg (mapSet dl_id _) (deleteAll_frame dl.Vdata s).dl_map, ?_,
        fun _ => rfl⟩
      intro hr
      exact absurd ⟨hz, hh⟩ hr.2.2
    · intro hp _ hh
      exact ⟨_, rfl, fun _ => rfl, fun hn => absurd ⟨hu, hp, fun h => h.2 hh⟩ hn⟩
    · intro hp hz
      exact ⟨_, rfl, fun _ => rfl, fun hn => absurd ⟨hu, hp, fun h => hz h.1⟩ hn⟩

/-- C20, as the code has it: after a call that finds an entry under its key, the entry left
under the key has `frame_count` equal to the current frame counter when the call invoked the
compiled routine (entry not uncachable, in pass `DLPASS_RUN`, hash check not due or passed);
on every other path (cooldown, renewed analysis, pass `DLPASS_ANALYZE` or `DLPASS_COMPILE`,
hash mismatch in pass `DLPASS_RUN`) it keeps the `frame_count` it had. -/
theorem C20_frame_count_on_run (env : Env) (address size : Nat) (s : State)
    (dl : CachedDisplayList) (hen : s.bDlistCachingEnable = true) (hsz : 0 < size)
    (hfound : mapFind (CreateMapId address size) s.dl_map = some dl) :
    ∃ e', mapFind (CreateMapId address size) (HandleDisplayList env address size s).2.dl_map
        = some e'
      ∧ (runsCompiled env address size dl s → e'.frame_count = s.frameCount)
      ∧ (¬ runsCompiled env address size dl s → e'.frame_count = dl.frame_count) := by
  rw [HandleDisplayList_found env address size s dl hen (by omega) hfound]
  obtain ⟨e', h1, h2, h3⟩ :=
    handleFound_frame_count env address size (CreateMapId address size) dl s.withAlive
  refine ⟨e', ?_, h2, h3⟩
  rw [h1]
  exact mapFind_mapSet_self _ _ _

set_option maxRecDepth 100000 in
/-- C20 on the example state after its first call, in frame 9: the entry is in pass
`DLPASS_COMPILE` and keeps the frame of its creation. -/
theorem C20_frame_count_on_run_witness :
    ∃ e', mapFind (CreateMapId 16 42)
        (HandleDisplayList exampleEnv 16 42 { exampleState1 with frameCount := 9 }).2.dl_map
        = some e'
      ∧ (runsCompiled exampleEnv 16 42 exampleEntry1 { exampleState1 with frameCount := 9 } →
          e'.frame_count = ({ exampleState1 with frameCount := 9 } : State).frameCount)
      ∧ (¬ runsCompiled exampleEnv 16 42 exampleEntry1 { exampleState1 with frameCount := 9 } →
          e'.frame_count = exampleEntry1.frame_count) :=
  C20_frame_count_on_run exampleEnv 16 42 { exampleState1 with frameCount := 9 } exampleEntry1
    (by rfl) (by decide) (by rfl)

set_option maxRecDepth 100000 in
/-- C20 fails as stated: in frame 9 a call finds the entry of `exampleState1` (created in frame
5, in pass `DLPASS_COMPILE`), compiles it, and leaves it with `frame_count = 5`. -/
theorem C20_compile_keeps_frame_count :
    mapFind (CreateMapId 16 42) ({ exampleState1 with frameCount := 9 } : State).dl_map
      = some exampleEntry1
    ∧ (HandleDisplayList exampleEnv 16 42 { exampleState1 with frameCount := 9 }).2.frameCount
      = 9
    ∧ (mapFind (CreateMapId 16 42)
        (HandleDisplayList exampleEnv 16 42 { exampleState1 with frameCount := 9 }).2.dl_map).map
          (fun e => (e.pass, e.frame_count))
      = some (DisplayListPass.DLPASS_RUN, 5) := by
  decide

/-! ## The arena cursor -/

theorem compileCmd_codePtr (env : Env) (size : Int) (b : Nat) (dl : CachedDisplayList)
    (s : State) : s.codePtr ≤ (compileCmd env size b dl s).2.codePtr := by
  apply compileCmd_cases (fun r => s.codePtr ≤ r.2.codePtr)
  · exact le_refl _
  · show s.codePtr ≤ s.codePtr + _
    omega
  · simp only [compile_LOAD_XF_REG, readWords_eq]
    show s.codePtr ≤ s.codePtr + _
    omega
  · intro r
    show s.codePtr ≤ s.codePtr + _
    omega
  · show s.codePtr ≤ s.codePtr + _
    omega
  · show s.codePtr ≤ s.codePtr + _
    omega
  · unfold compile_draw
    by_cases hs : size > 0
    · simp only [if_pos hs]
      show s.codePtr ≤ s.codePtr + _
      omega
    · simp only [if_neg hs]
      exact le_refl _

theorem compileLoop_codePtr (env : Env) (size : Int) (endPtr : Int) (fuel : Nat) :
    ∀ (dl : CachedDisplayList) (s : State),
      s.codePtr ≤ (compileLoop env size endPtr fuel dl s).2.codePtr := by
  induction fuel with
  | zero => intro dl s; exact le_refl _
  | succ n ih =>
    intro dl s
    simp only [compileLoop]
    by_cases hlt : (s.g_pVideoData : Int) < endPtr
    · rw [if_pos hlt]
      have h1 := compileCmd_codePtr env size (DataReadU8 s).1 dl (DataReadU8 s).2
      have h0 : (DataReadU8 s).2.codePtr = s.codePtr := rfl
      exact le_trans (h0 ▸ h1) (ih _ _)
    · rw [if_neg hlt]

/-- For every environment: two calls on an unseen key whose address does not resolve leave the
entry in pass `DLPASS_RUN` although the compiler emitted nothing and never wrote
`compiled_code`, which still holds the indeterminate value the constructor left. -/
theorem unresolved_reaches_run (env : Env) (address size : Nat) (s : State)
    (hen : s.bDlistCachingEnable = true) (hsz : size ≠ 0)
    (habs : mapFind (CreateMapId address size) s.dl_map = none)
    (hnull : env.Memory_GetPtr address = 0) :
    ∃ e, mapFind (CreateMapId address size)
        (HandleDisplayList env address size (HandleDisplayList env address size s).2).2.dl_map
        = some e
      ∧ e.pass = DisplayListPass.DLPASS_RUN ∧ e.uncachable = false
      ∧ e.compiled_code = env.uninit_compiled_code
      ∧ (HandleDisplayList env address size (HandleDisplayList env address size s).2).2.code
        = s.code
      ∧ (HandleDisplayList env address size (HandleDisplayList env address size s).2).2.codePtr
        = s.codePtr := by
  have h1 := HandleDisplayList_first env address size s hen hsz habs
  rw [AnalyzeAndRunDisplayList_unresolved env address (toInt32 size) _ _ hnull] at h1
  generalize hr1 : HandleDisplayList env address size s = r1 at h1 ⊢
  generalize he1 : ({ ({ CachedDisplayList.ctor env s.frameCount with
      num_bp_reg := 0, num_cp_reg := 0, num_draw_call := 0, num_index_xf := 0,
      num_xf_reg := 0 } : CachedDisplayList) with
      dl_hash := GetHash64 env s address size
      pass := DisplayListPass.DLPASS_COMPILE
      check := 1
      next_check := 1 } : CachedDisplayList) = e1 at h1
  have e1_unc : e1.uncachable = false := by rw [← he1]; rfl
  have e1_pass : e1.pass = DisplayListPass.DLPASS_COMPILE := by rw [← he1]
  have e1_hash : e1.dl_hash = GetHash64 env s address size := by rw [← he1]
  have e1_code : e1.compiled_code = env.uninit_compiled_code := by rw [← he1]; rfl
  have r1_map : mapFind (CreateMapId address size) r1.2.dl_map = some e1 := by
    rw [h1]; simp only [State.store, mapFind_mapSet_self]
  have r1_mem : r1.2.mem = s.mem := by rw [h1]; rfl
  have r1_en : r1.2.bDlistCachingEnable = true := by rw [h1]; exact hen
  have r1_code : r1.2.code = s.code := by rw [h1]; rfl
  have r1_ptr : r1.2.codePtr = s.codePtr := by rw [h1]; rfl
  have h2 : HandleDisplayList env address size r1.2
      = (true, r1.2.withAlive.store (CreateMapId address size)
          { e1 with pass := DisplayListPass.DLPASS_RUN }) := by
    rw [HandleDisplayList_found env address size r1.2 e1 r1_en hsz r1_map,
      handleFound_compile_match env address size _ e1 r1.2.withAlive e1_unc e1_pass
        (by rw [e1_hash]; exact (GetHash64_congr env s r1.2.withAlive address size r1_mem).symm),
      CompileAndRunDisplayList_unresolved env address (toInt32 size) _ _ hnull]
  rw [h2]
  refine ⟨{ e1 with pass := DisplayListPass.DLPASS_RUN }, ?_, rfl, e1_unc, e1_code, r1_code,
    r1_ptr⟩
  simp only [State.store, mapFind_mapSet_self]

theorem mapFind_mem {α : Type} {k : Nat} {v : α} {l : List (Nat × α)}
    (h : mapFind k l = some v) : (k, v) ∈ l := by
  induction l with
  | nil => simp [mapFind] at h
  | cons hd t ih =>
    obtain ⟨k0, v0⟩ := hd
    by_cases h1 : k = k0
    · subst h1
      simp only [mapFind, if_true, Option.some.injEq] at h
      subst h
      exact List.mem_cons_self _ _
    · simp only [mapFind, h1, if_false] at h
      exact List.mem_cons_of_mem _ (ih h)

/-- Writing twice under a key is writing the second value. -/
theorem mapSet_mapSet {α : Type} (k : Nat) (v1 v2 : α) (l : List (Nat × α)) :
    mapSet k v2 (mapSet k v1 l) = mapSet k v2 l := by
  induction l with
  | nil => simp [mapSet]
  | cons hd t ih =>
    obtain ⟨k0, v0⟩ := hd
    by_cases h1 : k = k0
    · simp [mapSet, h1]
    · by_cases h2 : k < k0
      · simp [mapSet, h1, h2]
      · simp [mapSet, h1, h2, ih]

/-- In a sorted store, writing back the value found under a key changes nothing. -/
theorem mapSet_found_self {α : Type} {k : Nat} {v : α} {l : List (Nat × α)}
    (hs : KeysSorted l) (h : mapFind k l = some v) : mapSet k v l = l := by
  induction l with
  | nil => simp [mapFind] at h
  | cons hd t ih =>
    obtain ⟨k0, v0⟩ := hd
    by_cases h1 : k = k0
    · subst h1
      simp only [mapFind, if_true, Option.some.injEq] at h
      subst h
      simp [mapSet]
    · simp only [mapFind, h1, if_false] at h
      have hs' := List.pairwise_cons.mp hs
      have hlt : k0 < k := hs'.1 (k, v) (mapFind_mem h)
      have h2 : ¬ k < k0 := by omega
      simp only [mapSet, h1, h2, if_false]
      rw [ih hs'.2 h]

/-- In a sorted store, writing under a key that is present keeps the number of entries. -/
theorem length_mapSet_of_found {α : Type} {k : Nat} {v' : α} (v : α) {l : List (Nat × α)}
    (hs : KeysSorted l) (h : mapFind k l = some v') : (mapSet k v l).length = l.length := by
  rw [← mapSet_found_self hs h, mapSet_mapSet, mapSet_found_self hs h]
  induction l with
  | nil => simp [mapFind] at h
  | cons hd t ih =>
    obtain ⟨k0, v0⟩ := hd
    by_cases h1 : k = k0
    · simp [mapSet, h1]
    · simp only [mapFind, h1, if_false] at h
      have hs' := List.pairwise_cons.mp hs
      have hlt : k0 < k := hs'.1 (k, v') (mapFind_mem h)
      have h2 : ¬ k < k0 := by omega
      simp only [mapSet, h1, h2, if_false, List.length_cons]
      rw [ih hs'.2 h]

theorem withAlive_eq (s : State) (h : s.stats.numDListsAlive = (s.dl_map.length : Int)) :
    s.withAlive = s := by
  obtain ⟨b, f, m, g, t, st, d, dc, cp, cd, hn, hp, fr⟩ := s
  obtain ⟨a1, a2, a3, a4, a5, a6, a7, a8, a9, a10, a11⟩ := st
  simp only at h
  subst h
  rfl

/-- A call on an uncachable entry whose cooldown is not over: not-handled, and only the
counter of the entry (and `numDListsAlive`) is written. -/
theorem HandleDisplayList_cooldown (env : Env) (address size : Nat) (s : State)
    (dl : CachedDisplayList) (hen : s.bDlistCachingEnable = true) (hsz : size ≠ 0)
    (hfound : mapFind (CreateMapId address size) s.dl_map = some dl)
    (hunc : dl.uncachable = true) (hz : ¬ dl.check - 1 ≤ 0) :
    HandleDisplayList env address size s
      = (false, s.withAlive.store (CreateMapId address size)
          { dl with check := dl.check - 1 }) := by
  rw [HandleDisplayList_found env address size s dl hen hsz hfound]
  unfold handleFound
  rw [if_pos hunc]
  simp only
  rw [if_neg hz]

/-- A call on an uncachable entry whose cooldown is over: the entry is analysed again. -/
theorem HandleDisplayList_again (env : Env) (address size : Nat) (s : State)
    (dl : CachedDisplayList) (hen : s.bDlistCachingEnable = true) (hsz : size ≠ 0)
    (hfound : mapFind (CreateMapId address size) s.dl_map = some dl)
    (hunc : dl.uncachable = true) (hz : dl.check - 1 ≤ 0) :
    HandleDisplayList env address size s
      = (true,
         (AnalyzeAndRunDisplayList env address (toInt32 size)
            { dl with pass := DisplayListPass.DLPASS_ANALYZE, uncachable := false,
                      check := dl.next_check } s.withAlive).2.2.store (CreateMapId address size)
           { (AnalyzeAndRunDisplayList env address (toInt32 size)
                { dl with pass := DisplayListPass.DLPASS_ANALYZE, uncachable := false,
                          check := dl.next_check } s.withAlive).2.1 with
              dl_hash := GetHash64 env s address size
              pass := DisplayListPass.DLPASS_COMPILE
              check := 1
              next_check := 1 }) := by
  rw [HandleDisplayList_found env address size s dl hen hsz hfound]
  apply handleFound_cases (fun r => r = _)
  · intro _ hn; exact absurd hz hn
  · intro _ _
    apply handlePass_cases (fun r => r = _)
    · intro _; rfl
    · intro hp; exact absurd hp (by simp)
    · intro hp; exact absurd hp (by simp)
    · intro hp; exact absurd hp (by simp)
    · intro hp; exact absurd hp (by simp)
    · intro hp; exact absurd hp (by simp)
  · intro hu
    rw [hu] at hunc
    exact absurd hunc (by decide)

/-- During the cooldown, `n` calls (with `n` less than the counter `c`) leave the state as it
was but for the counter of the entry, which is `c - n`. -/
theorem handleRepeat_cooldown (env : Env) (address size : Nat) (s : State)
    (dl : CachedDisplayList) (c : Nat) (hen : s.bDlistCachingEnable = true) (hsz : size ≠ 0)
    (hfound : mapFind (CreateMapId address size) s.dl_map = some dl)
    (hunc : dl.uncachable = true) (hc : dl.check = (c : Int))
    (hsorted : KeysSorted s.dl_map)
    (halive : s.stats.numDListsAlive = (s.dl_map.length : Int)) :
    ∀ n, n < c → handleRepeat env address size n s
      = withCheck address size dl ((c : Int) - (n : Int)) s := by
  intro n
  induction n with
  | zero =>
    intro _
    have hd : ({ dl with check := (c : Int) - ((0 : Nat) : Int) } : CachedDisplayList) = dl := by
      rw [← hc]
      simp
    unfold withCheck
    rw [hd, mapSet_found_self hsorted hfound]
    rfl
  | succ n ih =>
    intro hn
    have ih' := ih (by omega)
    show (HandleDisplayList env address size (handleRepeat env address size n s)).2 = _
    rw [ih']
    have hf : mapFind (CreateMapId address size)
        (withCheck address size dl ((c : Int) - (n : Int)) s).dl_map
        = some { dl with check := (c : Int) - (n : Int) } := mapFind_mapSet_self _ _ _
    rw [HandleDisplayList_cooldown env address size
      (withCheck address size dl ((c : Int) - (n : Int)) s)
      { dl with check := (c : Int) - (n : Int) } hen hsz hf hunc
      (by show ¬ ((c : Int) - (n : Int) - 1 ≤ 0); omega)]
    rw [withAlive_eq _ (by
      show s.stats.numDListsAlive = ((mapSet _ _ s.dl_map).length : Int)
      rw [length_mapSet_of_found _ hsorted hfound]
      exact halive)]
    unfold withCheck State.store
    simp only [mapSet_mapSet]
    have : (c : Int) - (n : Int) - 1 = (c : Int) - ((n + 1 : Nat) : Int) := by
      push_cast; ring
    rw [this]

/-- C11: take an uncachable entry with cooldown counter `c ≥ 1`, in a state as the call that
made it uncachable leaves it (the store is a well-formed map and `numDListsAlive` already holds
its size).  Each of the next `c - 1` calls on its key returns not-handled and changes nothing
but the counter of the entry, which goes down by one.  The `c`-th call returns handled: it runs
the analyzer once, on the entry with `uncachable` cleared and pass `DLPASS_ANALYZE`, and leaves
the entry in pass `DLPASS_COMPILE`, not uncachable, with `dl_hash` the hash of the current
bytes and `check = next_check = 1`. -/
theorem C11_cooldown (env : Env) (address size : Nat) (s : State) (dl : CachedDisplayList)
    (c : Nat) (hen : s.bDlistCachingEnable = true) (hsz : 0 < size)
    (hfound : mapFind (CreateMapId address size) s.dl_map = some dl)
    (hunc : dl.uncachable = true) (hc : dl.check = (c : Int)) (hpos : 1 ≤ c)
    (hsorted : KeysSorted s.dl_map)
    (halive : s.stats.numDListsAlive = (s.dl_map.length : Int)) :
    (∀ n, n + 1 < c →
        (HandleDisplayList env address size (handleRepeat env address size n s)).1 = false
        ∧ handleRepeat env address size (n + 1) s
          = withCheck address size dl ((c : Int) - ((n + 1 : Nat) : Int)) s)
    ∧ (HandleDisplayList env address size (handleRepeat env address size (c - 1) s)).1 = true
    ∧ (HandleDisplayList env address size (handleRepeat env address size (c - 1) s)).2
        = { (AnalyzeAndRunDisplayList env address (toInt32 size)
              { dl with pass := DisplayListPass.DLPASS_ANALYZE, uncachable := false,
                        check := dl.next_check }
              (handleRepeat env address size (c - 1) s)).2.2 with
            dl_map := (HandleDisplayList env address size
              (handleRepeat env address size (c - 1) s)).2.dl_map }
    ∧ ∃ e, mapFind (CreateMapId address size)
          (HandleDisplayList env address size
            (handleRepeat env address size (c - 1) s)).2.dl_map = some e
        ∧ e.pass = DisplayListPass.DLPASS_COMPILE ∧ e.uncachable = false
        ∧ e.dl_hash = GetHash64 env s address size ∧ e.check = 1 ∧ e.next_check = 1 := by
  have hsz' : size ≠ 0 := by omega
  have hrep := handleRepeat_cooldown env address size s dl c hen hsz' hfound hunc hc hsorted
    halive
  have hf : ∀ k : Int, mapFind (CreateMapId address size) (withCheck address size dl k s).dl_map
      = some { dl with check := k } := fun k => mapFind_mapSet_self _ _ _
  have hal : ∀ k : Int, (withCheck address size dl k s).withAlive
      = withCheck address size dl k s := by
    intro k
    apply withAlive_eq
    show s.stats.numDListsAlive = ((mapSet _ _ s.dl_map).length : Int)
    rw [length_mapSet_of_found _ hsorted hfound]
    exact halive
  refine ⟨?_, ?_⟩
  · intro n hn
    refine ⟨?_, hrep (n + 1) hn⟩
    rw [hrep n (by omega),
      HandleDisplayList_cooldown env address size
        (withCheck address size dl ((c : Int) - (n : Int)) s)
        { dl with check := (c : Int) - (n : Int) } hen hsz' (hf _) hunc
        (by show ¬ ((c : Int) - (n : Int) - 1 ≤ 0); omega)]
  · rw [hrep (c - 1) (by omega),
      HandleDisplayList_again env address size
        (withCheck address size dl ((c : Int) - ((c - 1 : Nat) : Int)) s)
        { dl with check := (c : Int) - ((c - 1 : Nat) : Int) } hen hsz' (hf _) hunc
        (by show (c : Int) - ((c - 1 : Nat) : Int) - 1 ≤ 0; omega), hal]
    exact ⟨rfl, rfl, _, mapFind_mapSet_self _ _ _, rfl, rfl, rfl, rfl, rfl⟩

set_option maxRecDepth 100000 in
/-- C11 on the example state right after the call that found the hash changed: the counter is
60, the 60th call analyses the list again. -/
theorem C11_cooldown_witness :
    (HandleDisplayList exampleEnv 16 42 (handleRepeat exampleEnv 16 42 59 exampleState3)).1
      = true :=
  (C11_cooldown exampleEnv 16 42 exampleState3 exampleEntry3 60 (by rfl) (by decide) (by rfl)
    (by rfl) (by rfl) (by decide)
    (by
      rw [show exampleState3.dl_map = [(CreateMapId 16 42, exampleEntry3)] from by decide]
      exact List.pairwise_singleton _ _)
    (by decide)).2.1

/-- The keys of the store after a write are the key written and the keys it had. -/
theorem mapSet_keys {α : Type} (k : Nat) (v : α) (l : List (Nat × α)) :
    ∀ x ∈ mapSet k v l, x.1 = k ∨ ∃ y ∈ l, y.1 = x.1 := by
  induction l with
  | nil =>
    intro x hx
    simp only [mapSet, List.mem_singleton] at hx
    exact Or.inl (by rw [hx])
  | cons hd t ih =>
    obtain ⟨k0, v0⟩ := hd
    intro x hx
    by_cases h1 : k = k0
    · simp only [mapSet, h1, if_true, List.mem_cons] at hx
      rcases hx with hx | hx
      · exact Or.inl (by rw [hx, h1])
      · exact Or.inr ⟨x, List.mem_cons_of_mem _ hx, rfl⟩
    · by_cases h2 : k < k0
      · simp only [mapSet, h1, h2, if_true, if_false, List.mem_cons] at hx
        rcases hx with hx | hx | hx
        · exact Or.inl (by rw [hx])
        · exact Or.inr ⟨(k0, v0), List.mem_cons_self _ _, by rw [hx]⟩
        · exact Or.inr ⟨x, List.mem_cons_of_mem _ hx, rfl⟩
      · simp only [mapSet, h1, h2, if_false, List.mem_cons] at hx
        rcases hx with hx | hx
        · exact Or.inr ⟨(k0, v0), List.mem_cons_self _ _, by rw [hx]⟩
        · rcases ih x hx with h | ⟨y, hy, hyx⟩
          · exact Or.inl h
          · exact Or.inr ⟨y, List.mem_cons_of_mem _ hy, hyx⟩

/-- A write keeps the store sorted. -/
theorem mapSet_sorted {α : Type} (k : Nat) (v : α) {l : List (Nat × α)} (hs : KeysSorted l) :
    KeysSorted (mapSet k v l) := by
  induction l with
  | nil => exact List.pairwise_singleton _ _
  | cons hd t ih =>
    obtain ⟨k0, v0⟩ := hd
    have hs' := List.pairwise_cons.mp hs
    by_cases h1 : k = k0
    · simp only [mapSet, h1, if_true]
      exact List.pairwise_cons.mpr ⟨fun x hx => hs'.1 x hx, hs'.2⟩
    · by_cases h2 : k < k0
      · simp only [mapSet, h1, h2, if_true, if_false]
        refine List.pairwise_cons.mpr ⟨?_, hs⟩
        intro x hx
        rcases List.mem_cons.mp hx with hx | hx
        · rw [hx]; exact h2
        · exact lt_trans h2 (hs'.1 x hx)
      · simp only [mapSet, h1, h2, if_false]
        refine List.pairwise_cons.mpr ⟨?_, ih hs'.2⟩
        intro x hx
        rcases mapSet_keys k v t x hx with h | ⟨y, hy, hyx⟩
        · show k0 < x.1
          rw [h]; omega
        · show k0 < x.1
          rw [← hyx]; exact hs'.1 y hy

/-- The call that finds the hash changed, in pass `DLPASS_COMPILE` or `DLPASS_RUN`, leaves the
state from which the cooldown starts: the entry is uncachable with counter 60, the store is
still sorted and `numDListsAlive` holds its size. -/
theorem mismatch_starts_cooldown (env : Env) (address size : Nat) (s : State)
    (dl : CachedDisplayList) (hen : s.bDlistCachingEnable = true) (hsz : size ≠ 0)
    (hfound : mapFind (CreateMapId address size) s.dl_map = some dl)
    (hunc : dl.uncachable = false) (hsorted : KeysSorted s.dl_map)
    (hpass : dl.pass = DisplayListPass.DLPASS_COMPILE
      ∨ (dl.pass = DisplayListPass.DLPASS_RUN ∧ dl.check - 1 ≤ 0))
    (hh : dl.dl_hash ≠ GetHash64 env s address size) :
    (HandleDisplayList env address size s).1 = false
    ∧ (∃ e, mapFind (CreateMapId address size) (HandleDisplayList env address size s).2.dl_map
          = some e ∧ e.uncachable = true ∧ e.check = 60)
    ∧ KeysSorted (HandleDisplayList env address size s).2.dl_map
    ∧ (HandleDisplayList env address size s).2.stats.numDListsAlive
        = ((HandleDisplayList env address size s).2.dl_map.length : Int) := by
  rw [HandleDisplayList_found env address size s dl hen hsz hfound]
  rcases hpass with hp | ⟨hp, hz⟩
  · rw [handleFound_compile_mismatch env address size _ dl s.withAlive hunc hp hh]
    refine ⟨rfl, ⟨_, mapFind_mapSet_self _ _ _, rfl, rfl⟩, mapSet_sorted _ _ hsorted, ?_⟩
    show (s.dl_map.length : Int) = ((mapSet _ _ s.dl_map).length : Int)
    rw [length_mapSet_of_found _ hsorted hfound]
  · rw [handleFound_run_mismatch env address size _ dl s.withAlive hunc hp hz hh]
    have hd := (deleteAll_frame dl.Vdata s.withAlive)
    refine ⟨rfl, ⟨_, mapFind_mapSet_self _ _ _, rfl, rfl⟩, ?_, ?_⟩
    · show KeysSorted (mapSet _ _ (deleteAll dl.Vdata s.withAlive).dl_map)
      rw [hd.dl_map]
      exact mapSet_sorted _ _ hsorted
    · show (deleteAll dl.Vdata s.withAlive).stats.numDListsAlive
        = ((mapSet _ _ (deleteAll dl.Vdata s.withAlive).dl_map).length : Int)
      rw [hd.stats, hd.dl_map]
      show (s.dl_map.length : Int) = ((mapSet _ _ s.dl_map).length : Int)
      rw [length_mapSet_of_found _ hsorted hfound]

/-! ## The dispatcher never removes an entry -/

theorem mem_mapSet {α : Type} (k : Nat) (v : α) (l : List (Nat × α)) :
    ∀ x ∈ mapSet k v l, x = (k, v) ∨ x ∈ l := by
  induction l with
  | nil =>
    intro x hx
    simp only [mapSet, List.mem_singleton] at hx
    exact Or.inl hx
  | cons hd t ih =>
    obtain ⟨k0, v0⟩ := hd
    intro x hx
    by_cases h1 : k = k0
    · simp only [mapSet, h1, if_true, List.mem_cons] at hx
      rcases hx with hx | hx
      · exact Or.inl (by rw [hx, h1])
      · exact Or.inr (List.mem_cons_of_mem _ hx)
    · by_cases h2 : k < k0
      · simp only [mapSet, h1, h2, if_true, if_false, List.mem_cons] at hx
        rcases hx with hx | hx | hx
        · exact Or.inl hx
        · exact Or.inr (by rw [hx]; exact List.mem_cons_self _ _)
        · exact Or.inr (List.mem_cons_of_mem _ hx)
      · simp only [mapSet, h1, h2, if_false, List.mem_cons] at hx
        rcases hx with hx | hx
        · exact Or.inr (by rw [hx]; exact List.mem_cons_self _ _)
        · rcases ih x hx with h | h
          · exact Or.inl h
          · exact Or.inr (List.mem_cons_of_mem _ h)

/-- A write keeps every key of the store. -/
theorem keys_mapSet (k : Nat) (v : CachedDisplayList) (l : List (Nat × CachedDisplayList)) :
    ∀ k' ∈ keys l, k' ∈ keys (mapSet k v l) := by
  induction l with
  | nil => intro k' hk; simp [keys] at hk
  | cons hd t ih =>
    obtain ⟨k0, v0⟩ := hd
    intro k' hk
    simp only [keys, List.map_cons, List.mem_cons] at hk
    by_cases h1 : k = k0
    · simp only [mapSet, h1, if_true, keys, List.map_cons, List.mem_cons]
      exact hk
    · by_cases h2 : k < k0
      · simp only [mapSet, h1, h2, if_true, if_false, keys, List.map_cons, List.mem_cons]
        exact Or.inr hk
      · simp only [mapSet, h1, h2, if_false, keys, List.map_cons, List.mem_cons]
        rcases hk with hk | hk
        · exact Or.inl hk
        · exact Or.inr (ih k' hk)

/-- What a call of `HandleDisplayList` does to the store: nothing, or one write under the key of
the call. -/
theorem HandleDisplayList_store (env : Env) (address size : Nat) (s : State) :
    (HandleDisplayList env address size s).2.dl_map = s.dl_map
    ∨ ∃ e, (HandleDisplayList env address size s).2.dl_map
        = mapSet (CreateMapId address size) e s.dl_map := by
  by_cases hen : s.bDlistCachingEnable = true
  · by_cases hsz : size = 0
    · rw [HandleDisplayList_off env address size s (Or.inr hsz)]
      exact Or.inl rfl
    · cases hfind : mapFind (CreateMapId address size) s.dl_map with
      | none =>
        rw [HandleDisplayList_first env address size s hen hsz hfind]
        exact Or.inr ⟨_, congrArg (mapSet _ _)
          (AnalyzeAndRunDisplayList_frame env address (toInt32 size)
            (CachedDisplayList.ctor env s.frameCount) s.withAlive).1.dl_map⟩
      | some dl =>
        rw [HandleDisplayList_found env address size s dl hen hsz hfind]
        obtain ⟨e', h, _⟩ :=
          handleFound_frame_count env address size (CreateMapId address size) dl s.withAlive
        exact Or.inr ⟨e', h⟩
  · rw [HandleDisplayList_off env address size s (Or.inl (by simpa using hen))]
    exact Or.inl rfl

/-- A call of `HandleDisplayList` leaves the entries under the other keys as they are. -/
theorem HandleDisplayList_other_keys (env : Env) (address size : Nat) (s : State) (k : Nat)
    (hk : k ≠ CreateMapId address size) :
    mapFind k (HandleDisplayList env address size s).2.dl_map = mapFind k s.dl_map := by
  rcases HandleDisplayList_store env address size s with h | ⟨e, h⟩
  · rw [h]
  · rw [h]; exact mapFind_mapSet_ne hk _ _

/-- C21: `HandleDisplayList` never removes an entry from the store.  Every key of the store is
still a key after the call; the entries under the other keys than the key of the call are as
they were; and an entry that the call finds not uncachable and that fails its hash check (in
pass `DLPASS_COMPILE`, or in pass `DLPASS_RUN` when the check is due) is still present under
its key after the call, with `uncachable = true`. -/
theorem C21_entries_never_removed (env : Env) (address size : Nat) (s : State) :
    (∀ k ∈ keys s.dl_map, k ∈ keys (HandleDisplayList env address size s).2.dl_map)
    ∧ (∀ k, k ≠ CreateMapId address size →
        mapFind k (HandleDisplayList env address size s).2.dl_map = mapFind k s.dl_map)
    ∧ (∀ dl, s.bDlistCachingEnable = true → size ≠ 0 →
        mapFind (CreateMapId address size) s.dl_map = some dl → dl.uncachable = false →
        hashMismatch env address size dl s →
        ∃ e, mapFind (CreateMapId address size) (HandleDisplayList env address size s).2.dl_map
            = some e ∧ e.uncachable = true) := by
  refine ⟨?_, ?_, ?_⟩
  · intro k hk
    rcases HandleDisplayList_store env address size s with h | ⟨e, h⟩
    · rw [h]; exact hk
    · rw [h]; exact keys_mapSet _ _ _ k hk
  · intro k hk
    exact HandleDisplayList_other_keys env address size s k hk
  · intro dl hen hsz hfound hunc hmis
    rw [HandleDisplayList_found env address size s dl hen hsz hfound]
    rcases hmis with ⟨hp | ⟨hp, hz⟩, hh⟩
    · rw [handleFound_compile_mismatch env address size _ dl s.withAlive hunc hp hh]
      exact ⟨_, mapFind_mapSet_self _ _ _, rfl⟩
    · rw [handleFound_run_mismatch env address size _ dl s.withAlive hunc hp hz hh]
      exact ⟨_, mapFind_mapSet_self _ _ _, rfl⟩

set_option maxRecDepth 100000 in
/-- C21 on the example state after two calls, once the list has been overwritten: the third
call finds the hash changed and keeps the entry, uncachable. -/
theorem C21_entries_never_removed_witness :
    ∃ e, mapFind (CreateMapId 16 42)
        (HandleDisplayList exampleEnv 16 42 { exampleState2 with mem := mutatedMem }).2.dl_map
        = some e ∧ e.uncachable = true :=
  (C21_entries_never_removed exampleEnv 16 42 { exampleState2 with mem := mutatedMem }).2.2
    exampleEntry2 (by rfl) (by decide) (by rfl) (by rfl)
    ⟨Or.inr ⟨by rfl, by decide⟩, by decide⟩


/-! ## The `u8` counter of buffers -/

theorem compileCmd_bufferCount (env : Env) (size : Int) (b : Nat) (b0 h0 : Nat)
    (dl : CachedDisplayList) (s : State)
    (h : dl.BufferCount = (b0 + (s.heapNext - h0)) % 256) (hle : h0 ≤ s.heapNext) :
    (compileCmd env size b dl s).1.BufferCount
        = (b0 + ((compileCmd env size b dl s).2.heapNext - h0)) % 256
      ∧ h0 ≤ (compileCmd env size b dl s).2.heapNext := by
  apply compileCmd_cases (fun r => r.1.BufferCount = (b0 + (r.2.heapNext - h0)) % 256
      ∧ h0 ≤ r.2.heapNext)
  · exact ⟨h, hle⟩
  · exact ⟨h, hle⟩
  · simp only [compile_LOAD_XF_REG, readWords_eq]
    refine ⟨?_, Nat.le_succ_of_le hle⟩
    show (dl.BufferCount + 1) % 256 = (b0 + (s.heapNext + 1 - h0)) % 256
    omega
  · intro r; exact ⟨h, hle⟩
  · exact ⟨h, hle⟩
  · exact ⟨h, hle⟩
  · unfold compile_draw
    by_cases hs : size > 0
    · simp only [if_pos hs]
      refine ⟨?_, Nat.le_succ_of_le hle⟩
      show (dl.BufferCount + 1) % 256 = (b0 + (s.heapNext + 1 - h0)) % 256
      omega
    · simp only [if_neg hs]
      exact ⟨h, hle⟩

theorem compileLoop_bufferCount (env : Env) (size : Int) (endPtr : Int) (b0 h0 : Nat)
    (fuel : Nat) :
    ∀ (dl : CachedDisplayList) (s : State),
      dl.BufferCount = (b0 + (s.heapNext - h0)) % 256 → h0 ≤ s.heapNext →
      (compileLoop env size endPtr fuel dl s).1.BufferCount
          = (b0 + ((compileLoop env size endPtr fuel dl s).2.heapNext - h0)) % 256
        ∧ h0 ≤ (compileLoop env size endPtr fuel dl s).2.heapNext := by
  induction fuel with
  | zero => intro dl s h hle; exact ⟨h, hle⟩
  | succ n ih =>
    intro dl s h hle
    simp only [compileLoop]
    by_cases hlt : (s.g_pVideoData : Int) < endPtr
    · rw [if_pos hlt]
      have h1 := compileCmd_bufferCount env size (DataReadU8 s).1 b0 h0 dl (DataReadU8 s).2 h hle
      exact ih _ _ h1.1 h1.2
    · rw [if_neg hlt]
      exact ⟨h, hle⟩

/-- For every list: after a run of the compiler, `BufferCount` is the number of buffers that
the run allocated, added to the count the entry had, modulo 256. -/
theorem CompileAndRunDisplayList_bufferCount (env : Env) (address : Nat) (size : Int)
    (dl : CachedDisplayList) (s : State) (hb : dl.BufferCount < 256) :
    (CompileAndRunDisplayList env address size dl s).2.1.BufferCount
        = (dl.BufferCount
            + ((CompileAndRunDisplayList env address size dl s).2.2.heapNext - s.heapNext)) % 256
      ∧ s.heapNext ≤ (CompileAndRunDisplayList env address size dl s).2.2.heapNext := by
  have hstart : dl.BufferCount = (dl.BufferCount + (s.heapNext - s.heapNext)) % 256 := by
    omega
  by_cases h : env.Memory_GetPtr address = 0
  · rw [CompileAndRunDisplayList_unresolved env address size dl s h]
    exact ⟨hstart, le_refl _⟩
  · rw [CompileAndRunDisplayList_resolved env address size dl s h]
    exact compileLoop_bufferCount env size
      (↑({ s with g_pVideoData := env.Memory_GetPtr address } : State).SwapDL.g_pVideoData
        + size) dl.BufferCount s.heapNext
      (↑({ s with g_pVideoData := env.Memory_GetPtr address } : State).SwapDL.g_pVideoData
        + size
        - ↑((({ s with g_pVideoData := env.Memory_GetPtr address } : State).SwapDL.AlignCode4).emit
            env (CodeItem.Prologue 4)).g_pVideoData).toNat
      { dl with compiled_code :=
          ({ s with g_pVideoData := env.Memory_GetPtr address } : State).SwapDL.AlignCode4.codePtr }
      ((({ s with g_pVideoData := env.Memory_GetPtr address } : State).SwapDL.AlignCode4).emit env
        (CodeItem.Prologue 4))
      hstart (le_refl _)

set_option maxRecDepth 1000000 in
/-- C22 fails on the code: the list of `xfLoadsState` at the address `16` holds 257 XF register
loads of one word.  Run on it with the entry that the constructor makes, the compiler issues
257 calls of `LoadXFReg` and allocates 257 buffers, but leaves `BufferCount = 1` and 256 slots
in `Vdata`: the counter is a `u8`, the 257th buffer went to slot `0` again.  The buffer of the
first load (the pointer `1`) is in no slot any more, although the first call of the compiled
routine refers to it, and deleting every slot of the entry, as invalidation, eviction and
`Clear` do, leaves that buffer allocated. -/
theorem C22_buffer_count_wraps :
    issued xfLoadsState xfLoadsCompiled.2 = List.replicate 257 (Event.LoadXFReg 1 0 [0])
    ∧ xfLoadsCompiled.2.heap.length = 257
    ∧ (xfLoadsCompiled.1.BufferCount, xfLoadsCompiled.1.Vdata.length) = (1, 256)
    ∧ mapFind 0 xfLoadsCompiled.1.Vdata = some 257
    ∧ 1 ∉ xfLoadsCompiled.1.Vdata.map Prod.snd
    ∧ (emitted xfLoadsState xfLoadsCompiled.2).take 2
        = [CodeItem.Prologue 4, CodeItem.CallFunctionCCP Fn.LoadXFReg 1 0 1]
    ∧ (deleteAll xfLoadsCompiled.1.Vdata xfLoadsCompiled.2).heap = [(1, [0])] := by
  decide!


/-! ## No capacity check on the arena -/

theorem run_append (env : Env) (s : State) (a b : List Op) :
    run env s (a ++ b) = run env (run env s a) b := by
  simp only [run, List.foldl_append]

theorem mapFind_none_of_keys {α : Type} (k : Nat) (l : List (Nat × α))
    (h : ∀ x ∈ l, x.1 ≠ k) : mapFind k l = none := by
  induction l with
  | nil => rfl
  | cons hd t ih =>
    obtain ⟨k0, v0⟩ := hd
    have h0 : k ≠ k0 := fun e => h (k0, v0) (List.mem_cons_self _ _) e.symm
    simp only [mapFind, h0, if_false]
    exact ih (fun x hx => h x (List.mem_cons_of_mem _ hx))

/-- A run of the compiler on an address that resolves moves the arena cursor by the size of the
prologue and of the epilogue at least, wherever the cursor is. -/
theorem CompileAndRunDisplayList_advance (env : Env) (address : Nat) (size : Int)
    (dl : CachedDisplayList) (s : State) (h : env.Memory_GetPtr address ≠ 0) :
    s.codePtr + env.itemSize (CodeItem.Prologue 4) + env.itemSize (CodeItem.Epilogue 4)
      ≤ (CompileAndRunDisplayList env address size dl s).2.2.codePtr := by
  rw [CompileAndRunDisplayList_resolved env address size dl s h]
  have hl := compileLoop_codePtr env size
    (↑({ s with g_pVideoData := env.Memory_GetPtr address } : State).SwapDL.g_pVideoData
      + size)
    (↑({ s with g_pVideoData := env.Memory_GetPtr address } : State).SwapDL.g_pVideoData
      + size
      - ↑((({ s with g_pVideoData := env.Memory_GetPtr address } : State).SwapDL.AlignCode4).emit
          env (CodeItem.Prologue 4)).g_pVideoData).toNat
    { dl with compiled_code :=
        ({ s with g_pVideoData := env.Memory_GetPtr address } : State).SwapDL.AlignCode4.codePtr }
    ((({ s with g_pVideoData := env.Memory_GetPtr address } : State).SwapDL.AlignCode4).emit env
      (CodeItem.Prologue 4))
  have h0 : s.codePtr + env.itemSize (CodeItem.Prologue 4)
      ≤ ((({ s with g_pVideoData := env.Memory_GetPtr address }
        : State).SwapDL.AlignCode4).emit env (CodeItem.Prologue 4)).codePtr := by
    show s.codePtr + _ ≤ s.codePtr + (4 - s.codePtr % 4) % 4 + _
    omega
  show _ ≤ (compileLoop env size _ _ _ _).2.codePtr + env.itemSize (CodeItem.Epilogue 4)
  omega

/-- Two calls on an unseen key whose address resolves: the second call runs the compiler, and
the entry is left in pass `DLPASS_RUN`, not uncachable, wherever the arena cursor is. -/
theorem compiled_after_two_calls (env : Env) (address size : Nat) (s : State)
    (hen : s.bDlistCachingEnable = true) (hsz : size ≠ 0)
    (habs : mapFind (CreateMapId address size) s.dl_map = none)
    (hres : env.Memory_GetPtr address ≠ 0) :
    (HandleDisplayList env address size
        (HandleDisplayList env address size s).2).2.bDlistCachingEnable = true
    ∧ (HandleDisplayList env address size (HandleDisplayList env address size s).2).2.mem = s.mem
    ∧ (HandleDisplayList env address size
        (HandleDisplayList env address size s).2).2.dlcode_cache = s.dlcode_cache
    ∧ s.codePtr + env.itemSize (CodeItem.Prologue 4) + env.itemSize (CodeItem.Epilogue 4)
        ≤ (HandleDisplayList env address size (HandleDisplayList env address size s).2).2.codePtr
    ∧ ∃ e, (HandleDisplayList env address size
          (HandleDisplayList env address size s).2).2.dl_map
          = mapSet (CreateMapId address size) e s.dl_map
        ∧ e.uncachable = false ∧ e.pass = DisplayListPass.DLPASS_RUN := by
  have h1 := HandleDisplayList_first env address size s hen hsz habs
  have hf := (AnalyzeAndRunDisplayList_frame env address (toInt32 size)
    (CachedDisplayList.ctor env s.frameCount) s.withAlive).1
  generalize hr1 : HandleDisplayList env address size s = r1 at h1 ⊢
  generalize he1 : ({ (AnalyzeAndRunDisplayList env address (toInt32 size)
      (CachedDisplayList.ctor env s.frameCount) s.withAlive).2.1 with
      dl_hash := GetHash64 env s address size
      pass := DisplayListPass.DLPASS_COMPILE
      check := 1
      next_check := 1 } : CachedDisplayList) = e1 at h1
  have e1_unc : e1.uncachable = false := by rw [← he1]; rfl
  have e1_pass : e1.pass = DisplayListPass.DLPASS_COMPILE := by rw [← he1]
  have e1_hash : e1.dl_hash = GetHash64 env s address size := by rw [← he1]
  have r1_map : r1.2.dl_map = mapSet (CreateMapId address size) e1 s.dl_map := by
    rw [h1]; exact congrArg (mapSet _ _) hf.dl_map
  have r1_find : mapFind (CreateMapId address size) r1.2.dl_map = some e1 := by
    rw [r1_map]; exact mapFind_mapSet_self _ _ _
  have r1_mem : r1.2.mem = s.mem := by rw [h1]; exact hf.mem
  have r1_en : r1.2.bDlistCachingEnable = true := by
    rw [h1]; exact hf.bDlistCachingEnable.trans hen
  have r1_cache : r1.2.dlcode_cache = s.dlcode_cache := by rw [h1]; exact hf.dlcode_cache
  have r1_ptr : r1.2.codePtr = s.codePtr := by rw [h1]; exact hf.codePtr
  have hc := CompileAndRunDisplayList_frame env address (toInt32 size) e1 r1.2.withAlive
  have hadv := CompileAndRunDisplayList_advance env address (toInt32 size) e1 r1.2.withAlive hres
  rw [HandleDisplayList_found env address size r1.2 e1 r1_en hsz r1_find,
    handleFound_compile_match env address size _ e1 r1.2.withAlive e1_unc e1_pass
      (by rw [e1_hash]; exact (GetHash64_congr env s r1.2.withAlive address size r1_mem).symm)]
  refine ⟨hc.1.bDlistCachingEnable.trans r1_en, hc.1.mem.trans r1_mem,
    hc.1.dlcode_cache.trans r1_cache, ?_,
    { (CompileAndRunDisplayList env address (toInt32 size) e1 r1.2.withAlive).2.1 with
      pass := DisplayListPass.DLPASS_RUN }, ?_, ?_, rfl⟩
  · have : r1.2.withAlive.codePtr = s.codePtr := r1_ptr
    show _ ≤ (CompileAndRunDisplayList env address (toInt32 size) e1 r1.2.withAlive).2.2.codePtr
    omega
  · show mapSet _ _ (CompileAndRunDisplayList env address (toInt32 size) e1
      r1.2.withAlive).2.2.dl_map = _
    rw [hc.1.dl_map]
    show mapSet _ _ r1.2.dl_map = _
    rw [r1_map, mapSet_mapSet]
  · exact hc.2.1.uncachable.trans e1_unc

/-- The state after the calls of `fillOps n`: every list was compiled with the arena cursor
moving on, no entry is uncachable, every entry is in pass `DLPASS_RUN`. -/
theorem run_fillOps (env : Env) (s : State) (hen : s.bDlistCachingEnable = true)
    (hempty : s.dl_map = []) (hres : ∀ a, 0 < a → env.Memory_GetPtr a ≠ 0) (n : Nat)
    (hn : n < 2 ^ 32) :
    (run env s (fillOps n)).bDlistCachingEnable = true
    ∧ (run env s (fillOps n)).dlcode_cache = s.dlcode_cache
    ∧ s.codePtr
        + n * (env.itemSize (CodeItem.Prologue 4) + env.itemSize (CodeItem.Epilogue 4))
        ≤ (run env s (fillOps n)).codePtr
    ∧ (∀ x ∈ (run env s (fillOps n)).dl_map,
        x.2.uncachable = false ∧ x.2.pass = DisplayListPass.DLPASS_RUN
          ∧ ∃ a, 1 ≤ a ∧ a ≤ n ∧ x.1 = CreateMapId a 1)
    ∧ (∀ a, 1 ≤ a → a ≤ n →
        (mapFind (CreateMapId a 1) (run env s (fillOps n)).dl_map).isSome = true) := by
  induction n with
  | zero =>
    refine ⟨hen, rfl, by show s.codePtr + 0 * _ ≤ s.codePtr; omega, ?_, ?_⟩
    · intro x hx
      have hx' : x ∈ s.dl_map := hx
      rw [hempty] at hx'
      exact absurd hx' (List.not_mem_nil _)
    · intro a h1 h2
      omega
  | succ n ih =>
    obtain ⟨i1, i2, i3, i4, i5⟩ := ih (by omega)
    have hrun : run env s (fillOps (n + 1))
        = (HandleDisplayList env (n + 1) 1
            (HandleDisplayList env (n + 1) 1 (run env s (fillOps n))).2).2 := by
      show run env s (fillOps n ++ _) = _
      rw [run_append]
      rfl
    rw [hrun]
    generalize run env s (fillOps n) = t at i1 i2 i3 i4 i5 ⊢
    have habs : mapFind (CreateMapId (n + 1) 1) t.dl_map = none := by
      apply mapFind_none_of_keys
      intro x hx
      obtain ⟨_, _, a, ha1, ha2, hxa⟩ := i4 x hx
      rw [hxa]
      intro he
      have := (CreateMapId_injective (by omega) (by norm_num) (by omega) (by norm_num) he).1
      omega
    obtain ⟨c1, c2, c3, c4, e, c5, c6, c7⟩ := compiled_after_two_calls env (n + 1) 1 t i1
      (by norm_num) habs (hres (n + 1) (by omega))
    refine ⟨c1, c3.trans i2, ?_, ?_, ?_⟩
    · have : (n + 1) * (env.itemSize (CodeItem.Prologue 4) + env.itemSize (CodeItem.Epilogue 4))
          = n * (env.itemSize (CodeItem.Prologue 4) + env.itemSize (CodeItem.Epilogue 4))
            + (env.itemSize (CodeItem.Prologue 4) + env.itemSize (CodeItem.Epilogue 4)) := by
        ring
      omega
    · intro x hx
      rw [c5] at hx
      rcases mem_mapSet _ _ _ x hx with hx | hx
      · rw [hx]
        exact ⟨c6, c7, n + 1, by omega, le_refl _, rfl⟩
      · obtain ⟨h1, h2, a, ha1, ha2, hxa⟩ := i4 x hx
        exact ⟨h1, h2, a, ha1, by omega, hxa⟩
    · intro a ha1 ha2
      rw [c5]
      by_cases ha : a = n + 1
      · rw [ha, mapFind_mapSet_self]
        rfl
      · have hne : CreateMapId a 1 ≠ CreateMapId (n + 1) 1 := by
          intro he
          have := (CreateMapId_injective (by omega) (by norm_num) (by omega) (by norm_num) he).1
          exact ha this
        rw [mapFind_mapSet_ne hne]
        exact i5 a ha1 (by omega)

theorem fillOps_handles (n : Nat) : ∀ op ∈ fillOps n, ∃ a sz, op = Op.handle a sz := by
  induction n with
  | zero => intro op h; exact absurd h (List.not_mem_nil _)
  | succ n ih =>
    intro op h
    simp only [fillOps, List.mem_append, List.mem_cons, List.mem_singleton, List.not_mem_nil,
      or_false] at h
    rcases h with h | h | h
    · exact ih op h
    · exact ⟨_, _, h⟩
    · exact ⟨_, _, h⟩

/-- C23: the compiler makes no capacity check.  Wherever the arena cursor is, a run of the
compiler on an address that resolves appends its prologue and epilogue and moves the cursor on,
and leaves the flag `uncachable` of the entry as it is.  So, when the addresses above `0`
resolve and the prologue and the epilogue take one byte at least, from a state with caching on,
an empty store and the cursor inside the arena, there is a sequence of calls of
`HandleDisplayList`, with no `Clear`, after which the cursor is beyond `dlcode_cache +
DL_CODE_CACHE_SIZE`, no entry is uncachable, and every list handled still has its entry, in
pass `DLPASS_RUN`: nothing was cleared. -/
theorem C23_no_capacity_check (env : Env) (s : State) (hen : s.bDlistCachingEnable = true)
    (hempty : s.dl_map = []) (hptr : s.dlcode_cache ≤ s.codePtr)
    (hres : ∀ a, 0 < a → env.Memory_GetPtr a ≠ 0)
    (hitem : 0 < env.itemSize (CodeItem.Prologue 4) + env.itemSize (CodeItem.Epilogue 4)) :
    (∀ (address : Nat) (size : Int) (dl : CachedDisplayList) (t : State),
        env.Memory_GetPtr address ≠ 0 →
        t.codePtr + env.itemSize (CodeItem.Prologue 4) + env.itemSize (CodeItem.Epilogue 4)
            ≤ (CompileAndRunDisplayList env address size dl t).2.2.codePtr
          ∧ (CompileAndRunDisplayList env address size dl t).2.1.uncachable = dl.uncachable)
    ∧ ∃ ops : List Op,
        (∀ op ∈ ops, ∃ a sz, op = Op.handle a sz)
        ∧ (run env s ops).dlcode_cache + DL_CODE_CACHE_SIZE < (run env s ops).codePtr
        ∧ (∀ x ∈ (run env s ops).dl_map,
            x.2.uncachable = false ∧ x.2.pass = DisplayListPass.DLPASS_RUN)
        ∧ (∀ a, 1 ≤ a → a ≤ DL_CODE_CACHE_SIZE + 1 →
            (mapFind (CreateMapId a 1) (run env s ops).dl_map).isSome = true) := by
  refine ⟨?_, fillOps (DL_CODE_CACHE_SIZE + 1), fillOps_handles _, ?_⟩
  · intro address size dl t h
    exact ⟨CompileAndRunDisplayList_advance env address size dl t h,
      (CompileAndRunDisplayList_frame env address size dl t).2.1.uncachable⟩
  · obtain ⟨_, i2, i3, i4, i5⟩ := run_fillOps env s hen hempty hres (DL_CODE_CACHE_SIZE + 1)
      (by unfold DL_CODE_CACHE_SIZE; norm_num)
    refine ⟨?_, fun x hx => ⟨(i4 x hx).1, (i4 x hx).2.1⟩, i5⟩
    rw [i2]
    have hmul : DL_CODE_CACHE_SIZE + 1
        ≤ (DL_CODE_CACHE_SIZE + 1)
          * (env.itemSize (CodeItem.Prologue 4) + env.itemSize (CodeItem.Epilogue 4)) :=
      Nat.le_mul_of_pos_right _ hitem
    omega


/-- C23 from the example state, in the example environment, where an item takes 16 bytes. -/
theorem C23_no_capacity_check_witness :
    ∃ ops : List Op,
      (∀ op ∈ ops, ∃ a sz, op = Op.handle a sz)
      ∧ (run exampleEnv exampleState ops).dlcode_cache + DL_CODE_CACHE_SIZE
          < (run exampleEnv exampleState ops).codePtr
      ∧ (∀ x ∈ (run exampleEnv exampleState ops).dl_map,
          x.2.uncachable = false ∧ x.2.pass = DisplayListPass.DLPASS_RUN)
      ∧ (∀ a, 1 ≤ a → a ≤ DL_CODE_CACHE_SIZE + 1 →
          (mapFind (CreateMapId a 1) (run exampleEnv exampleState ops).dl_map).isSome = true) :=
  (C23_no_capacity_check exampleEnv exampleState rfl rfl (by decide)
    (fun a ha => by simp only [exampleEnv]; rw [if_neg (by omega)]; omega) (by decide)).2

/-! ## When an entry becomes uncachable -/

/-- Between `s` and `s'` calls were appended to the trace, none of them the call of a compiled
routine. -/
structure NoRoutine (s s' : State) : Prop where
  ext : ∃ evs : List Event, s'.trace = s.trace ++ evs ∧ ∀ c, Event.CallCompiled c ∉ evs

theorem NoRoutine.nRefl (s : State) : NoRoutine s s := ⟨⟨[], by simp, by simp⟩⟩

theorem NoRoutine.nTrans {s1 s2 s3 : State} (h12 : NoRoutine s1 s2) (h23 : NoRoutine s2 s3) :
    NoRoutine s1 s3 := by
  obtain ⟨e1, ht1, hp1⟩ := h12.ext
  obtain ⟨e2, ht2, hp2⟩ := h23.ext
  refine ⟨⟨e1 ++ e2, ?_, ?_⟩⟩
  · rw [ht2, ht1, List.append_assoc]
  · intro c hc
    rcases List.mem_append.mp hc with h | h
    · exact hp1 c h
    · exact hp2 c h

theorem NoRoutine.of_trace {s s' : State} (h : s'.trace = s.trace) : NoRoutine s s' :=
  ⟨⟨[], by simp [h], by simp⟩⟩

theorem compileCmd_noRoutine (env : Env) (size : Int) (b : Nat) (dl : CachedDisplayList)
    (s : State) : NoRoutine s (compileCmd env size b dl s).2 := by
  apply compileCmd_cases (fun r => NoRoutine s r.2)
  · exact NoRoutine.nRefl s
  · exact ⟨⟨[_], rfl, by simp⟩⟩
  · simp only [compile_LOAD_XF_REG, readWords_eq]
    exact ⟨⟨[_], rfl, by simp⟩⟩
  · intro r; exact ⟨⟨[_], rfl, by simp⟩⟩
  · exact ⟨⟨[_], rfl, by simp⟩⟩
  · exact ⟨⟨[_], rfl, by simp⟩⟩
  · unfold compile_draw
    by_cases hs : size > 0
    · simp only [if_pos hs]
      refine ⟨⟨[Event.Flush, Event.RunVertices (b &&& GX_VAT_MASK)
        ((b &&& GX_PRIMITIVE_MASK) >>> GX_PRIMITIVE_SHIFT) (DataReadU16 s).1], ?_, by simp⟩⟩
      show (s.trace ++ [Event.Flush]) ++ [_] = _
      simp
    · simp only [if_neg hs]
      refine ⟨⟨[Event.Flush, Event.RunVertices (b &&& GX_VAT_MASK)
        ((b &&& GX_PRIMITIVE_MASK) >>> GX_PRIMITIVE_SHIFT) (DataReadU16 s).1], ?_, by simp⟩⟩
      show (s.trace ++ [Event.Flush]) ++ [_] = _
      simp

theorem compileLoop_noRoutine (env : Env) (size : Int) (endPtr : Int) (fuel : Nat) :
    ∀ (dl : CachedDisplayList) (s : State),
      NoRoutine s (compileLoop env size endPtr fuel dl s).2 := by
  induction fuel with
  | zero => intro dl s; exact NoRoutine.nRefl s
  | succ n ih =>
    intro dl s
    simp only [compileLoop]
    by_cases hlt : (s.g_pVideoData : Int) < endPtr
    · rw [if_pos hlt]
      have h1 : NoRoutine s (DataReadU8 s).2 := NoRoutine.of_trace rfl
      exact (h1.nTrans (compileCmd_noRoutine env size _ dl _)).nTrans (ih _ _)
    · rw [if_neg hlt]
      exact NoRoutine.nRefl s

/-- The compiler never calls a compiled routine. -/
theorem CompileAndRunDisplayList_noRoutine (env : Env) (address : Nat) (size : Int)
    (dl : CachedDisplayList) (s : State) :
    NoRoutine s (CompileAndRunDisplayList env address size dl s).2.2 := by
  by_cases h : env.Memory_GetPtr address = 0
  · rw [CompileAndRunDisplayList_unresolved env address size dl s h]
    exact NoRoutine.nRefl s
  · rw [CompileAndRunDisplayList_resolved env address size dl s h]
    have hl := compileLoop_noRoutine env size
      (↑({ s with g_pVideoData := env.Memory_GetPtr address } : State).SwapDL.g_pVideoData
        + size)
      (↑({ s with g_pVideoData := env.Memory_GetPtr address } : State).SwapDL.g_pVideoData
        + size
        - ↑((({ s with g_pVideoData := env.Memory_GetPtr address } : State).SwapDL.AlignCode4).emit
            env (CodeItem.Prologue 4)).g_pVideoData).toNat
      { dl with compiled_code :=
          ({ s with g_pVideoData := env.Memory_GetPtr address } : State).SwapDL.AlignCode4.codePtr }
      ((({ s with g_pVideoData := env.Memory_GetPtr address } : State).SwapDL.AlignCode4).emit env
        (CodeItem.Prologue 4))
    obtain ⟨evs, ht, hp⟩ := hl.ext
    exact ⟨⟨evs, ht, hp⟩⟩

/-- The analyzer never calls a compiled routine. -/
theorem AnalyzeAndRunDisplayList_noRoutine (env : Env) (address : Nat) (size : Int)
    (dl : CachedDisplayList) (s : State) :
    NoRoutine s (AnalyzeAndRunDisplayList env address size dl s).2.2 := by
  obtain ⟨evs, ht, _, hp⟩ := AnalyzeAndRunDisplayList_appends env address size dl s
  refine ⟨⟨evs, ht, ?_⟩⟩
  intro c hc
  rw [← hp] at hc
  have := (List.mem_filter.mp hc).2
  exact absurd this (by simp [Event.isPrimitive])

theorem NoRoutine.not_issued {s s' : State} (h : NoRoutine s s') (c : Nat) :
    Event.CallCompiled c ∉ issued s s' := by
  obtain ⟨evs, ht, hp⟩ := h.ext
  simp only [issued]
  rw [ht, List.drop_left]
  exact hp c

/-- A call that finds an entry calls a compiled routine only on the paths of the pass
`DLPASS_RUN` that reach the call: the entry is not uncachable, the routine is the entry's, and
when the hash check was due the hash matched. -/
theorem handleFound_calls (env : Env) (address size dl_id : Nat) (dl : CachedDisplayList)
    (s : State) (c : Nat)
    (hc : Event.CallCompiled c ∈ issued s (handleFound env address size dl_id dl s).2) :
    runsCompiled env address size dl s ∧ c = dl.compiled_code := by
  revert hc
  apply handleFound_cases (fun r => Event.CallCompiled c ∈ issued s r.2 →
      runsCompiled env address size dl s ∧ c = dl.compiled_code)
  · intro _ _ hc
    exact absurd hc ((NoRoutine.of_trace rfl).not_issued c)
  · intro _ _
    apply handlePass_cases (fun r => Event.CallCompiled c ∈ issued s r.2 →
      runsCompiled env address size dl s ∧ c = dl.compiled_code)
    · intro _ hc
      have h := AnalyzeAndRunDisplayList_noRoutine env address (toInt32 size)
        { dl with pass := DisplayListPass.DLPASS_ANALYZE, uncachable := false,
                  check := dl.next_check } s
      exact absurd hc (NoRoutine.not_issued ⟨h.ext⟩ c)
    · intro hp; exact absurd hp (by simp)
    · intro hp; exact absurd hp (by simp)
    · intro hp; exact absurd hp (by simp)
    · intro hp; exact absurd hp (by simp)
    · intro hp; exact absurd hp (by simp)
  · intro hu
    apply handlePass_cases (fun r => Event.CallCompiled c ∈ issued s r.2 →
      runsCompiled env address size dl s ∧ c = dl.compiled_code)
    · intro _ hc
      have h := AnalyzeAndRunDisplayList_noRoutine env address (toInt32 size) dl s
      exact absurd hc (NoRoutine.not_issued ⟨h.ext⟩ c)
    · intro _ _ hc
      exact absurd hc ((NoRoutine.of_trace rfl).not_issued c)
    · intro _ _ hc
      have h := CompileAndRunDisplayList_noRoutine env address (toInt32 size) dl s
      exact absurd hc (NoRoutine.not_issued ⟨h.ext⟩ c)
    · intro _ _ _ hc
      have h : NoRoutine s (deleteAll dl.Vdata s) :=
        NoRoutine.of_trace (deleteAll_frame dl.Vdata s).trace
      exact absurd hc (NoRoutine.not_issued ⟨h.ext⟩ c)
    · intro hp _ hh hc
      have hi : issued s (runCompiled dl_id { dl with check := dl.next_check } s).2
          = [Event.CallCompiled dl.compiled_code] := by
        simp [issued, runCompiled, State.store, runStats, State.SwapDL, State.incDListsCalled,
          State.call]
      rw [hi, List.mem_singleton] at hc
      exact ⟨⟨hu, hp, fun h => h.2 hh⟩, by injection hc⟩
    · intro hp hz hc
      have hi : issued s (runCompiled dl_id { dl with check := dl.check - 1 } s).2
          = [Event.CallCompiled dl.compiled_code] := by
        simp [issued, runCompiled, State.store, runStats, State.SwapDL, State.incDListsCalled,
          State.call]
      rw [hi, List.mem_singleton] at hc
      exact ⟨⟨hu, hp, fun h => hz h.1⟩, by injection hc⟩

theorem handleFound_checked (env : Env) (address size dl_id : Nat) (dl : CachedDisplayList)
    (s : State) (hn : dl.next_check = 1) (hck : dl.uncachable = false → dl.check = 1) :
    ∃ e', (handleFound env address size dl_id dl s).2.dl_map = mapSet dl_id e' s.dl_map
      ∧ e'.next_check = 1 ∧ (e'.uncachable = false → e'.check = 1) := by
  apply handleFound_cases (fun r => ∃ e', r.2.dl_map = mapSet dl_id e' s.dl_map
      ∧ e'.next_check = 1 ∧ (e'.uncachable = false → e'.check = 1))
  · intro hu _
    refine ⟨_, rfl, hn, ?_⟩
    intro h
    have h' : dl.uncachable = false := h
    rw [hu] at h'
    exact absurd h' (by decide)
  · intro _ _
    apply handlePass_cases (fun r => ∃ e', r.2.dl_map = mapSet dl_id e' s.dl_map
      ∧ e'.next_check = 1 ∧ (e'.uncachable = false → e'.check = 1))
    · intro _
      exact ⟨_, congrArg (mapSet dl_id _)
        (AnalyzeAndRunDisplayList_frame env address (toInt32 size) _ s).1.dl_map,
        rfl, fun _ => rfl⟩
    · intro hp; exact absurd hp (by simp)
    · intro hp; exact absurd hp (by simp)
    · intro hp; exact absurd hp (by simp)
    · intro hp; exact absurd hp (by simp)
    · intro hp; exact absurd hp (by simp)
  · intro hu
    apply handlePass_cases (fun r => ∃ e', r.2.dl_map = mapSet dl_id e' s.dl_map
      ∧ e'.next_check = 1 ∧ (e'.uncachable = false → e'.check = 1))
    · intro _
      exact ⟨_, congrArg (mapSet dl_id _)
        (AnalyzeAndRunDisplayList_frame env address (toInt32 size) _ s).1.dl_map,
        rfl, fun _ => rfl⟩
    · intro _ _
      refine ⟨_, rfl, hn, ?_⟩
      intro h
      exact absurd h (by simp)
    · intro _ _
      have hf := CompileAndRunDisplayList_frame env address (toInt32 size) dl s
      refine ⟨_, congrArg (mapSet dl_id _) hf.1.dl_map, ?_, ?_⟩
      · exact hf.2.1.next_check.trans hn
      · intro _
        exact hf.2.1.check.trans (hck hu)
    · intro _ _ _
      refine ⟨_, congrArg (mapSet dl_id _) (deleteAll_frame dl.Vdata s).dl_map, hn, ?_⟩
      intro h
      exact absurd h (by simp)
    · intro _ _ _
      exact ⟨_, rfl, hn, fun _ => hn⟩
    · intro _ hz
      have := hck hu
      exact absurd (by rw [this]; decide) hz

theorem HandleDisplayList_checked (env : Env) (address size : Nat) (s : State)
    (h : CheckedEveryCall s.dl_map) :
    CheckedEveryCall (HandleDisplayList env address size s).2.dl_map := by
  by_cases hen : s.bDlistCachingEnable = true
  · by_cases hsz : size = 0
    · rw [HandleDisplayList_off env address size s (Or.inr hsz)]
      exact h
    · cases hfind : mapFind (CreateMapId address size) s.dl_map with
      | none =>
        rw [HandleDisplayList_first env address size s hen hsz hfind]
        intro x hx
        have hm := (AnalyzeAndRunDisplayList_frame env address (toInt32 size)
            (CachedDisplayList.ctor env s.frameCount) s.withAlive).1.dl_map
        simp only [State.store, hm] at hx
        rcases mem_mapSet _ _ _ x hx with hx | hx
        · rw [hx]
          exact ⟨rfl, fun _ => rfl⟩
        · exact h x hx
      | some dl =>
        rw [HandleDisplayList_found env address size s dl hen hsz hfind]
        have hd := h _ (mapFind_mem hfind)
        obtain ⟨e', h1, h2, h3⟩ := handleFound_checked env address size
          (CreateMapId address size) dl s.withAlive hd.1 hd.2
        rw [h1]
        intro x hx
        rcases mem_mapSet _ _ _ x hx with hx | hx
        · rw [hx]
          exact ⟨h2, h3⟩
        · exact h x hx
  · rw [HandleDisplayList_off env address size s (Or.inl (by simpa using hen))]
    exact h

theorem step_checked (env : Env) (s : State) (op : Op) (h : CheckedEveryCall s.dl_map) :
    CheckedEveryCall (step env s op).dl_map := by
  cases op with
  | handle address size => exact HandleDisplayList_checked env address size s h
  | cleanup =>
    intro x hx
    have hk : (ProgressiveCleanup s).dl_map
        = s.dl_map.filter (fun x => !exceedsThreshold s.frameCount x.2) :=
      cleanupLoop_kept s.frameCount s.dl_map s
    have hx' : x ∈ (ProgressiveCleanup s).dl_map := hx
    rw [hk] at hx'
    exact h x (List.mem_filter.mp hx').1
  | clear =>
    intro x hx
    have hx' : x ∈ ([] : List (Nat × CachedDisplayList)) := hx
    exact absurd hx' (List.not_mem_nil _)
  | setFrame _ => exact h
  | setMem _ => exact h
  | setConfig _ => exact h

theorem run_checked (env : Env) (ops : List Op) :
    ∀ s : State, CheckedEveryCall s.dl_map → CheckedEveryCall (run env s ops).dl_map := by
  induction ops with
  | nil => intro s h; exact h
  | cons op t ih =>
    intro s h
    exact ih (step env s op) (step_checked env s op h)

/-- C25: in every state reached from an empty store by calls of `HandleDisplayList`,
`ProgressiveCleanup` and `Clear` and by changes of the frame counter, the memory and the
configuration, every entry has `next_check = 1`; and every call of `HandleDisplayList` made in
such a state that calls a compiled routine calls the routine of the entry under its key, an
entry in pass `DLPASS_RUN` whose check was due in that call (`check - 1 ≤ 0`) and whose stored
hash equals the hash of the current bytes. -/
theorem C25_never_run_unverified (env : Env) (s0 : State) (ops : List Op)
    (hempty : s0.dl_map = []) :
    (∀ x ∈ (run env s0 ops).dl_map, x.2.next_check = 1)
    ∧ ∀ (address size c : Nat),
        Event.CallCompiled c ∈ issued (run env s0 ops)
          (HandleDisplayList env address size (run env s0 ops)).2 →
        ∃ dl, mapFind (CreateMapId address size) (run env s0 ops).dl_map = some dl
          ∧ dl.uncachable = false ∧ dl.pass = DisplayListPass.DLPASS_RUN
          ∧ dl.check - 1 ≤ 0
          ∧ dl.dl_hash = GetHash64 env (run env s0 ops) address size
          ∧ c = dl.compiled_code := by
  have hinv : CheckedEveryCall (run env s0 ops).dl_map := by
    apply run_checked
    rw [hempty]
    intro x hx
    exact absurd hx (List.not_mem_nil _)
  generalize run env s0 ops = s at hinv ⊢
  refine ⟨fun x hx => (hinv x hx).1, ?_⟩
  intro address size c hc
  by_cases hen : s.bDlistCachingEnable = true
  · by_cases hsz : size = 0
    · rw [HandleDisplayList_off env address size s (Or.inr hsz)] at hc
      exact absurd hc ((NoRoutine.nRefl s).not_issued c)
    · cases hfind : mapFind (CreateMapId address size) s.dl_map with
      | none =>
        rw [HandleDisplayList_first env address size s hen hsz hfind] at hc
        have h := AnalyzeAndRunDisplayList_noRoutine env address (toInt32 size)
          (CachedDisplayList.ctor env s.frameCount) s.withAlive
        have h' : NoRoutine s (AnalyzeAndRunDisplayList env address (toInt32 size)
          (CachedDisplayList.ctor env s.frameCount) s.withAlive).2.2 := ⟨h.ext⟩
        exact absurd hc (NoRoutine.not_issued ⟨h'.ext⟩ c)
      | some dl =>
        rw [HandleDisplayList_found env address size s dl hen hsz hfind] at hc
        have hc' : Event.CallCompiled c ∈ issued s.withAlive
            (handleFound env address size (CreateMapId address size) dl s.withAlive).2 := hc
        obtain ⟨hr, hcc⟩ := handleFound_calls env address size _ dl s.withAlive c hc'
        have hd := hinv _ (mapFind_mem hfind)
        have hck : dl.check = 1 := hd.2 hr.1
        have hz : dl.check - 1 ≤ 0 := by rw [hck]; decide
        refine ⟨dl, rfl, hr.1, hr.2.1, hz, ?_, hcc⟩
        by_contra hne
        exact hr.2.2 ⟨hz, hne⟩
  · rw [HandleDisplayList_off env address size s (Or.inl (by simpa using hen))] at hc
    exact absurd hc ((NoRoutine.nRefl s).not_issued c)


set_option maxRecDepth 100000 in
/-- C25 on the example state after the list was analysed and compiled: the third call runs the
routine of the entry, whose check is due and whose hash matches. -/
theorem C25_never_run_unverified_witness :
    ∃ dl, mapFind (CreateMapId 16 42)
        (run exampleEnv exampleState [Op.handle 16 42, Op.handle 16 42]).dl_map = some dl
      ∧ dl.uncachable = false ∧ dl.pass = DisplayListPass.DLPASS_RUN
      ∧ dl.check - 1 ≤ 0
      ∧ dl.dl_hash
          = GetHash64 exampleEnv (run exampleEnv exampleState [Op.handle 16 42, Op.handle 16 42])
              16 42
      ∧ 4096 = dl.compiled_code :=
  (C25_never_run_unverified exampleEnv exampleState [Op.handle 16 42, Op.handle 16 42] rfl).2
    16 42 4096 (by decide)

/-! ## Which entries own buffers -/

theorem count_mapSet_le (k q p : Nat) (l : List (Nat × Nat)) :
    ((mapSet k q l).map Prod.snd).count p
      ≤ (l.map Prod.snd).count p + (if p = q then 1 else 0) := by
  induction l with
  | nil =>
    by_cases h : p = q
    · simp [mapSet, h]
    · have h' : ¬ q = p := fun e => h e.symm
      simp [mapSet, h, List.count_cons, h']
  | cons hd t ih =>
    obtain ⟨k0, v0⟩ := hd
    by_cases h1 : k = k0
    · simp only [mapSet, h1, if_true, List.map_cons, List.count_cons]
      by_cases h : p = q
      · subst h; simp
      · have h' : ¬ q = p := fun e => h e.symm
        simp [h, h']
    · by_cases h2 : k < k0
      · simp only [mapSet, h1, h2, if_true, if_false, List.map_cons, List.count_cons]
        by_cases h : p = q
        · subst h; simp
        · have h' : ¬ q = p := fun e => h e.symm
          simp [h, h']
      · simp only [mapSet, h1, h2, if_false, List.map_cons, List.count_cons]
        omega

theorem FreshBuffers.add_fresh {h0 : Nat} {dl : CachedDisplayList} {s s' : State}
    (h : FreshBuffers h0 dl s) (hle : h0 ≤ s.heapNext) (hn : s'.heapNext = s.heapNext + 1) :
    FreshBuffers h0 (dl.addBuffer s.heapNext) s' := by
  intro p
  have hc := count_mapSet_le dl.BufferCount s.heapNext p dl.Vdata
  have hp := h p
  have hv : (dl.addBuffer s.heapNext).Vdata = mapSet dl.BufferCount s.heapNext dl.Vdata := rfl
  rw [hv, hn]
  by_cases hq : p = s.heapNext
  · rw [if_pos hq] at hc
    have := hp.2 (Or.inr (by omega))
    constructor
    · omega
    · intro hb; omega
  · rw [if_neg hq] at hc
    constructor
    · omega
    · intro hb
      have := hp.2 (by omega)
      omega

theorem FreshBuffers.same {h0 : Nat} {dl dl' : CachedDisplayList} {s s' : State}
    (h : FreshBuffers h0 dl s) (hd : dl'.Vdata = dl.Vdata) (hn : s'.heapNext = s.heapNext) :
    FreshBuffers h0 dl' s' := by
  intro p
  rw [hd, hn]
  exact h p

theorem compileCmd_fresh (env : Env) (size : Int) (b : Nat) (h0 : Nat) (dl : CachedDisplayList)
    (s : State) (h : FreshBuffers h0 dl s) (hle : h0 ≤ s.heapNext) :
    FreshBuffers h0 (compileCmd env size b dl s).1 (compileCmd env size b dl s).2
      ∧ s.heapNext ≤ (compileCmd env size b dl s).2.heapNext := by
  apply compileCmd_cases (fun r => FreshBuffers h0 r.1 r.2 ∧ s.heapNext ≤ r.2.heapNext)
  · exact ⟨h, le_refl _⟩
  · exact ⟨h.same rfl rfl, le_refl _⟩
  · simp only [compile_LOAD_XF_REG, readWords_eq]
    exact ⟨h.add_fresh hle rfl, Nat.le_succ _⟩
  · intro r; exact ⟨h.same rfl rfl, le_refl _⟩
  · exact ⟨h.same rfl rfl, le_refl _⟩
  · exact ⟨h.same rfl rfl, le_refl _⟩
  · unfold compile_draw
    by_cases hs : size > 0
    · simp only [if_pos hs]
      exact ⟨h.add_fresh hle rfl, Nat.le_succ _⟩
    · simp only [if_neg hs]
      exact ⟨h.same rfl rfl, le_refl _⟩

theorem compileLoop_fresh (env : Env) (size : Int) (endPtr : Int) (h0 : Nat) (fuel : Nat) :
    ∀ (dl : CachedDisplayList) (s : State), FreshBuffers h0 dl s → h0 ≤ s.heapNext →
      FreshBuffers h0 (compileLoop env size endPtr fuel dl s).1
          (compileLoop env size endPtr fuel dl s).2
        ∧ s.heapNext ≤ (compileLoop env size endPtr fuel dl s).2.heapNext := by
  induction fuel with
  | zero => intro dl s h _; exact ⟨h, le_refl _⟩
  | succ n ih =>
    intro dl s h hle
    simp only [compileLoop]
    by_cases hlt : (s.g_pVideoData : Int) < endPtr
    · rw [if_pos hlt]
      have h1 := compileCmd_fresh env size (DataReadU8 s).1 h0 dl (DataReadU8 s).2
        (h.same rfl rfl) hle
      have hn : (DataReadU8 s).2.heapNext = s.heapNext := rfl
      have h2 := ih _ _ h1.1 (le_trans hle (hn ▸ h1.2))
      exact ⟨h2.1, le_trans (hn ▸ h1.2) h2.2⟩
    · rw [if_neg hlt]
      exact ⟨h, le_refl _⟩

/-- A run of the compiler on an entry without buffers leaves in its slots distinct pointers, all
returned by `new` during the run. -/
theorem CompileAndRunDisplayList_fresh (env : Env) (address : Nat) (size : Int)
    (dl : CachedDisplayList) (s : State) (hempty : dl.Vdata = []) :
    FreshBuffers s.heapNext (CompileAndRunDisplayList env address size dl s).2.1
        (CompileAndRunDisplayList env address size dl s).2.2
      ∧ s.heapNext ≤ (CompileAndRunDisplayList env address size dl s).2.2.heapNext := by
  have hstart : FreshBuffers s.heapNext dl s := by
    intro p
    rw [hempty]
    simp
  by_cases h : env.Memory_GetPtr address = 0
  · rw [CompileAndRunDisplayList_unresolved env address size dl s h]
    exact ⟨hstart, le_refl _⟩
  · rw [CompileAndRunDisplayList_resolved env address size dl s h]
    have hl := compileLoop_fresh env size
      (↑({ s with g_pVideoData := env.Memory_GetPtr address } : State).SwapDL.g_pVideoData
        + size) s.heapNext
      (↑({ s with g_pVideoData := env.Memory_GetPtr address } : State).SwapDL.g_pVideoData
        + size
        - ↑((({ s with g_pVideoData := env.Memory_GetPtr address } : State).SwapDL.AlignCode4).emit
            env (CodeItem.Prologue 4)).g_pVideoData).toNat
      { dl with compiled_code :=
          ({ s with g_pVideoData := env.Memory_GetPtr address } : State).SwapDL.AlignCode4.codePtr }
      ((({ s with g_pVideoData := env.Memory_GetPtr address } : State).SwapDL.AlignCode4).emit env
        (CodeItem.Prologue 4))
      (hstart.same rfl rfl) (le_refl _)
    exact ⟨hl.1.same rfl rfl, hl.2⟩

/-! Counting the pointers of a store -/

theorem count_allBuffers_absent (k : Nat) (e : CachedDisplayList) (p : Nat)
    (l : List (Nat × CachedDisplayList)) (h : mapFind k l = none) :
    (allBuffers (mapSet k e l)).count p
      = (allBuffers l).count p + (e.Vdata.map Prod.snd).count p := by
  induction l with
  | nil => simp [mapSet, allBuffers]
  | cons hd t ih =>
    obtain ⟨k0, v0⟩ := hd
    by_cases h1 : k = k0
    · simp [mapFind, h1] at h
    · simp only [mapFind, h1, if_false] at h
      by_cases h2 : k < k0
      · simp only [mapSet, h1, h2, if_true, if_false, allBuffers, List.count_append]
        omega
      · simp only [mapSet, h1, h2, if_false, allBuffers, List.count_append, ih h]
        omega

theorem count_allBuffers_found (k : Nat) (dl e : CachedDisplayList) (p : Nat)
    (l : List (Nat × CachedDisplayList)) (hs : KeysSorted l) (h : mapFind k l = some dl) :
    (allBuffers (mapSet k e l)).count p + (dl.Vdata.map Prod.snd).count p
      = (allBuffers l).count p + (e.Vdata.map Prod.snd).count p := by
  induction l with
  | nil => simp [mapFind] at h
  | cons hd t ih =>
    obtain ⟨k0, v0⟩ := hd
    by_cases h1 : k = k0
    · subst h1
      simp only [mapFind, if_true, Option.some.injEq] at h
      subst h
      simp only [mapSet, if_true, allBuffers, List.count_append]
      omega
    · simp only [mapFind, h1, if_false] at h
      have hs' := List.pairwise_cons.mp hs
      have hlt : k0 < k := hs'.1 (k, dl) (mapFind_mem h)
      have h2 : ¬ k < k0 := by omega
      simp only [mapSet, h1, h2, if_false, allBuffers, List.count_append]
      have := ih hs'.2 h
      omega

theorem count_allBuffers_filter (q : Nat × CachedDisplayList → Bool) (p : Nat)
    (l : List (Nat × CachedDisplayList)) :
    (allBuffers l).count p
      = (allBuffers (l.filter q)).count p + (allBuffers (l.filter (fun x => !q x))).count p := by
  induction l with
  | nil => simp [allBuffers]
  | cons hd t ih =>
    obtain ⟨k0, v0⟩ := hd
    by_cases hq : q (k0, v0) = true
    · simp only [List.filter, hq, Bool.not_true, allBuffers, List.count_append, ih]
      omega
    · have hq' : q (k0, v0) = false := by simpa using hq
      simp only [List.filter, hq', Bool.not_false, allBuffers, List.count_append, ih]
      omega

/-- Writing an entry under a key that is present keeps the buffers disjoint when the pointers
of the new entry and the deletions made are pointers of the old entry, or new ones. -/
theorem BuffersDisjoint.store_found {s s' : State} {k : Nat} {dl e' : CachedDisplayList}
    {D : List Nat} (h : BuffersDisjoint s) (hf : mapFind k s.dl_map = some dl)
    (hmap : s'.dl_map = mapSet k e' s.dl_map) (hfreed : s'.freed = s.freed ++ D)
    (hnext : s.heapNext ≤ s'.heapNext)
    (hcount : ∀ p, (e'.Vdata.map Prod.snd).count p + D.count p
          ≤ (dl.Vdata.map Prod.snd).count p
        ∨ (s.heapNext ≤ p ∧ p < s'.heapNext
            ∧ (e'.Vdata.map Prod.snd).count p + D.count p ≤ 1)) :
    BuffersDisjoint s' := by
  refine ⟨by rw [hmap]; exact mapSet_sorted _ _ h.1, ?_⟩
  intro p
  have h1 := count_allBuffers_found k dl e' p s.dl_map h.1 hf
  have h0 := count_allBuffers_found k dl { dl with Vdata := [] } p s.dl_map h.1 hf
  simp only [List.map_nil, List.count_nil] at h0
  have hp := h.2 p
  rw [hmap, hfreed, List.count_append]
  rcases hcount p with hc | ⟨hc1, hc2, hc3⟩
  · constructor
    · omega
    · intro hb
      have := hp.2 (by omega)
      omega
  · have := hp.2 hc1
    constructor
    · omega
    · intro hb; omega

/-- Inserting an entry without buffers under a key that is absent keeps the buffers
disjoint. -/
theorem BuffersDisjoint.store_absent {s s' : State} {k : Nat} {e' : CachedDisplayList}
    (h : BuffersDisjoint s) (hf : mapFind k s.dl_map = none)
    (hmap : s'.dl_map = mapSet k e' s.dl_map) (hfreed : s'.freed = s.freed)
    (hnext : s'.heapNext = s.heapNext) (hv : e'.Vdata = []) :
    BuffersDisjoint s' := by
  refine ⟨by rw [hmap]; exact mapSet_sorted _ _ h.1, ?_⟩
  intro p
  have h1 := count_allBuffers_absent k e' p s.dl_map hf
  rw [hv] at h1
  simp only [List.map_nil, List.count_nil, add_zero] at h1
  rw [hmap, hfreed, hnext, h1]
  exact h.2 p


theorem keeps_buffers {A B : List (Nat × Nat)} (h : A = B) (p : Nat) :
    (A.map Prod.snd).count p + ([] : List Nat).count p ≤ (B.map Prod.snd).count p := by
  subst h
  simp

/-- What a call that finds an entry does to the buffers: it writes the store under the key of
the entry, and the pointers of the entry it leaves together with the deletions it made are the
pointers of the entry it found, or pointers returned by `new` during the call. -/
theorem handleFound_buffers (env : Env) (address size dl_id : Nat) (dl : CachedDisplayList)
    (s : State)
    (hidle : (dl.uncachable = true ∨ dl.pass ≠ DisplayListPass.DLPASS_RUN) →
      dl.Vdata = [] ∧ dl.BufferCount = 0) :
    ∃ (e' : CachedDisplayList) (D : List Nat),
      (handleFound env address size dl_id dl s).2.dl_map = mapSet dl_id e' s.dl_map
      ∧ (handleFound env address size dl_id dl s).2.freed = s.freed ++ D
      ∧ s.heapNext ≤ (handleFound env address size dl_id dl s).2.heapNext
      ∧ ((e'.uncachable = true ∨ e'.pass ≠ DisplayListPass.DLPASS_RUN) →
          e'.Vdata = [] ∧ e'.BufferCount = 0)
      ∧ ∀ p, (e'.Vdata.map Prod.snd).count p + D.count p ≤ (dl.Vdata.map Prod.snd).count p
          ∨ (s.heapNext ≤ p ∧ p < (handleFound env address size dl_id dl s).2.heapNext
              ∧ (e'.Vdata.map Prod.snd).count p + D.count p ≤ 1) := by
  apply handleFound_cases (fun r => ∃ (e' : CachedDisplayList) (D : List Nat),
      r.2.dl_map = mapSet dl_id e' s.dl_map
      ∧ r.2.freed = s.freed ++ D
      ∧ s.heapNext ≤ r.2.heapNext
      ∧ ((e'.uncachable = true ∨ e'.pass ≠ DisplayListPass.DLPASS_RUN) →
          e'.Vdata = [] ∧ e'.BufferCount = 0)
      ∧ ∀ p, (e'.Vdata.map Prod.snd).count p + D.count p ≤ (dl.Vdata.map Prod.snd).count p
          ∨ (s.heapNext ≤ p ∧ p < r.2.heapNext
              ∧ (e'.Vdata.map Prod.snd).count p + D.count p ≤ 1))
  · intro hu _
    exact ⟨_, [], rfl, (List.append_nil _).symm, le_refl _, fun _ => hidle (Or.inl hu),
      fun p => Or.inl (keeps_buffers rfl p)⟩
  · intro hu _
    apply handlePass_cases (fun r => ∃ (e' : CachedDisplayList) (D : List Nat),
      r.2.dl_map = mapSet dl_id e' s.dl_map
      ∧ r.2.freed = s.freed ++ D
      ∧ s.heapNext ≤ r.2.heapNext
      ∧ ((e'.uncachable = true ∨ e'.pass ≠ DisplayListPass.DLPASS_RUN) →
          e'.Vdata = [] ∧ e'.BufferCount = 0)
      ∧ ∀ p, (e'.Vdata.map Prod.snd).count p + D.count p ≤ (dl.Vdata.map Prod.snd).count p
          ∨ (s.heapNext ≤ p ∧ p < r.2.heapNext
              ∧ (e'.Vdata.map Prod.snd).count p + D.count p ≤ 1))
    · intro _
      have hf := (AnalyzeAndRunDisplayList_frame env address (toInt32 size)
        { dl with pass := DisplayListPass.DLPASS_ANALYZE, uncachable := false,
                  check := dl.next_check } s).1
      refine ⟨_, [], congrArg (mapSet dl_id _) hf.dl_map, ?_, ?_, fun _ => hidle (Or.inl hu),
        fun p => Or.inl (keeps_buffers rfl p)⟩
      · rw [List.append_nil]; exact hf.freed
      · exact le_of_eq hf.heapNext.symm
    · intro hp; exact absurd hp (by simp)
    · intro hp; exact absurd hp (by simp)
    · intro hp; exact absurd hp (by simp)
    · intro hp; exact absurd hp (by simp)
    · intro hp; exact absurd hp (by simp)
  · intro hu
    apply handlePass_cases (fun r => ∃ (e' : CachedDisplayList) (D : List Nat),
      r.2.dl_map = mapSet dl_id e' s.dl_map
      ∧ r.2.freed = s.freed ++ D
      ∧ s.heapNext ≤ r.2.heapNext
      ∧ ((e'.uncachable = true ∨ e'.pass ≠ DisplayListPass.DLPASS_RUN) →
          e'.Vdata = [] ∧ e'.BufferCount = 0)
      ∧ ∀ p, (e'.Vdata.map Prod.snd).count p + D.count p ≤ (dl.Vdata.map Prod.snd).count p
          ∨ (s.heapNext ≤ p ∧ p < r.2.heapNext
              ∧ (e'.Vdata.map Prod.snd).count p + D.count p ≤ 1))
    · intro hp
      have hf := (AnalyzeAndRunDisplayList_frame env address (toInt32 size) dl s).1
      have hi := hidle (Or.inr (by rw [hp]; decide))
      refine ⟨_, [], congrArg (mapSet dl_id _) hf.dl_map, ?_, ?_, fun _ => hi,
        fun p => Or.inl (keeps_buffers rfl p)⟩
      · rw [List.append_nil]; exact hf.freed
      · exact le_of_eq hf.heapNext.symm
    · intro hp _
      have hi := hidle (Or.inr (by rw [hp]; decide))
      exact ⟨_, [], rfl, (List.append_nil _).symm, le_refl _, fun _ => hi,
        fun p => Or.inl (keeps_buffers rfl p)⟩
    · intro hp _
      have hi := hidle (Or.inr (by rw [hp]; decide))
      have hf := CompileAndRunDisplayList_frame env address (toInt32 size) dl s
      have hfr := CompileAndRunDisplayList_fresh env address (toInt32 size) dl s hi.1
      refine ⟨{ (CompileAndRunDisplayList env address (toInt32 size) dl s).2.1 with
          pass := DisplayListPass.DLPASS_RUN }, [], congrArg (mapSet dl_id _) hf.1.dl_map,
        ?_, hfr.2, ?_, ?_⟩
      · rw [List.append_nil]; exact hf.1.freed
      · rintro (h | h)
        · have h' : (CompileAndRunDisplayList env address (toInt32 size) dl s).2.1.uncachable
              = true := h
          rw [hf.2.1.uncachable, hu] at h'
          exact absurd h' (by decide)
        · exact absurd rfl h
      · intro p
        have hpp := hfr.1 p
        by_cases hz : ((CompileAndRunDisplayList env address (toInt32 size) dl
            s).2.1.Vdata.map Prod.snd).count p = 0
        · left
          show ((CompileAndRunDisplayList env address (toInt32 size) dl
            s).2.1.Vdata.map Prod.snd).count p + ([] : List Nat).count p ≤ _
          rw [hz]
          simp
        · right
          have hin : ¬ (p < s.heapNext
              ∨ (CompileAndRunDisplayList env address (toInt32 size) dl s).2.2.heapNext ≤ p) :=
            fun hb => hz (hpp.2 hb)
          refine ⟨by omega, ?_, ?_⟩
          · show p < (CompileAndRunDisplayList env address (toInt32 size) dl s).2.2.heapNext
            omega
          · show ((CompileAndRunDisplayList env address (toInt32 size) dl
              s).2.1.Vdata.map Prod.snd).count p + ([] : List Nat).count p ≤ 1
            simp only [List.count_nil, add_zero]
            exact hpp.1
    · intro _ _ _
      have hd := deleteAll_frame dl.Vdata s
      refine ⟨_, dl.Vdata.map Prod.snd, congrArg (mapSet dl_id _) hd.dl_map,
        deleteAll_freed dl.Vdata s, le_of_eq hd.heapNext.symm, fun _ => ⟨rfl, rfl⟩,
        fun p => Or.inl (by simp)⟩
    · intro hp _ _
      refine ⟨_, [], rfl, (List.append_nil _).symm, le_refl _, ?_, fun p => Or.inl (keeps_buffers rfl p)⟩
      rintro (h | h)
      · have h' : dl.uncachable = true := h
        rw [hu] at h'
        exact absurd h' (by decide)
      · exact absurd hp h
    · intro hp _
      refine ⟨_, [], rfl, (List.append_nil _).symm, le_refl _, ?_, fun p => Or.inl (keeps_buffers rfl p)⟩
      rintro (h | h)
      · have h' : dl.uncachable = true := h
        rw [hu] at h'
        exact absurd h' (by decide)
      · exact absurd hp h

theorem HandleDisplayList_buffers (env : Env) (address size : Nat) (s : State)
    (hi : IdleOwnNothing s.dl_map) (hb : BuffersDisjoint s) :
    IdleOwnNothing (HandleDisplayList env address size s).2.dl_map
      ∧ BuffersDisjoint (HandleDisplayList env address size s).2 := by
  by_cases hen : s.bDlistCachingEnable = true
  · by_cases hsz : size = 0
    · rw [HandleDisplayList_off env address size s (Or.inr hsz)]
      exact ⟨hi, hb⟩
    · cases hfind : mapFind (CreateMapId address size) s.dl_map with
      | none =>
        rw [HandleDisplayList_first env address size s hen hsz hfind]
        have hf := (AnalyzeAndRunDisplayList_frame env address (toInt32 size)
            (CachedDisplayList.ctor env s.frameCount) s.withAlive).1
        constructor
        · intro x hx
          simp only [State.store, hf.dl_map] at hx
          rcases mem_mapSet _ _ _ x hx with hx | hx
          · rw [hx]
            exact fun _ => ⟨rfl, rfl⟩
          · exact hi x hx
        · exact hb.store_absent hfind (congrArg (mapSet _ _) hf.dl_map) hf.freed hf.heapNext rfl
      | some dl =>
        rw [HandleDisplayList_found env address size s dl hen hsz hfind]
        obtain ⟨e', D, h1, h2, h3, h4, h5⟩ := handleFound_buffers env address size
          (CreateMapId address size) dl s.withAlive (hi _ (mapFind_mem hfind))
        constructor
        · rw [h1]
          intro x hx
          rcases mem_mapSet _ _ _ x hx with hx | hx
          · rw [hx]
            exact h4
          · exact hi x hx
        · exact BuffersDisjoint.store_found (s := s) hb hfind h1 h2 h3 h5
  · rw [HandleDisplayList_off env address size s (Or.inl (by simpa using hen))]
    exact ⟨hi, hb⟩

theorem KeysSorted.sub_filter {l : List (Nat × CachedDisplayList)} (h : KeysSorted l)
    (q : Nat × CachedDisplayList → Bool) : KeysSorted (l.filter q) :=
  List.Pairwise.sublist (List.filter_sublist l) h

theorem ProgressiveCleanup_buffers (s : State)
    (hi : IdleOwnNothing s.dl_map) (hb : BuffersDisjoint s) :
    IdleOwnNothing (ProgressiveCleanup s).dl_map ∧ BuffersDisjoint (ProgressiveCleanup s) := by
  have hk : (ProgressiveCleanup s).dl_map
      = s.dl_map.filter (fun x => !exceedsThreshold s.frameCount x.2) :=
    cleanupLoop_kept s.frameCount s.dl_map s
  have hfr : (ProgressiveCleanup s).freed
      = s.freed ++ allBuffers (s.dl_map.filter (fun x => exceedsThreshold s.frameCount x.2)) := by
    show (cleanupLoop s.frameCount s.dl_map s).2.freed = _
    rw [cleanupLoop_state, clearEntries_freed]
  have hn : (ProgressiveCleanup s).heapNext = s.heapNext := by
    show (cleanupLoop s.frameCount s.dl_map s).2.heapNext = _
    rw [cleanupLoop_state]
    exact (clearEntries_frame _ s).heapNext
  constructor
  · rw [hk]
    intro x hx
    exact hi x (List.mem_filter.mp hx).1
  · refine ⟨by rw [hk]; exact hb.1.sub_filter _, ?_⟩
    intro p
    have hc := count_allBuffers_filter (fun x => exceedsThreshold s.frameCount x.2) p s.dl_map
    have hp := hb.2 p
    rw [hk, hfr, hn, List.count_append]
    constructor
    · omega
    · intro h
      have := hp.2 h
      omega

theorem Clear_buffers (s : State) (hb : BuffersDisjoint s) :
    IdleOwnNothing (Clear s).dl_map ∧ BuffersDisjoint (Clear s) := by
  have hfr : (Clear s).freed = s.freed ++ allBuffers s.dl_map := by
    show (clearEntries s.dl_map s).freed = _
    rw [clearEntries_freed]
  have hn : (Clear s).heapNext = s.heapNext := (clearEntries_frame s.dl_map s).heapNext
  have hm : (Clear s).dl_map = [] := rfl
  constructor
  · rw [hm]
    intro x hx
    exact absurd hx (List.not_mem_nil _)
  · refine ⟨by rw [hm]; exact List.Pairwise.nil, ?_⟩
    intro p
    have hp := hb.2 p
    rw [hm, hfr, hn, List.count_append]
    simp only [allBuffers, List.count_nil, zero_add]
    constructor
    · omega
    · intro h
      have := hp.2 h
      omega

theorem step_buffers (env : Env) (s : State) (op : Op)
    (hi : IdleOwnNothing s.dl_map) (hb : BuffersDisjoint s) :
    IdleOwnNothing (step env s op).dl_map ∧ BuffersDisjoint (step env s op) := by
  cases op with
  | handle address size => exact HandleDisplayList_buffers env address size s hi hb
  | cleanup => exact ProgressiveCleanup_buffers s hi hb
  | clear => exact Clear_buffers s hb
  | setFrame _ => exact ⟨hi, hb⟩
  | setMem _ => exact ⟨hi, hb⟩
  | setConfig _ => exact ⟨hi, hb⟩

theorem run_buffers (env : Env) (ops : List Op) :
    ∀ s : State, IdleOwnNothing s.dl_map → BuffersDisjoint s →
      IdleOwnNothing (run env s ops).dl_map ∧ BuffersDisjoint (run env s ops) := by
  induction ops with
  | nil => intro s hi hb; exact ⟨hi, hb⟩
  | cons op t ih =>
    intro s hi hb
    have h := step_buffers env s op hi hb
    exact ih (step env s op) h.1 h.2

/-- C26: in every state reached from a state with an empty store and no deletion made, by calls
of `HandleDisplayList`, `ProgressiveCleanup` and `Clear` and by changes of the frame counter,
the memory and the configuration (nested calls are not followed): an entry that is uncachable
or whose pass is `DLPASS_ANALYZE` or `DLPASS_COMPILE` has an empty `Vdata` and `BufferCount =
0`; so a call that runs the compiler hands it an entry with no buffer; and no pointer was
deleted twice, nor is a deleted pointer still in a slot of an entry. -/
theorem C26_idle_entries_own_nothing (env : Env) (s0 : State) (ops : List Op)
    (hempty : s0.dl_map = []) (hfreed : s0.freed = []) :
    (∀ x ∈ (run env s0 ops).dl_map,
        (x.2.uncachable = true ∨ x.2.pass = DisplayListPass.DLPASS_ANALYZE
          ∨ x.2.pass = DisplayListPass.DLPASS_COMPILE) →
        x.2.Vdata = [] ∧ x.2.BufferCount = 0)
    ∧ (∀ address size, runsCompiler env address size (run env s0 ops) →
        ∃ dl, mapFind (CreateMapId address size) (run env s0 ops).dl_map = some dl
          ∧ dl.Vdata = [] ∧ dl.BufferCount = 0)
    ∧ (run env s0 ops).freed.Nodup
    ∧ (∀ p ∈ (run env s0 ops).freed, p ∉ allBuffers (run env s0 ops).dl_map) := by
  have h0i : IdleOwnNothing s0.dl_map := by
    rw [hempty]
    intro x hx
    exact absurd hx (List.not_mem_nil _)
  have h0b : BuffersDisjoint s0 := by
    refine ⟨by rw [hempty]; exact List.Pairwise.nil, ?_⟩
    intro p
    rw [hempty, hfreed]
    simp [allBuffers]
  obtain ⟨hi, hb⟩ := run_buffers env ops s0 h0i h0b
  generalize run env s0 ops = s at hi hb ⊢
  refine ⟨?_, ?_, ?_, ?_⟩
  · intro x hx hc
    apply hi x hx
    rcases hc with h | h | h
    · exact Or.inl h
    · exact Or.inr (by rw [h]; decide)
    · exact Or.inr (by rw [h]; decide)
  · rintro address size ⟨_, _, dl, hf, _, hp, _⟩
    exact ⟨dl, hf, hi _ (mapFind_mem hf) (Or.inr (by rw [hp]; decide))⟩
  · rw [List.nodup_iff_count_le_one]
    intro p
    have := (hb.2 p).1
    omega
  · intro p hp hq
    have h1 := List.count_pos_iff.mpr hp
    have h2 := List.count_pos_iff.mpr hq
    have := (hb.2 p).1
    omega


/-- C26 on the example run: the list is compiled and run, found changed, then the store is
cleared; no pointer was deleted twice. -/
theorem C26_idle_entries_own_nothing_witness :
    (run exampleEnv exampleState exampleOps).freed.Nodup :=
  (C26_idle_entries_own_nothing exampleEnv exampleState exampleOps rfl rfl).2.2.1

/-! ## The XF register-block load -/

theorem DataReadU32_lt (s : State) : (DataReadU32 s).1 < 2 ^ 32 := by
  simp only [DataReadU32, State.byteAt]
  have h0 := Nat.mod_lt (s.mem s.g_pVideoData) (by norm_num : 256 > 0)
  have h1 := Nat.mod_lt (s.mem (s.g_pVideoData + 1)) (by norm_num : 256 > 0)
  have h2 := Nat.mod_lt (s.mem (s.g_pVideoData + 2)) (by norm_num : 256 > 0)
  have h3 := Nat.mod_lt (s.mem (s.g_pVideoData + 3)) (by norm_num : 256 > 0)
  omega

theorem wordsAt_length (mem : Nat → Nat) (n : Nat) : ∀ p, (wordsAt mem p n).length = n := by
  induction n with
  | zero => intro p; rfl
  | succ n ih => intro p; simp [wordsAt, ih]

theorem wordsAt_lt (mem : Nat → Nat) (n : Nat) : ∀ p, ∀ w ∈ wordsAt mem p n, w < 2 ^ 32 := by
  induction n with
  | zero => intro p w hw; simp [wordsAt] at hw
  | succ n ih =>
    intro p w hw
    simp only [wordsAt, List.mem_cons] at hw
    rcases hw with hw | hw
    · have h0 := Nat.mod_lt (mem p) (by norm_num : 256 > 0)
      have h1 := Nat.mod_lt (mem (p + 1)) (by norm_num : 256 > 0)
      have h2 := Nat.mod_lt (mem (p + 2)) (by norm_num : 256 > 0)
      have h3 := Nat.mod_lt (mem (p + 3)) (by norm_num : 256 > 0)
      omega
    · exact ih _ w hw

/-- C27: for every state, the command word `Cmd2` that the XF case reads is a 32-bit value, the
decoded `transfer_size = ((Cmd2 >> 16) & 15) + 1` lies in `1..16` and `xf_address = Cmd2 &
0xFFFF` in `0..65535`.  The analyzer fills `data_buffer` with exactly `transfer_size` words (at
most 16, the size of the local array), read from the stream after `Cmd2`, and calls `LoadXFReg`
with them.  The compiler reads the same words into a new buffer, which holds exactly these
`transfer_size` words of 32 bits (`transfer_size * 4` bytes), enters the buffer at slot
`BufferCount` of the entry, and emits the call of `LoadXFReg` with the decoded size and address
and the buffer. -/
theorem C27_xf_transfer_in_bounds (env : Env) (c : Counts) (dl : CachedDisplayList)
    (s : State) :
    (DataReadU32 s).1 < 2 ^ 32
    ∧ 1 ≤ (((DataReadU32 s).1 >>> 16) &&& 15) + 1
    ∧ (((DataReadU32 s).1 >>> 16) &&& 15) + 1 ≤ 16
    ∧ (DataReadU32 s).1 &&& 0xFFFF ≤ 65535
    ∧ (wordsAt s.mem (s.g_pVideoData + 4) ((((DataReadU32 s).1 >>> 16) &&& 15) + 1)).length
        = (((DataReadU32 s).1 >>> 16) &&& 15) + 1
    ∧ (∀ w ∈ wordsAt s.mem (s.g_pVideoData + 4) ((((DataReadU32 s).1 >>> 16) &&& 15) + 1),
        w < 2 ^ 32)
    ∧ issued s (analyze_LOAD_XF_REG c s).2
        = [Event.LoadXFReg ((((DataReadU32 s).1 >>> 16) &&& 15) + 1)
            ((DataReadU32 s).1 &&& 0xFFFF)
            (wordsAt s.mem (s.g_pVideoData + 4) ((((DataReadU32 s).1 >>> 16) &&& 15) + 1))]
    ∧ issued s (compile_LOAD_XF_REG env dl s).2
        = [Event.LoadXFReg ((((DataReadU32 s).1 >>> 16) &&& 15) + 1)
            ((DataReadU32 s).1 &&& 0xFFFF)
            (wordsAt s.mem (s.g_pVideoData + 4) ((((DataReadU32 s).1 >>> 16) &&& 15) + 1))]
    ∧ (compile_LOAD_XF_REG env dl s).2.heap
        = (s.heapNext,
            wordsAt s.mem (s.g_pVideoData + 4) ((((DataReadU32 s).1 >>> 16) &&& 15) + 1))
          :: s.heap
    ∧ (compile_LOAD_XF_REG env dl s).1.Vdata = mapSet dl.BufferCount s.heapNext dl.Vdata
    ∧ emitted s (compile_LOAD_XF_REG env dl s).2
        = [CodeItem.CallFunctionCCP Fn.LoadXFReg ((((DataReadU32 s).1 >>> 16) &&& 15) + 1)
            ((DataReadU32 s).1 &&& 0xFFFF) s.heapNext] := by
  have hand : ((DataReadU32 s).1 >>> 16) &&& 15 ≤ 15 := Nat.and_le_right
  have hadr : (DataReadU32 s).1 &&& 0xFFFF ≤ 0xFFFF := Nat.and_le_right
  refine ⟨DataReadU32_lt s, by omega, by omega, hadr, wordsAt_length _ _ _, wordsAt_lt _ _ _,
    ?_, ?_, ?_, ?_, ?_⟩
  · simp only [analyze_LOAD_XF_REG, readWords_eq, issued, State.call]
    simp [DataReadU32]
  · simp only [compile_LOAD_XF_REG, readWords_eq, issued, State.call, State.emit, State.new]
    simp [DataReadU32]
  · simp only [compile_LOAD_XF_REG, readWords_eq, State.call, State.emit, State.new]
    simp [DataReadU32]
  · simp only [compile_LOAD_XF_REG, readWords_eq, CachedDisplayList.addBuffer, State.new]
    rfl
  · simp only [compile_LOAD_XF_REG, readWords_eq, emitted, State.call, State.emit, State.new]
    simp [DataReadU32]


/-! ## Termination of the walks -/

/-- A command of the compiler never moves the reader cursor backwards, whatever the size. -/
theorem compileCmd_cursor (env : Env) (size : Int) (b : Nat) (dl : CachedDisplayList)
    (s : State) : s.g_pVideoData ≤ (compileCmd env size b dl s).2.g_pVideoData := by
  apply compileCmd_cases (fun r => s.g_pVideoData ≤ r.2.g_pVideoData)
  · exact le_refl _
  · show s.g_pVideoData ≤ s.g_pVideoData + 1 + 4
    omega
  · simp only [compile_LOAD_XF_REG, readWords_eq]
    show s.g_pVideoData ≤ s.g_pVideoData + 4 + 4 * _
    omega
  · intro r
    show s.g_pVideoData ≤ s.g_pVideoData + 4
    omega
  · show s.g_pVideoData ≤ s.g_pVideoData + 4 + 4
    omega
  · show s.g_pVideoData ≤ s.g_pVideoData + 4
    omega
  · unfold compile_draw
    by_cases hs : size > 0
    · simp only [if_pos hs]
      show s.g_pVideoData ≤ s.g_pVideoData + 2 + _
      omega
    · simp only [if_neg hs]
      show s.g_pVideoData ≤ s.g_pVideoData + 2 + _
      omega

/-- With enough iterations allowed, the analyzer's loop gives one result, stops with its
condition false, and makes at most `end - g_pVideoData` iterations. -/
theorem analyzeLoop_total (env : Env) (endPtr : Int) (fuel : Nat) :
    ∀ (fuel' : Nat) (c : Counts) (s : State), (endPtr - s.g_pVideoData).toNat ≤ fuel →
      (endPtr - s.g_pVideoData).toNat ≤ fuel' →
      analyzeLoop env endPtr fuel c s = analyzeLoop env endPtr fuel' c s
      ∧ analyzeIterations env endPtr fuel c s ≤ (endPtr - s.g_pVideoData).toNat := by
  induction fuel with
  | zero =>
    intro fuel' c s h _
    have hge : ¬ (s.g_pVideoData : Int) < endPtr := by omega
    refine ⟨?_, Nat.zero_le _⟩
    cases fuel' with
    | zero => rfl
    | succ m => simp only [analyzeLoop]; rw [if_neg hge]
  | succ n ih =>
    intro fuel' c s h h'
    by_cases hlt : (s.g_pVideoData : Int) < endPtr
    · have h1 := analyzeCmd_cursor env (DataReadU8 s).1 c (DataReadU8 s).2
      have h2 : (DataReadU8 s).2.g_pVideoData = s.g_pVideoData + 1 := rfl
      cases fuel' with
      | zero => omega
      | succ m =>
        simp only [analyzeLoop, analyzeIterations]
        rw [if_pos hlt, if_pos hlt, if_pos hlt]
        have := ih m (analyzeCmd env (DataReadU8 s).1 c (DataReadU8 s).2).1
          (analyzeCmd env (DataReadU8 s).1 c (DataReadU8 s).2).2 (by omega) (by omega)
        refine ⟨this.1, ?_⟩
        have := this.2
        omega
    · refine ⟨?_, ?_⟩
      · simp only [analyzeLoop]
        rw [if_neg hlt]
        cases fuel' with
        | zero => rfl
        | succ m => simp only [analyzeLoop]; rw [if_neg hlt]
      · simp only [analyzeIterations]
        rw [if_neg hlt]
        exact Nat.zero_le _

/-- The same for the compiler's loop, for every size. -/
theorem compileLoop_total (env : Env) (size : Int) (endPtr : Int) (fuel : Nat) :
    ∀ (fuel' : Nat) (dl : CachedDisplayList) (s : State),
      (endPtr - s.g_pVideoData).toNat ≤ fuel → (endPtr - s.g_pVideoData).toNat ≤ fuel' →
      compileLoop env size endPtr fuel dl s = compileLoop env size endPtr fuel' dl s
      ∧ compileIterations env size endPtr fuel dl s ≤ (endPtr - s.g_pVideoData).toNat
      ∧ endPtr ≤ ((compileLoop env size endPtr fuel dl s).2.g_pVideoData : Int) := by
  induction fuel with
  | zero =>
    intro fuel' dl s h _
    have hge : ¬ (s.g_pVideoData : Int) < endPtr := by omega
    refine ⟨?_, Nat.zero_le _, ?_⟩
    · cases fuel' with
      | zero => rfl
      | succ m => simp only [compileLoop]; rw [if_neg hge]
    · show endPtr ≤ (s.g_pVideoData : Int)
      omega
  | succ n ih =>
    intro fuel' dl s h h'
    by_cases hlt : (s.g_pVideoData : Int) < endPtr
    · have h1 := compileCmd_cursor env size (DataReadU8 s).1 dl (DataReadU8 s).2
      have h2 : (DataReadU8 s).2.g_pVideoData = s.g_pVideoData + 1 := rfl
      cases fuel' with
      | zero => omega
      | succ m =>
        simp only [compileLoop, compileIterations]
        rw [if_pos hlt, if_pos hlt, if_pos hlt]
        have := ih m (compileCmd env size (DataReadU8 s).1 dl (DataReadU8 s).2).1
          (compileCmd env size (DataReadU8 s).1 dl (DataReadU8 s).2).2 (by omega) (by omega)
        refine ⟨this.1, ?_, this.2.2⟩
        have := this.2.1
        omega
    · refine ⟨?_, ?_, ?_⟩
      · simp only [compileLoop]
        rw [if_neg hlt]
        cases fuel' with
        | zero => rfl
        | succ m => simp only [compileLoop]; rw [if_neg hlt]
      · simp only [compileIterations]
        rw [if_neg hlt]
        exact Nat.zero_le _
      · simp only [compileLoop]
        rw [if_neg hlt]
        show endPtr ≤ (s.g_pVideoData : Int)
        omega

/-- C28: the walks of the analyzer and of the compiler terminate, for every stream, every size
and every state.  One iteration (the command byte and its command) leaves the reader cursor
strictly above its value, the vertex loader moving it forwards only.  With
`end - g_pVideoData` iterations allowed, which is `max(size, 0)` at the start of a walk, or with
more, each loop gives the same result, stops because its condition `g_pVideoData < end` is
false, and has made at most `end - g_pVideoData` iterations; nothing is assumed of the bytes,
which may all be unrecognized opcodes. -/
theorem C28_walks_terminate (env : Env) (size : Int) (endPtr : Int) (fuel fuel' : Nat)
    (c : Counts) (dl : CachedDisplayList) (s : State)
    (hfuel : (endPtr - s.g_pVideoData).toNat ≤ fuel)
    (hfuel' : (endPtr - s.g_pVideoData).toNat ≤ fuel') :
    s.g_pVideoData < (analyzeCmd env (DataReadU8 s).1 c (DataReadU8 s).2).2.g_pVideoData
    ∧ s.g_pVideoData < (compileCmd env size (DataReadU8 s).1 dl (DataReadU8 s).2).2.g_pVideoData
    ∧ analyzeLoop env endPtr fuel c s = analyzeLoop env endPtr fuel' c s
    ∧ endPtr ≤ ((analyzeLoop env endPtr fuel c s).2.g_pVideoData : Int)
    ∧ analyzeIterations env endPtr fuel c s ≤ (endPtr - s.g_pVideoData).toNat
    ∧ compileLoop env size endPtr fuel dl s = compileLoop env size endPtr fuel' dl s
    ∧ endPtr ≤ ((compileLoop env size endPtr fuel dl s).2.g_pVideoData : Int)
    ∧ compileIterations env size endPtr fuel dl s ≤ (endPtr - s.g_pVideoData).toNat
    ∧ (((s.g_pVideoData : Int) + size - s.g_pVideoData).toNat : Int) = max size 0
    ∧ (∀ p : Nat, (p : Int) + size ≤ ((analyzeWalk env p size s).2.g_pVideoData : Int))
    ∧ (∀ p : Nat, (p : Int) + size ≤ ((compileWalk env p size dl s).2.g_pVideoData : Int)) := by
  have ha := analyzeLoop_total env endPtr fuel fuel' c s hfuel hfuel'
  have hc := compileLoop_total env size endPtr fuel fuel' dl s hfuel hfuel'
  have h1 := analyzeCmd_cursor env (DataReadU8 s).1 c (DataReadU8 s).2
  have h2 := compileCmd_cursor env size (DataReadU8 s).1 dl (DataReadU8 s).2
  have h0 : (DataReadU8 s).2.g_pVideoData = s.g_pVideoData + 1 := rfl
  refine ⟨by omega, by omega, ha.1, analyzeLoop_exit env endPtr fuel c s hfuel, ha.2, hc.1,
    hc.2.2, hc.2.1, ?_, ?_, ?_⟩
  · rcases le_total size 0 with h | h
    · rw [max_eq_right h]; omega
    · rw [max_eq_left h]; omega
  · intro p
    exact analyzeLoop_exit env _ _ _ _ (le_refl _)
  · intro p
    exact (compileLoop_total env size _ _ _ _ _ (le_refl _) (le_refl _)).2.2

set_option maxRecDepth 100000 in
/-- C28 on a list of six bytes that starts with the unrecognized opcode `0x05`. -/
theorem C28_walks_terminate_witness :
    analyzeIterations exampleEnv 1022 6 ⟨0, 0, 0, 0, 0⟩
        { illegalFirstState with g_pVideoData := 1016 }
      ≤ ((1022 : Int) - ({ illegalFirstState with g_pVideoData := 1016 } : State).g_pVideoData
          ).toNat :=
  (C28_walks_terminate exampleEnv 6 1022 6 7 ⟨0, 0, 0, 0, 0⟩ exampleEntry1
    { illegalFirstState with g_pVideoData := 1016 } (by decide) (by decide)).2.2.2.2.1


/-! ## The reader cursor and the end of the list -/

theorem handleFound_cursor (env : Env) (address size dl_id : Nat) (dl : CachedDisplayList)
    (s : State) : (handleFound env address size dl_id dl s).2.g_pVideoData = s.g_pVideoData := by
  apply handleFound_cases (fun r => r.2.g_pVideoData = s.g_pVideoData)
  · intro _ _; rfl
  · intro _ _
    apply handlePass_cases (fun r => r.2.g_pVideoData = s.g_pVideoData)
    · intro _; rfl
    · intro _ _; rfl
    · intro _ _; rfl
    · intro _ _ _; exact (deleteAll_frame _ s).g_pVideoData
    · intro _ _ _; rfl
    · intro _ _; rfl
  · intro _
    apply handlePass_cases (fun r => r.2.g_pVideoData = s.g_pVideoData)
    · intro _; rfl
    · intro _ _; rfl
    · intro _ _; rfl
    · intro _ _ _; exact (deleteAll_frame _ s).g_pVideoData
    · intro _ _ _; rfl
    · intro _ _; rfl

theorem HandleDisplayList_cursor (env : Env) (address size : Nat) (s : State) :
    (HandleDisplayList env address size s).2.g_pVideoData = s.g_pVideoData := by
  by_cases hen : s.bDlistCachingEnable = true
  · by_cases hsz : size = 0
    · rw [HandleDisplayList_off env address size s (Or.inr hsz)]
    · cases hfind : mapFind (CreateMapId address size) s.dl_map with
      | none =>
        rw [HandleDisplayList_first env address size s hen hsz hfind]
        rfl
      | some dl =>
        rw [HandleDisplayList_found env address size s dl hen hsz hfind]
        exact handleFound_cursor env address size _ dl s.withAlive
  · rw [HandleDisplayList_off env address size s (Or.inl (by simpa using hen))]

/-- C29: `AnalyzeAndRunDisplayList`, `CompileAndRunDisplayList` and `HandleDisplayList` leave
the reader cursor `g_pVideoData` equal to its value at call entry, whatever the address (it
resolves or not), the size, the entry and the state, hence on every path and for either
result. -/
theorem C29_cursor_restored (env : Env) (address : Nat) (s : State) :
    (∀ (size : Int) (dl : CachedDisplayList),
        (AnalyzeAndRunDisplayList env address size dl s).2.2.g_pVideoData = s.g_pVideoData)
    ∧ (∀ (size : Int) (dl : CachedDisplayList),
        (CompileAndRunDisplayList env address size dl s).2.2.g_pVideoData = s.g_pVideoData)
    ∧ (∀ size : Nat, (HandleDisplayList env address size s).2.g_pVideoData = s.g_pVideoData) :=
  ⟨fun _ _ => rfl, fun _ _ => rfl, fun size => HandleDisplayList_cursor env address size s⟩

set_option maxRecDepth 100000 in
/-- C30: with `size = 1` and the single byte `GX_LOAD_BP_REG` the analyzer reads the four bytes
that follow the list and issues `LoadBPReg` with them, and its loop ends with the cursor four
bytes beyond the end of the list.  Two memories that agree on the byte of the list and differ
after it have the same hash over `size` bytes and lead to different calls; so, once the list is
compiled, a call made after the bytes behind the list have changed finds the hash unchanged and
runs the routine compiled from the old bytes. -/
theorem C30_operands_beyond_the_list :
    shortListState.byteAt (exampleEnv.Memory_GetPtr 16) = GX_LOAD_BP_REG
    ∧ issued shortListState
        (AnalyzeAndRunDisplayList exampleEnv 16 (toInt32 1) exampleEntry1 shortListState).2.2
      = [Event.LoadBPReg 0x01020304]
    ∧ (analyzeWalk exampleEnv (exampleEnv.Memory_GetPtr 16) (toInt32 1)
        shortListState).2.g_pVideoData = exampleEnv.Memory_GetPtr 16 + 1 + 4
    ∧ GetHash64 exampleEnv shortListState 16 1
      = GetHash64 exampleEnv { shortListState with mem := shortListMem } 16 1
    ∧ issued { shortListState with mem := shortListMem }
        (AnalyzeAndRunDisplayList exampleEnv 16 (toInt32 1) exampleEntry1
          { shortListState with mem := shortListMem }).2.2
      = [Event.LoadBPReg 0x09090909]
    ∧ emitted shortListState shortListState2
      = [CodeItem.Prologue 4, CodeItem.CallFunctionC Fn.LoadBPReg 0x01020304,
         CodeItem.Epilogue 4]
    ∧ (HandleDisplayList exampleEnv 16 1 { shortListState2 with mem := shortListMem }).1 = true
    ∧ issued shortListState2
        (HandleDisplayList exampleEnv 16 1 { shortListState2 with mem := shortListMem }).2
      = [Event.CallCompiled 4096] := by
  decide

end DLCache
